import Mathlib

/-!
# smooth-movement: interpolation state machine

A shallow embedding of `src/smooth-movement.cpp` and the properties of its
specification that hold (or fail) on it.

Modelling conventions.

* A finite `float` value is the rational it stands for (`ℚ`).  The `float`
  operations of the progress update that round (the conversion of the elapsed
  milliseconds, the two divisions) round their exact result to the nearest
  `float`, a tie going to the even one (`roundFloat`, IEEE 754 binary32 with
  subnormals, evaluated in `float` precision).  Overflow to infinity and
  division by zero are not modelled: they cannot occur for a speed in its
  range [0.5, 2].  Comparisons, `std::min`, `std::max`, and the assignments of
  `int` positions to `float` fields are exact.  The only place where a
  non-finite float can enter the program is `std::stof`; its result has the
  type `FloatVal`, which keeps infinities and NaN, and the clamp of the `speed`
  command is evaluated on it with the comparison rules of IEEE 754.
* `std::chrono::steady_clock::time_point` is the integer number of clock ticks
  (nanoseconds) since the clock's epoch; a default-constructed time point is 0.
* `std::unordered_map<int32_t, UnitRenderState>` is an association list whose
  keys are pairwise distinct (`StoreWF`).  No function of the source depends on
  the iteration order of the map.
* `int` arithmetic that can leave the 32-bit range is wrapped (`wrap32`).
-/

namespace SmoothMovement

/-! ## Data model -/

/-- Configuration structure (`struct SmoothMovementConfig`), with the default
member initialisers of the source. -/
structure SmoothMovementConfig where
  enabled : Bool := true
  ghost_trail : Bool := true
  ghost_alpha : ℚ := 1 / 2
  interpolation_speed : ℚ := 1
  max_tracked_units : Int := 500
  deriving DecidableEq

/-- Per-unit interpolation state (`struct UnitRenderState`). -/
structure UnitRenderState where
  unit_id : Int
  x_prev : ℚ
  y_prev : ℚ
  z_prev : ℚ
  x_curr : ℚ
  y_curr : ℚ
  z_curr : ℚ
  progress : ℚ
  active : Bool
  start_time : Int
  deriving DecidableEq

/-- The default constructor `UnitRenderState()`. -/
def UnitRenderState.default : UnitRenderState :=
  { unit_id := -1, x_prev := 0, y_prev := 0, z_prev := 0,
    x_curr := 0, y_curr := 0, z_curr := 0,
    progress := 0, active := false, start_time := 0 }

/-- The part of `df::unit` the plugin reads: the id and the integer position. -/
structure DfUnit where
  id : Int
  pos_x : Int
  pos_y : Int
  pos_z : Int
  deriving DecidableEq

/-- The part of `df::world` the plugin reads.  `units_active_ok` is the truth
value the source tests with `!world->units.active`; `units_active` is the
vector of unit pointers, a null pointer being `none`. -/
structure DfWorld where
  units_active_ok : Bool
  units_active : List (Option DfUnit)
  deriving DecidableEq

/-- What `is_unit_visible` reads from the host: whether
`Gui::getViewscreenByType<df::viewscreen_dwarfmodest>(0)` is non-null, the
result of `Gui::getViewCoords`, and `gps->dimx`, `gps->dimy`. -/
structure ViewEnv where
  dwarfmode : Bool
  view_x : Int
  view_y : Int
  view_z : Int
  dimx : Int
  dimy : Int
  deriving DecidableEq

/-- The host as seen by one detection pass: the `world` global (null is
`none`), the camera, and the value `steady_clock::now()` returns in the pass. -/
structure HostEnv where
  world : Option DfWorld
  view : ViewEnv
  now : Int
  deriving DecidableEq

/-- The state store `unit_states`. -/
abbrev Store := List (Int × UnitRenderState)

/-- The global state of the plugin: `config`, `unit_states` and the function
static `update_counter` of `plugin_onupdate`.  The global `last_tick_time` is
written by `plugin_init` and never read; it is left out. -/
structure PluginState where
  config : SmoothMovementConfig
  unit_states : Store
  update_counter : Int
  deriving DecidableEq

/-- The state right after the plugin is loaded. -/
def PluginState.initial : PluginState :=
  { config := {}, unit_states := [], update_counter := 0 }

/-- `static const float TICK_DURATION_MS = 100.0f`. -/
def TICK_DURATION_MS : ℚ := 100

/-- Clock ticks (nanoseconds) per millisecond. -/
def TICKS_PER_MS : Int := 1000000

/-- Two's complement wrap of an `int` result to 32 bits. -/
def wrap32 (x : Int) : Int := (x + 2147483648) % 4294967296 - 2147483648

/-- The value is one an `int` holds: the operation of the source that
computes it does not overflow. -/
abbrev InIntRange (x : Int) : Prop := -2147483648 ≤ x ∧ x ≤ 2147483647

/-! ## The store -/

/-- The keys of the store. -/
def storeIds (s : Store) : List Int := s.map Prod.fst

/-- Well-formed store: a map holds each key once. -/
def StoreWF (s : Store) : Prop := (storeIds s).Nodup

/-- The lookup `unit_states.find(uid)`; `none` is `unit_states.end()`. -/
def storeFind : Store → Int → Option UnitRenderState
  | [], _ => none
  | (k, v) :: rest, uid => if k = uid then some v else storeFind rest uid

/-- The assignment `unit_states[uid] = state`: overwrite the entry at `uid`,
or add one when there is none. -/
def storeAssign : Store → Int → UnitRenderState → Store
  | [], uid, v => [(uid, v)]
  | (k, w) :: rest, uid, v =>
    if k = uid then (k, v) :: rest else (k, w) :: storeAssign rest uid v

/-- Mutation through the reference `it->second` of the entry found at `uid`. -/
def storeModify : Store → Int → (UnitRenderState → UnitRenderState) → Store
  | [], _, _ => []
  | (k, w) :: rest, uid, f =>
    if k = uid then (k, f w) :: rest else (k, w) :: storeModify rest uid f

/-- The set `existing_units` of the detection pass (a map to `bool` whose
values are all `true`; only its keys are read): `existing_units[uid] = true`. -/
def markSeen (seen : List Int) (uid : Int) : List Int :=
  if uid ∈ seen then seen else uid :: seen

/-- The erase loop at the end of the detection pass: every entry whose key is
not in `existing_units` is erased. -/
def eraseUnseen (seen : List Int) (s : Store) : Store :=
  s.filter (fun e => decide (e.1 ∈ seen))

/-! ## Visibility filter -/

/-- The function `is_unit_visible`; a null `unit` is `none`. -/
def is_unit_visible (v : ViewEnv) (unit : Option DfUnit) : Bool :=
  match unit with
  | none => false
  | some u =>
    if !v.dwarfmode then false
    else if u.pos_z ≠ v.view_z then false
    else
      let viewport_width := v.dimx
      let viewport_height := v.dimy
      let rel_x := wrap32 (u.pos_x - v.view_x)
      let rel_y := wrap32 (u.pos_y - v.view_y)
      decide (rel_x ≥ -2 ∧ rel_x < wrap32 (viewport_width + 2) ∧
              rel_y ≥ -2 ∧ rel_y < wrap32 (viewport_height + 2))

/-! ## Tick-change detector -/

/-- The state inserted for a unit seen for the first time. -/
def newUnitState (u : DfUnit) : UnitRenderState :=
  { UnitRenderState.default with
    unit_id := u.id
    x_prev := (u.pos_x : ℚ), x_curr := (u.pos_x : ℚ)
    y_prev := (u.pos_y : ℚ), y_curr := (u.pos_y : ℚ)
    z_prev := (u.pos_z : ℚ), z_curr := (u.pos_z : ℚ)
    progress := 1
    active := false }

/-- The `else` branch of the loop body: the update of an entry that is
already tracked. -/
def retrack (current_time : Int) (u : DfUnit) (state : UnitRenderState) :
    UnitRenderState :=
  if state.x_curr ≠ (u.pos_x : ℚ) ∨ state.y_curr ≠ (u.pos_y : ℚ) ∨
      state.z_curr ≠ (u.pos_z : ℚ) then
    { state with
      x_prev := state.x_curr, y_prev := state.y_curr, z_prev := state.z_curr
      x_curr := (u.pos_x : ℚ), y_curr := (u.pos_y : ℚ), z_curr := (u.pos_z : ℚ)
      progress := 0
      active := true
      start_time := current_time }
  else state

/-- The loop body from `unit_states.find(uid)` to the end of the `if`. -/
def trackUnit (current_time : Int) (u : DfUnit) (s : Store) : Store :=
  match storeFind s u.id with
  | none => storeAssign s u.id (newUnitState u)
  | some _ => storeModify s u.id (retrack current_time u)

/-- The `for (auto unit : world->units.active)` loop, from the unit list that
is still to be visited, `tracked_count`, `existing_units` and `unit_states`.
`tracked_count` stays at or below `max_tracked_units`, so it cannot overflow. -/
def scanUnits (cfg : SmoothMovementConfig) (view : ViewEnv) (current_time : Int) :
    List (Option DfUnit) → Int → List Int → Store → List Int × Store
  | [], _, existing_units, s => (existing_units, s)
  | none :: rest, tracked_count, existing_units, s =>
    scanUnits cfg view current_time rest tracked_count existing_units s
  | some u :: rest, tracked_count, existing_units, s =>
    if !is_unit_visible view (some u) then
      scanUnits cfg view current_time rest tracked_count existing_units s
    else if tracked_count ≥ cfg.max_tracked_units then
      (existing_units, s)
    else
      scanUnits cfg view current_time rest (tracked_count + 1)
        (markSeen existing_units u.id) (trackUnit current_time u s)

/-- The detection pass `update_unit_positions`. -/
def update_unit_positions (env : HostEnv) (st : PluginState) : PluginState :=
  if !st.config.enabled then st
  else
    match env.world with
    | none => st
    | some world =>
      if !world.units_active_ok then st
      else
        let r := scanUnits st.config env.view env.now world.units_active 0 []
          st.unit_states
        { st with unit_states := eraseUnseen r.1 r.2 }

/-! ## Progress updater -/

/-- The function template `std::min(a, b)` on `float`: `(b < a) ? b : a`. -/
def stdMin (a b : ℚ) : ℚ := if b < a then b else a

/-- The value of `duration_cast<milliseconds>(current_time - start_time).count()`:
the tick difference divided by the ticks of a millisecond, rounded toward
zero. -/
def elapsedMs (current_time start_time : Int) : Int :=
  Int.tdiv (current_time - start_time) TICKS_PER_MS

/-- Round a rational to the nearest integer, a tie going to the even one. -/
def roundHalfEven (q : ℚ) : Int :=
  if q - ⌊q⌋ < 1 / 2 then ⌊q⌋
  else if 1 / 2 < q - ⌊q⌋ then ⌊q⌋ + 1
  else if ⌊q⌋ % 2 = 0 then ⌊q⌋ else ⌊q⌋ + 1

/-- The spacing of the `float` values around `x`: 2 ^ (e - 23) where 2 ^ e is
the power of two at or below |x|, and e = -126 for the subnormal range. -/
def floatQuantum (x : ℚ) : ℚ := (2 : ℚ) ^ (max (Int.log 2 |x|) (-126) - 23)

/-- The `float` nearest to the rational `x`, a tie going to the one with an
even significand. -/
def roundFloat (x : ℚ) : ℚ := (roundHalfEven (x / floatQuantum x) : ℚ) * floatQuantum x

/-- The `float` division `a / b`: the exact quotient, rounded. -/
def floatDiv (a b : ℚ) : ℚ := roundFloat (a / b)

/-- The conversion of an integer to `float`, as the usual arithmetic
conversions apply it to the `long long` operand of `elapsed / adjusted_duration`. -/
def floatOfInt (n : Int) : ℚ := roundFloat (n : ℚ)

/-- The body of the loop of `update_interpolation` for one entry. -/
def interpolateState (cfg : SmoothMovementConfig) (current_time : Int)
    (state : UnitRenderState) : UnitRenderState :=
  if !state.active then state
  else
    let elapsed := elapsedMs current_time state.start_time
    let adjusted_duration := floatDiv TICK_DURATION_MS cfg.interpolation_speed
    let state1 :=
      { state with progress := stdMin 1 (floatDiv (floatOfInt elapsed) adjusted_duration) }
    if state1.progress ≥ 1 then
      { state1 with active := false, progress := 1 }
    else state1

/-- The progress update `update_interpolation`; `current_time` is the value
`steady_clock::now()` returns in it. -/
def update_interpolation (current_time : Int) (st : PluginState) : PluginState :=
  if !st.config.enabled then st
  else
    { st with
      unit_states :=
        st.unit_states.map (fun pair =>
          (pair.1, interpolateState st.config current_time pair.2)) }

/-! ## Main update hook -/

/-- The hook `plugin_onupdate`.  `env.now` is the clock value read by the
detection pass and `now_interp` the one read by the progress update that
follows it.  The counter is an `int`; its increment is wrapped, and
`update_counter % 10` is the remainder of the division rounded toward zero. -/
def plugin_onupdate (env : HostEnv) (now_interp : Int) (st : PluginState) :
    PluginState :=
  if !st.config.enabled then st
  else
    let st1 := { st with update_counter := wrap32 (st.update_counter + 1) }
    let st2 :=
      if Int.tmod st1.update_counter 10 = 0 then update_unit_positions env st1
      else st1
    update_interpolation now_interp st2

/-- The function `plugin_shutdown`. -/
def plugin_shutdown (st : PluginState) : PluginState :=
  { st with unit_states := [] }

/-! ## Command interface -/

/-- A `float` as `std::stof` can return it. -/
inductive FloatVal where
  | finite (q : ℚ)
  | posInf
  | negInf
  | nan
  deriving DecidableEq

/-- The comparison `a < b` of IEEE 754: false as soon as one side is NaN. -/
def FloatVal.lt : FloatVal → FloatVal → Bool
  | .finite a, .finite b => decide (a < b)
  | .finite _, .posInf => true
  | .negInf, .finite _ => true
  | .negInf, .posInf => true
  | _, _ => false

/-- The template `std::min(a, b)`: `(b < a) ? b : a`. -/
def FloatVal.stdMin (a b : FloatVal) : FloatVal := if FloatVal.lt b a then b else a

/-- The template `std::max(a, b)`: `(a < b) ? b : a`. -/
def FloatVal.stdMax (a b : FloatVal) : FloatVal := if FloatVal.lt a b then b else a

/-- The rational a finite float stands for (0 for the others, which
`clampSpeed` never yields, see `clampSpeed_finite`). -/
def FloatVal.toRat : FloatVal → ℚ
  | .finite q => q
  | _ => 0

/-- The expression `std::max(0.5f, std::min(2.0f, speed))`. -/
def clampSpeed (speed : FloatVal) : FloatVal :=
  FloatVal.stdMax (.finite (1 / 2)) (FloatVal.stdMin (.finite 2) speed)

/-- The library functions the command handler calls: `std::stof` (`none` when
it throws) and the `printf` conversion `%.1f`. -/
structure HostLib where
  stof : String → Option FloatVal
  fmt1 : ℚ → String

/-- The enumeration `command_result`, as far as the plugin returns it. -/
inductive command_result where
  | CR_OK
  | CR_WRONG_USAGE
  deriving DecidableEq

/-- How a call of the command handler ends: it returns a code, or the
exception of `std::stof` leaves it. -/
inductive CmdOutcome where
  | returned (r : command_result)
  | threw
  deriving DecidableEq

/-- The result of a command: the state after it, what it printed, how it
ended. -/
structure CmdResult where
  state : PluginState
  out : List String
  outcome : CmdOutcome

/-- The text of `%s` for `b ? "Yes" : "No"`. -/
def yesNo (b : Bool) : String := if b then "Yes" else "No"

/-- The command handler `smooth_movement_cmd`. -/
def smooth_movement_cmd (lib : HostLib) (parameters : List String)
    (st : PluginState) : CmdResult :=
  match parameters with
  | [] =>
    { state := st
      out := ["Usage: smooth-movement [enable|disable|ghost|speed|status]\n"]
      outcome := .returned .CR_WRONG_USAGE }
  | cmd :: args =>
    if cmd = "enable" then
      { state := { st with config := { st.config with enabled := true } }
        out := ["Smooth movement enabled.\n"]
        outcome := .returned .CR_OK }
    else if cmd = "disable" then
      { state := { st with config := { st.config with enabled := false },
                           unit_states := [] }
        out := ["Smooth movement disabled.\n"]
        outcome := .returned .CR_OK }
    else if cmd = "ghost" then
      match args with
      | [] =>
        { state := st
          out := ["Usage: smooth-movement ghost [on|off]\n"]
          outcome := .returned .CR_WRONG_USAGE }
      | arg :: _ =>
        let ghost_trail := decide (arg = "on")
        { state := { st with config := { st.config with ghost_trail := ghost_trail } }
          out := ["Ghost trail " ++ (if ghost_trail then "enabled" else "disabled") ++ ".\n"]
          outcome := .returned .CR_OK }
    else if cmd = "speed" then
      match args with
      | [] =>
        { state := st
          out := ["Usage: smooth-movement speed <0.5-2.0>\n"]
          outcome := .returned .CR_WRONG_USAGE }
      | arg :: _ =>
        match lib.stof arg with
        | none => { state := st, out := [], outcome := .threw }
        | some speed =>
          let interpolation_speed := (clampSpeed speed).toRat
          { state := { st with config :=
              { st.config with interpolation_speed := interpolation_speed } }
            out := ["Interpolation speed set to " ++ lib.fmt1 interpolation_speed ++ "\n"]
            outcome := .returned .CR_OK }
    else if cmd = "status" then
      { state := st
        out := ["=== Smooth Movement Status ===\n",
                "Enabled: " ++ yesNo st.config.enabled ++ "\n",
                "Ghost trail: " ++ yesNo st.config.ghost_trail ++ "\n",
                "Interpolation speed: " ++ lib.fmt1 st.config.interpolation_speed ++ "\n",
                "Tracked units: " ++ toString st.unit_states.length ++ "\n"]
        outcome := .returned .CR_OK }
    else
      { state := st
        out := ["Unknown command: " ++ cmd ++ "\n"]
        outcome := .returned .CR_WRONG_USAGE }

/-! ## Query interface -/

/-- The outputs of `get_unit_interpolation_data`, written only when it returns
`true`. -/
structure InterpolationData where
  x_prev : ℚ
  y_prev : ℚ
  x_curr : ℚ
  y_curr : ℚ
  progress : ℚ
  deriving DecidableEq

/-- The query `get_unit_interpolation_data`: `none` is the return value
`false`, which leaves the output parameters as they were. -/
def get_unit_interpolation_data (st : PluginState) (unit_id : Int) :
    Option InterpolationData :=
  if !st.config.enabled then none
  else
    match storeFind st.unit_states unit_id with
    | none => none
    | some state =>
      if !state.active then none
      else
        some { x_prev := state.x_prev, y_prev := state.y_prev,
               x_curr := state.x_curr, y_curr := state.y_curr,
               progress := state.progress }

/-- The result of a call of `get_unit_interpolation_data` with its reference
parameters made explicit: the global state after the call, the returned
`bool`, and the values of the five output parameters after the call. -/
structure QueryResult where
  state : PluginState
  ret : Bool
  outs : InterpolationData

/-- The query `get_unit_interpolation_data` as the source writes it: the
function reads the globals, returns a `bool`, and assigns the reference
parameters `x_prev, y_prev, x_curr, y_curr, progress` (whose values before the
call are `outs`) only on the path that returns `true`. -/
def get_unit_interpolation_data_call (st : PluginState) (unit_id : Int)
    (outs : InterpolationData) : QueryResult :=
  if !st.config.enabled then { state := st, ret := false, outs := outs }
  else
    match storeFind st.unit_states unit_id with
    | none => { state := st, ret := false, outs := outs }
    | some state =>
      if !state.active then { state := st, ret := false, outs := outs }
      else
        { state := st
          ret := true
          outs := { x_prev := state.x_prev, y_prev := state.y_prev,
                    x_curr := state.x_curr, y_curr := state.y_curr,
                    progress := state.progress } }

/-- The query `should_render_ghost`. -/
def should_render_ghost (st : PluginState) : Bool :=
  st.config.enabled && st.config.ghost_trail

/-- The query `get_ghost_alpha`. -/
def get_ghost_alpha (st : PluginState) : ℚ := st.config.ghost_alpha

/-! ## Runs of the public operations -/

/-- One call into the plugin, with what it reads from the host. -/
inductive Op where
  | onupdate (env : HostEnv) (now_interp : Int)
  | detect (env : HostEnv)
  | interp (current_time : Int)
  | command (parameters : List String)

/-- The state after one operation. -/
def applyOp (lib : HostLib) (op : Op) (st : PluginState) : PluginState :=
  match op with
  | .onupdate env now_interp => plugin_onupdate env now_interp st
  | .detect env => update_unit_positions env st
  | .interp current_time => update_interpolation current_time st
  | .command parameters => (smooth_movement_cmd lib parameters st).state

/-- The state after a run of operations. -/
def runOps (lib : HostLib) : List Op → PluginState → PluginState
  | [], st => st
  | op :: rest, st => runOps lib rest (applyOp lib op st)

/-- The clock readings of an operation are in order and not before `t`. -/
def Op.clockFrom (t : Int) : Op → Prop
  | .onupdate env now_interp => t ≤ env.now ∧ env.now ≤ now_interp
  | .detect env => t ≤ env.now
  | .interp current_time => t ≤ current_time
  | .command _ => True

/-- The last clock reading once the operation is over (`t` if it reads none). -/
def Op.clockAfter (t : Int) : Op → Int
  | .onupdate _ now_interp => now_interp
  | .detect env => env.now
  | .interp current_time => current_time
  | .command _ => t

/-- The clock never goes back along the run, which starts at reading `t`. -/
def clockMonotone : Int → List Op → Prop
  | _, [] => True
  | t, op :: rest => op.clockFrom t ∧ clockMonotone (op.clockAfter t) rest

/-- The last clock reading of a run that starts at reading `t`. -/
def clockEnd : Int → List Op → Int
  | t, [] => t
  | t, op :: rest => clockEnd (op.clockAfter t) rest

/-- States the plugin can be in: the state after loading, and every state
an operation leads to from one of them. -/
inductive Reachable (lib : HostLib) : PluginState → Prop where
  | initial : Reachable lib PluginState.initial
  | step (op : Op) (st : PluginState) :
      Reachable lib st → Reachable lib (applyOp lib op st)

/-- States the plugin can be in under a clock that never goes back, with the
last clock reading. -/
inductive ReachableAt (lib : HostLib) : Int → PluginState → Prop where
  | initial (t : Int) : ReachableAt lib t PluginState.initial
  | step (op : Op) (t : Int) (st : PluginState) :
      ReachableAt lib t st → op.clockFrom t →
      ReachableAt lib (op.clockAfter t) (applyOp lib op st)

/-! ## Specification-side definitions -/

/-- The non-null live entities that pass the visibility filter, in list order. -/
def visibleUnits (view : ViewEnv) (live : List (Option DfUnit)) : List DfUnit :=
  live.filterMap (fun o => if is_unit_visible view o then o else none)

/-- The visible live entities scanned before the cap: the first
`max_tracked_units` visible ones. -/
def scannedUnits (cfg : SmoothMovementConfig) (view : ViewEnv)
    (live : List (Option DfUnit)) : List DfUnit :=
  (visibleUnits view live).take cfg.max_tracked_units.toNat

/-- The ids of the non-null entries of the live list. -/
def liveIds (live : List (Option DfUnit)) : List Int :=
  (live.filterMap id).map DfUnit.id

/-- What the loop body does to the entry of one unit: `none` is "not tracked". -/
def trackEntry (current_time : Int) (u : DfUnit) : Option UnitRenderState → UnitRenderState
  | none => newUnitState u
  | some state => retrack current_time u state

/-- The loop body applied to a list of units, one after the other. -/
def trackAll (current_time : Int) : List DfUnit → List Int × Store → List Int × Store
  | [], acc => acc
  | u :: rest, acc =>
    trackAll current_time rest (markSeen acc.1 u.id, trackUnit current_time u acc.2)

/-! ## Predicates on entries, states and runs -/

/-- The entry has its progress in [0,1] and, when active, a start time not
after `t`. -/
def EntryInRange (t : Int) (e : UnitRenderState) : Prop :=
  (0 ≤ e.progress ∧ e.progress ≤ 1) ∧ (e.active = true → e.start_time ≤ t)

/-- The progress the progress update computes at clock reading `t` for an
interpolation started at `start`, at the given speed. -/
def progressBound (t : Int) (speed : ℚ) (start : Int) : ℚ :=
  min 1 (floatDiv (floatOfInt (elapsedMs t start)) (floatDiv TICK_DURATION_MS speed))

/-- An active entry started not after `t` and its progress is at most what
the progress update would compute at `t` with the given speed. -/
def EntryBounded (t : Int) (speed : ℚ) (e : UnitRenderState) : Prop :=
  e.active = true → e.start_time ≤ t ∧ e.progress ≤ progressBound t speed e.start_time

/-- The speed is in its range and the entry of entity `k`, if there is one, is
bounded at `t`. -/
def KeyBounded (k : Int) (t : Int) (st : PluginState) : Prop :=
  (1 / 2 ≤ st.config.interpolation_speed ∧ st.config.interpolation_speed ≤ 2) ∧
  ∀ e, storeFind st.unit_states k = some e →
    EntryBounded t st.config.interpolation_speed e

/-- Entity `k` is not part-way through an interpolation: it is untracked,
settled, or at progress 0 (as it is when a move of it has just been detected). -/
def NotUnderWay (k : Int) (st : PluginState) : Prop :=
  ∀ e, storeFind st.unit_states k = some e → e.active = true → e.progress = 0

/-- The stored progress of entity `k` is not ahead of the current speed: if
`k` is tracked and active, its progress is at most the value a progress update
at clock reading `t` would compute with the speed of the state. -/
def ProgressCurrent (k : Int) (t : Int) (st : PluginState) : Prop :=
  ∀ e, storeFind st.unit_states k = some e → e.active = true →
    e.progress ≤ progressBound t st.config.interpolation_speed e.start_time

/-- What a detection pass at `now` can do to a tracked entry: nothing, or a
restart of its interpolation at `now`. -/
def KeptOrRestarted (now : Int) (e e' : UnitRenderState) : Prop :=
  e' = e ∨ (e'.progress = 0 ∧ e'.start_time = now)

/-- No operation of the run lowers `interpolation_speed`. -/
def speedNeverLowered (lib : HostLib) : PluginState → List Op → Prop
  | _, [] => True
  | st, op :: rest =>
    st.config.interpolation_speed ≤ (applyOp lib op st).config.interpolation_speed ∧
    speedNeverLowered lib (applyOp lib op st) rest

/-- The entry `e` is active and is in the same interpolation as `e₁`: same
start time, same current position. -/
def SameInterpolation (e₁ e : UnitRenderState) : Prop :=
  e.active = true ∧ e.start_time = e₁.start_time ∧
  e.x_curr = e₁.x_curr ∧ e.y_curr = e₁.y_curr ∧ e.z_curr = e₁.z_curr

/-- Entity `k` is tracked and in the interpolation of `e₁` in the state. -/
def SteadyAt (k : Int) (e₁ : UnitRenderState) (st : PluginState) : Prop :=
  ∃ e, storeFind st.unit_states k = some e ∧ SameInterpolation e₁ e

/-- Entity `k` stays active and no position change of it is detected along
the run: it is in the interpolation of `e₁` before and after every operation. -/
def staysActive (lib : HostLib) (k : Int) (e₁ : UnitRenderState) :
    PluginState → List Op → Prop
  | st, [] => SteadyAt k e₁ st
  | st, op :: rest => SteadyAt k e₁ st ∧ staysActive lib k e₁ (applyOp lib op st) rest

/-! ## Concrete inputs -/

/-- A camera in dwarf mode at the origin of level 0 with an 80 x 25 viewport. -/
def exView : ViewEnv :=
  { dwarfmode := true, view_x := 0, view_y := 0, view_z := 0, dimx := 80, dimy := 25 }

/-- A world with a null pointer, an off-screen unit (id 2) and three visible
units (ids 1, 3, 4). -/
def exWorld : DfWorld :=
  { units_active_ok := true
    units_active :=
      [none, some ⟨2, 100, 5, 0⟩, some ⟨1, 5, 5, 0⟩, some ⟨3, 7, 7, 0⟩, some ⟨4, 8, 8, 0⟩] }

/-- The host with `exWorld` at clock reading 0. -/
def exEnv : HostEnv := { world := some exWorld, view := exView, now := 0 }

/-- The world of `exWorld` one tick later: unit 1 has moved to (6,5,0), unit 3
has moved off-screen, unit 4 has not moved. -/
def exWorldMoved : DfWorld :=
  { units_active_ok := true
    units_active :=
      [none, some ⟨2, 100, 5, 0⟩, some ⟨1, 6, 5, 0⟩, some ⟨3, 200, 7, 0⟩, some ⟨4, 8, 8, 0⟩] }

/-- The host with `exWorldMoved` at clock reading 7 ms. -/
def exEnvMoved : HostEnv := { world := some exWorldMoved, view := exView, now := 7000000 }

/-- The default state with the cap lowered to 2. -/
def exStateCap2 : PluginState :=
  { config := { max_tracked_units := 2 }, unit_states := [], update_counter := 0 }

/-- A host library whose `std::stof` reads the numerals used in the examples
and throws on every other string. -/
def exLib : HostLib :=
  { stof := fun s =>
      if s = "10" then some (.finite 10)
      else if s = "0.1" then some (.finite (1 / 10))
      else if s = "2" then some (.finite 2)
      else if s = "0.5" then some (.finite (1 / 2))
      else none
    fmt1 := fun _ => "" }

/-- A state with the speed 1.6666666f = 13981013 / 2 ^ 23 (what `speed
1.6666666` sets) in which unit 1 started to move from (5,5,0) to (6,5,0) at
clock reading 0. -/
def exFineSpeedState : PluginState :=
  { config := { interpolation_speed := 13981013 / 8388608 }
    unit_states :=
      [(1, { unit_id := 1, x_prev := 5, y_prev := 5, z_prev := 0,
             x_curr := 6, y_curr := 5, z_curr := 0,
             progress := 0, active := true, start_time := 0 })]
    update_counter := 0 }

/-- A run from the loaded plugin: unit 1 is first seen at (5,5,0), is found
at (6,5,0) by the pass at 7 ms, and the progress update at 107 ms completes
its interpolation. -/
def exSettledRun : List Op :=
  [.detect exEnv, .detect exEnvMoved, .interp 107000000]

/-- The entry of unit 1 after `exSettledRun`. -/
def exSettledEntry : UnitRenderState :=
  { unit_id := 1, x_prev := 5, y_prev := 5, z_prev := 0,
    x_curr := 6, y_curr := 5, z_curr := 0,
    progress := 1, active := false, start_time := 7000000 }

/-- A run from the loaded plugin: unit 1 is first seen at (5,5,0), is found
at (6,5,0) by the pass at 7 ms, and the progress update at 57 ms finds it
half way. -/
def exMidRun : List Op :=
  [.detect exEnv, .detect exEnvMoved, .interp 57000000]

/-- The entry of unit 1 after `exMidRun`. -/
def exMidEntry : UnitRenderState :=
  { unit_id := 1, x_prev := 5, y_prev := 5, z_prev := 0,
    x_curr := 6, y_curr := 5, z_curr := 0,
    progress := 1 / 2, active := true, start_time := 7000000 }

/-- A run from the loaded plugin up to a first observation: unit 1 is first
seen at (5,5,0), is found at (6,5,0) by the pass at 7 ms, the speed is set to
2, and the progress update at 32 ms (25 ms elapsed, duration 50 ms) gives
progress 1/2. -/
def exFastRun : List Op :=
  [.detect exEnv, .detect exEnvMoved, .command ["speed", "2"], .interp 32000000]

/-- The continuation of `exFastRun` up to a second observation: the speed is
set to 0.5 and the progress update at 37 ms (30 ms elapsed, duration 200 ms)
gives progress 0.15f = 5033165 / 2 ^ 25, the `float` nearest to 3/20. -/
def exSlowRun : List Op :=
  [.command ["speed", "0.5"], .interp 37000000]

/-- The entry of unit 1 after `exFastRun`. -/
def exFastEntry : UnitRenderState :=
  { unit_id := 1, x_prev := 5, y_prev := 5, z_prev := 0,
    x_curr := 6, y_curr := 5, z_curr := 0,
    progress := 1 / 2, active := true, start_time := 7000000 }

/-- The entry of unit 1 after `exFastRun` and `exSlowRun`. -/
def exSlowEntry : UnitRenderState :=
  { unit_id := 1, x_prev := 5, y_prev := 5, z_prev := 0,
    x_curr := 6, y_curr := 5, z_curr := 0,
    progress := 5033165 / 33554432, active := true, start_time := 7000000 }

/-- The continuation of `exMidRun` by a progress update at 82 ms (75 ms
elapsed, duration 100 ms). -/
def exLateRun : List Op := [.interp 82000000]

/-- The entry of unit 1 after `exMidRun` and `exLateRun`. -/
def exLateEntry : UnitRenderState :=
  { unit_id := 1, x_prev := 5, y_prev := 5, z_prev := 0,
    x_curr := 6, y_curr := 5, z_curr := 0,
    progress := 3 / 4, active := true, start_time := 7000000 }

/-- The host of `exEnvMoved` two milliseconds later, nothing having moved. -/
def exEnvMovedLater : HostEnv := { world := some exWorldMoved, view := exView, now := 9000000 }

/-- The number of on-update callbacks of the run that are made while the
plugin is enabled. -/
def enabledCallbacks (lib : HostLib) : PluginState → List Op → Nat
  | _, [] => 0
  | st, .onupdate env now_interp :: rest =>
    (if st.config.enabled then 1 else 0) +
      enabledCallbacks lib (applyOp lib (.onupdate env now_interp) st) rest
  | st, op :: rest => enabledCallbacks lib (applyOp lib op st) rest

/-- The world of the end-to-end scenario: entity 1 alone, at (x,5,0). -/
def scenarioWorld (x : Int) : DfWorld :=
  { units_active_ok := true, units_active := [some ⟨1, x, 5, 0⟩] }

/-- The host of the end-to-end scenario at clock reading `t`, entity 1 being
at (x,5,0) in the 80 x 25 viewport at the origin. -/
def scenarioEnv (x : Int) (t : Int) : HostEnv :=
  { world := some (scenarioWorld x), view := exView, now := t }

/-- The scenario after the first detection pass, at `t₁`: entity 1 is seen at
(5,5,0). -/
def scenarioSeen (t₁ : Int) : PluginState :=
  update_unit_positions (scenarioEnv 5 t₁) PluginState.initial

/-- The scenario after the detection pass at `t₀`, which finds entity 1 at
(6,5,0). -/
def scenarioMoved (t₁ t₀ : Int) : PluginState :=
  update_unit_positions (scenarioEnv 6 t₀) (scenarioSeen t₁)

/-- The scenario after the progress update at `t₀` + 50 ms. -/
def scenarioHalf (t₁ t₀ : Int) : PluginState :=
  update_interpolation (t₀ + 50 * TICKS_PER_MS) (scenarioMoved t₁ t₀)

/-- The scenario after the progress update at `t₀` + 100 ms that follows the
one at `t₀` + 50 ms. -/
def scenarioDone (t₁ t₀ : Int) : PluginState :=
  update_interpolation (t₀ + 100 * TICKS_PER_MS) (scenarioHalf t₁ t₀)

/-- Nine on-update callbacks in a row, with the live entities of `exWorld`. -/
def exNineCallbacks : List Op := List.replicate 9 (.onupdate exEnv 0)

/-- The state after `speed 0.5` entered right after load. -/
def exHalfSpeedState : PluginState :=
  { config := { interpolation_speed := 1 / 2 }, unit_states := [], update_counter := 0 }

/-- A run from `exHalfSpeedState` up to a first observation: unit 1 is first
seen at (5,5,0), is found at (6,5,0) by the pass at 7 ms, and the progress
update at 57 ms (50 ms elapsed, duration 200 ms) gives progress 1/4. -/
def exQuarterRun : List Op :=
  [.detect exEnv, .detect exEnvMoved, .interp 57000000]

/-- The entry of unit 1 after `exQuarterRun`. -/
def exQuarterEntry : UnitRenderState :=
  { unit_id := 1, x_prev := 5, y_prev := 5, z_prev := 0,
    x_curr := 6, y_curr := 5, z_curr := 0,
    progress := 1 / 4, active := true, start_time := 7000000 }

/-- The continuation of `exQuarterRun` by a progress update at 107 ms (100 ms
elapsed, duration 200 ms). -/
def exHalfRun : List Op := [.interp 107000000]

/-- The entry of unit 1 after `exQuarterRun` and `exHalfRun`. -/
def exHalfEntry : UnitRenderState :=
  { unit_id := 1, x_prev := 5, y_prev := 5, z_prev := 0,
    x_curr := 6, y_curr := 5, z_curr := 0,
    progress := 1 / 2, active := true, start_time := 7000000 }

/-- The continuation of `exFastRun` and `exSlowRun` by a progress update at
57 ms (50 ms elapsed, duration 200 ms). -/
def exRecoverRun : List Op := [.interp 57000000]

/-- The entry of unit 1 after `exFastRun`, `exSlowRun` and `exRecoverRun`. -/
def exRecoverEntry : UnitRenderState :=
  { unit_id := 1, x_prev := 5, y_prev := 5, z_prev := 0,
    x_curr := 6, y_curr := 5, z_curr := 0,
    progress := 1 / 4, active := true, start_time := 7000000 }

/-! ## Lemmas on the store -/

theorem storeFind_eq_none_iff (s : Store) (k : Int) :
    storeFind s k = none ↔ k ∉ storeIds s := by
  induction s with
  | nil => simp [storeFind, storeIds]
  | cons p rest ih =>
    obtain ⟨k', v⟩ := p
    by_cases h : k' = k
    · simp [storeFind, storeIds, h]
    · have h' : ¬ k = k' := fun e => h e.symm
      simpa [storeFind, storeIds, h, h'] using ih

theorem storeFind_mem (s : Store) (k : Int) (e : UnitRenderState)
    (h : storeFind s k = some e) : (k, e) ∈ s := by
  induction s with
  | nil => simp [storeFind] at h
  | cons p rest ih =>
    obtain ⟨k', v⟩ := p
    by_cases hk : k' = k
    · simp [storeFind, hk] at h
      simp [hk, h]
    · simp [storeFind, hk] at h
      exact List.mem_cons_of_mem _ (ih h)

theorem storeFind_assign (s : Store) (k k' : Int) (v : UnitRenderState) :
    storeFind (storeAssign s k v) k' = if k = k' then some v else storeFind s k' := by
  induction s with
  | nil => simp [storeFind, storeAssign]
  | cons p rest ih =>
    obtain ⟨a, w⟩ := p
    by_cases ha : a = k
    · subst ha
      by_cases hk : a = k' <;> simp [storeFind, storeAssign, hk]
    · by_cases hk : a = k'
      · subst hk
        have h1 : ¬ k = a := fun e => ha e.symm
        simp [storeFind, storeAssign, ha, h1]
      · simp [storeFind, storeAssign, ha, hk, ih]

theorem storeFind_modify (s : Store) (k k' : Int) (f : UnitRenderState → UnitRenderState) :
    storeFind (storeModify s k f) k' =
      if k = k' then (storeFind s k).map f else storeFind s k' := by
  induction s with
  | nil => simp [storeFind, storeModify]
  | cons p rest ih =>
    obtain ⟨a, w⟩ := p
    by_cases ha : a = k
    · subst ha
      by_cases hk : a = k' <;> simp [storeFind, storeModify, hk]
    · by_cases hk : a = k'
      · subst hk
        have h1 : ¬ k = a := fun e => ha e.symm
        simp [storeFind, storeModify, ha, h1]
      · simp [storeFind, storeModify, ha, hk, ih]

theorem storeIds_assign (s : Store) (k : Int) (v : UnitRenderState)
    (h : k ∉ storeIds s) : storeIds (storeAssign s k v) = storeIds s ++ [k] := by
  induction s with
  | nil => simp [storeAssign, storeIds]
  | cons p rest ih =>
    obtain ⟨a, w⟩ := p
    have ha : ¬ a = k := by
      intro e; apply h; simp [storeIds, e]
    have hr : k ∉ storeIds rest := by
      intro e; apply h; simp only [storeIds, List.map_cons, List.mem_cons]; right; exact e
    have := ih hr
    simp only [storeIds] at this
    simp [storeAssign, storeIds, ha, this]

theorem storeIds_modify (s : Store) (k : Int) (f : UnitRenderState → UnitRenderState) :
    storeIds (storeModify s k f) = storeIds s := by
  induction s with
  | nil => simp [storeModify, storeIds]
  | cons p rest ih =>
    obtain ⟨a, w⟩ := p
    simp only [storeIds] at ih
    by_cases ha : a = k <;> simp [storeModify, storeIds, ha, ih]

theorem storeIds_eraseUnseen (seen : List Int) (s : Store) :
    storeIds (eraseUnseen seen s) = (storeIds s).filter (fun k => decide (k ∈ seen)) := by
  induction s with
  | nil => simp [eraseUnseen, storeIds]
  | cons p rest ih =>
    obtain ⟨a, w⟩ := p
    simp only [eraseUnseen, storeIds] at ih
    by_cases ha : a ∈ seen <;> simp [eraseUnseen, storeIds, List.filter_cons, ha, ih]

theorem storeFind_eraseUnseen (seen : List Int) (s : Store) (k : Int) :
    storeFind (eraseUnseen seen s) k = if k ∈ seen then storeFind s k else none := by
  induction s with
  | nil => simp [eraseUnseen, storeFind]
  | cons p rest ih =>
    obtain ⟨a, w⟩ := p
    simp only [eraseUnseen] at ih
    by_cases ha : a ∈ seen
    · by_cases hk : a = k
      · subst hk; simp [eraseUnseen, storeFind, List.filter_cons, ha]
      · simp [eraseUnseen, storeFind, List.filter_cons, ha, hk, ih]
    · by_cases hk : a = k
      · subst hk; simp [eraseUnseen, storeFind, List.filter_cons, ha, ih]
      · simp [eraseUnseen, storeFind, List.filter_cons, ha, hk, ih]

theorem mem_markSeen (seen : List Int) (uid k : Int) :
    k ∈ markSeen seen uid ↔ k = uid ∨ k ∈ seen := by
  unfold markSeen
  by_cases h : uid ∈ seen
  · simp only [h, if_true]
    constructor
    · intro hk; exact Or.inr hk
    · rintro (rfl | hk)
      · exact h
      · exact hk
  · simp [h]

/-! ## Lemmas on the loop body -/

theorem storeFind_trackUnit (t : Int) (u : DfUnit) (s : Store) (k : Int) :
    storeFind (trackUnit t u s) k =
      if u.id = k then some (trackEntry t u (storeFind s u.id)) else storeFind s k := by
  unfold trackUnit
  cases h : storeFind s u.id with
  | none => simp [storeFind_assign, trackEntry]
  | some e => simp [storeFind_modify, trackEntry, h]

theorem storeIds_trackUnit (t : Int) (u : DfUnit) (s : Store) :
    storeIds (trackUnit t u s) =
      if u.id ∈ storeIds s then storeIds s else storeIds s ++ [u.id] := by
  unfold trackUnit
  cases h : storeFind s u.id with
  | none =>
    have hn := (storeFind_eq_none_iff s u.id).1 h
    simp [storeIds_assign _ _ _ hn, hn]
  | some e =>
    have hn : u.id ∈ storeIds s := by
      by_contra hc
      rw [(storeFind_eq_none_iff s u.id).2 hc] at h
      cases h
    simp [storeIds_modify, hn]

theorem mem_storeIds_trackUnit (t : Int) (u : DfUnit) (s : Store) (k : Int) :
    k ∈ storeIds (trackUnit t u s) ↔ k = u.id ∨ k ∈ storeIds s := by
  rw [storeIds_trackUnit]
  by_cases h : u.id ∈ storeIds s
  · simp only [h, if_true]
    constructor
    · intro hk; exact Or.inr hk
    · rintro (rfl | hk)
      · exact h
      · exact hk
  · simp [h, or_comm]

theorem storeWF_trackUnit (t : Int) (u : DfUnit) (s : Store) (h : StoreWF s) :
    StoreWF (trackUnit t u s) := by
  unfold StoreWF at *
  rw [storeIds_trackUnit]
  by_cases hm : u.id ∈ storeIds s
  · simpa [hm] using h
  · simp only [hm, if_false]
    rw [List.nodup_append]
    refine ⟨h, List.nodup_singleton _, ?_⟩
    intro a ha hb
    simp at hb
    subst hb
    exact hm ha

/-! ## Lemmas on the scan -/

theorem visibleUnits_none (view : ViewEnv) (rest : List (Option DfUnit)) :
    visibleUnits view (none :: rest) = visibleUnits view rest := by
  simp [visibleUnits, is_unit_visible]

theorem visibleUnits_some (view : ViewEnv) (u : DfUnit) (rest : List (Option DfUnit)) :
    visibleUnits view (some u :: rest) =
      if is_unit_visible view (some u) then u :: visibleUnits view rest
      else visibleUnits view rest := by
  by_cases h : is_unit_visible view (some u) = true <;> simp [visibleUnits, h]

theorem visibleUnits_append (view : ViewEnv) (l₁ l₂ : List (Option DfUnit)) :
    visibleUnits view (l₁ ++ l₂) = visibleUnits view l₁ ++ visibleUnits view l₂ := by
  simp [visibleUnits]

theorem mem_visibleUnits (view : ViewEnv) (live : List (Option DfUnit)) (u : DfUnit) :
    u ∈ visibleUnits view live ↔ some u ∈ live ∧ is_unit_visible view (some u) = true := by
  unfold visibleUnits
  rw [List.mem_filterMap]
  constructor
  · rintro ⟨o, ho, h⟩
    by_cases hv : is_unit_visible view o = true
    · simp only [hv, if_true] at h
      subst h
      exact ⟨ho, hv⟩
    · simp [hv] at h
  · rintro ⟨h1, h2⟩
    exact ⟨some u, h1, by simp [h2]⟩

theorem visibleUnits_ids_sublist (view : ViewEnv) (live : List (Option DfUnit)) :
    List.Sublist ((visibleUnits view live).map DfUnit.id) (liveIds live) := by
  induction live with
  | nil => simp [visibleUnits, liveIds]
  | cons o rest ih =>
    cases o with
    | none => rw [visibleUnits_none]; simpa [liveIds] using ih
    | some w =>
      rw [visibleUnits_some]
      have hl : liveIds (some w :: rest) = w.id :: liveIds rest := by simp [liveIds]
      rw [hl]
      by_cases hw : is_unit_visible view (some w) = true
      · simp only [hw, if_true, List.map_cons]
        exact List.Sublist.cons₂ _ ih
      · simp only [hw]
        exact List.Sublist.cons _ ih

theorem scannedUnits_ids_nodup (cfg : SmoothMovementConfig) (view : ViewEnv)
    (live : List (Option DfUnit)) (h : (liveIds live).Nodup) :
    ((scannedUnits cfg view live).map DfUnit.id).Nodup := by
  have h1 : ((visibleUnits view live).map DfUnit.id).Nodup :=
    List.Nodup.sublist (visibleUnits_ids_sublist view live) h
  unfold scannedUnits
  rw [List.map_take]
  exact List.Nodup.sublist (List.take_sublist _ _) h1

/-- The loop of the detection pass is the loop body applied to the visible
units that come before the cap. -/
theorem scanUnits_eq_trackAll (cfg : SmoothMovementConfig) (view : ViewEnv) (t : Int)
    (live : List (Option DfUnit)) (tc : Int) (seen : List Int) (s : Store) :
    scanUnits cfg view t live tc seen s =
      trackAll t ((visibleUnits view live).take (cfg.max_tracked_units - tc).toNat)
        (seen, s) := by
  induction live generalizing tc seen s with
  | nil => simp [scanUnits, visibleUnits, trackAll]
  | cons o rest ih =>
    cases o with
    | none => rw [visibleUnits_none, scanUnits, ih]
    | some u =>
      rw [visibleUnits_some, scanUnits]
      by_cases hv : is_unit_visible view (some u) = true
      · simp only [hv, Bool.not_true, if_true]
        by_cases hc : tc ≥ cfg.max_tracked_units
        · have h0 : (cfg.max_tracked_units - tc).toNat = 0 := by
            apply Int.toNat_eq_zero.2; omega
          simp [hc, h0, trackAll]
        · have h1 : (cfg.max_tracked_units - tc).toNat =
              (cfg.max_tracked_units - (tc + 1)).toNat + 1 := by omega
          simp only [hc, if_false, Bool.false_eq_true]
          rw [h1, List.take_succ_cons, trackAll, ih]
      · simp only [hv, Bool.not_false, if_true]
        simp [ih]

theorem trackAll_append (t : Int) (us vs : List DfUnit) (acc : List Int × Store) :
    trackAll t (us ++ vs) acc = trackAll t vs (trackAll t us acc) := by
  induction us generalizing acc with
  | nil => simp [trackAll]
  | cons u rest ih => simp [trackAll, ih]

theorem mem_trackAll_seen (t : Int) (us : List DfUnit) (acc : List Int × Store) (k : Int) :
    k ∈ (trackAll t us acc).1 ↔ k ∈ us.map DfUnit.id ∨ k ∈ acc.1 := by
  induction us generalizing acc with
  | nil => simp [trackAll]
  | cons u rest ih =>
    rw [trackAll, ih]
    simp only [mem_markSeen, List.map_cons, List.mem_cons]
    tauto

theorem mem_trackAll_storeIds (t : Int) (us : List DfUnit) (acc : List Int × Store) (k : Int) :
    k ∈ storeIds (trackAll t us acc).2 ↔ k ∈ us.map DfUnit.id ∨ k ∈ storeIds acc.2 := by
  induction us generalizing acc with
  | nil => simp [trackAll]
  | cons u rest ih =>
    rw [trackAll, ih]
    simp only [mem_storeIds_trackUnit, List.map_cons, List.mem_cons]
    tauto

theorem storeWF_trackAll (t : Int) (us : List DfUnit) (acc : List Int × Store)
    (h : StoreWF acc.2) : StoreWF (trackAll t us acc).2 := by
  induction us generalizing acc with
  | nil => simpa [trackAll] using h
  | cons u rest ih =>
    rw [trackAll]
    exact ih _ (storeWF_trackUnit t u acc.2 h)

theorem storeFind_trackAll_of_not_mem (t : Int) (us : List DfUnit) (acc : List Int × Store)
    (k : Int) (h : k ∉ us.map DfUnit.id) :
    storeFind (trackAll t us acc).2 k = storeFind acc.2 k := by
  induction us generalizing acc with
  | nil => simp [trackAll]
  | cons u rest ih =>
    simp only [List.map_cons, List.mem_cons, not_or] at h
    rw [trackAll, ih _ h.2, storeFind_trackUnit]
    have : ¬ u.id = k := fun e => h.1 e.symm
    simp [this]

/-- With pairwise distinct ids, the entry of a scanned unit after the loop is
what the loop body makes of its entry before the loop. -/
theorem storeFind_trackAll_of_mem (t : Int) (us : List DfUnit) (acc : List Int × Store)
    (u : DfUnit) (hn : (us.map DfUnit.id).Nodup) (hu : u ∈ us) :
    storeFind (trackAll t us acc).2 u.id = some (trackEntry t u (storeFind acc.2 u.id)) := by
  induction us generalizing acc with
  | nil => simp at hu
  | cons w rest ih =>
    simp only [List.map_cons, List.nodup_cons] at hn
    rw [trackAll]
    rcases List.mem_cons.1 hu with rfl | hr
    · rw [storeFind_trackAll_of_not_mem _ _ _ _ hn.1, storeFind_trackUnit]
      simp
    · rw [ih _ hn.2 hr, storeFind_trackUnit]
      have : ¬ w.id = u.id := by
        intro e
        apply hn.1
        rw [e]
        exact List.mem_map_of_mem _ hr
      simp [this]

/-- The detection pass, when it runs, in terms of `trackAll` and
`scannedUnits`. -/
theorem update_unit_positions_eq (env : HostEnv) (st : PluginState) (world : DfWorld)
    (hen : st.config.enabled = true) (hw : env.world = some world)
    (hok : world.units_active_ok = true) :
    update_unit_positions env st =
      { config := st.config
        unit_states :=
          (fun r : List Int × Store => eraseUnseen r.1 r.2)
            (trackAll env.now (scannedUnits st.config env.view world.units_active)
              ([], st.unit_states))
        update_counter := st.update_counter } := by
  unfold update_unit_positions
  simp only [hen, hw, hok, Bool.not_true, Bool.false_eq_true, if_false]
  rw [scanUnits_eq_trackAll]
  simp [scannedUnits]

theorem mem_scannedUnits_of_before_cap (cfg : SmoothMovementConfig) (view : ViewEnv)
    (pre post : List (Option DfUnit)) (u : DfUnit)
    (hvis : is_unit_visible view (some u) = true)
    (hcap : ((visibleUnits view pre).length : Int) < cfg.max_tracked_units) :
    u ∈ scannedUnits cfg view (pre ++ some u :: post) := by
  unfold scannedUnits
  rw [visibleUnits_append, visibleUnits_some]
  simp only [hvis, if_true]
  rw [List.take_append_eq_append_take]
  apply List.mem_append_right
  obtain ⟨m, hm⟩ : ∃ m, cfg.max_tracked_units.toNat - (visibleUnits view pre).length = m + 1 :=
    ⟨cfg.max_tracked_units.toNat - (visibleUnits view pre).length - 1, by omega⟩
  rw [hm, List.take_succ_cons]
  exact List.mem_cons_self _ _

/-! ## Tick-change detector: the claims -/

/-- C1 (first sighting).  In a detection pass that runs (enabled, world
present), a live entity that passes the visibility filter, is reached before
the `max_tracked_units` cap (fewer than `max_tracked_units` visible entities
precede it in the live list) and whose id is not in the store gets an entry
with previous position = current position = its live position, progress 1 and
active = false.  The live entities have pairwise distinct ids. -/
theorem first_sighting (st : PluginState) (env : HostEnv) (world : DfWorld)
    (pre post : List (Option DfUnit)) (u : DfUnit)
    (hen : st.config.enabled = true) (hw : env.world = some world)
    (hok : world.units_active_ok = true)
    (hlive : world.units_active = pre ++ some u :: post)
    (hids : (liveIds world.units_active).Nodup)
    (hvis : is_unit_visible env.view (some u) = true)
    (hcap : ((visibleUnits env.view pre).length : Int) < st.config.max_tracked_units)
    (hnew : storeFind st.unit_states u.id = none) :
    storeFind (update_unit_positions env st).unit_states u.id =
      some { unit_id := u.id
             x_prev := (u.pos_x : ℚ), y_prev := (u.pos_y : ℚ), z_prev := (u.pos_z : ℚ)
             x_curr := (u.pos_x : ℚ), y_curr := (u.pos_y : ℚ), z_curr := (u.pos_z : ℚ)
             progress := 1, active := false, start_time := 0 } := by
  have hmem : u ∈ scannedUnits st.config env.view world.units_active := by
    rw [hlive]
    exact mem_scannedUnits_of_before_cap st.config env.view pre post u hvis hcap
  have hnd := scannedUnits_ids_nodup st.config env.view world.units_active hids
  rw [update_unit_positions_eq env st world hen hw hok]
  simp only [storeFind_eraseUnseen]
  have hseen : u.id ∈ (trackAll env.now (scannedUnits st.config env.view world.units_active)
      ([], st.unit_states)).1 := by
    rw [mem_trackAll_seen]
    exact Or.inl (List.mem_map_of_mem _ hmem)
  rw [if_pos hseen, storeFind_trackAll_of_mem _ _ _ _ hnd hmem]
  simp only [hnew, trackEntry]
  rfl

/-- C2 (tick-change detection).  In a detection pass that runs, an entity that
is already tracked, visible, reached before the cap, and whose live position
differs from the stored current position in x, y or z, ends with previous :=
the old current position, current := the live position, progress := 0,
active := true and start_time := the time of the pass, whatever its progress
and activity were.  The live entities have pairwise distinct ids. -/
theorem tick_change_detected (st : PluginState) (env : HostEnv) (world : DfWorld)
    (pre post : List (Option DfUnit)) (u : DfUnit) (old : UnitRenderState)
    (hen : st.config.enabled = true) (hw : env.world = some world)
    (hok : world.units_active_ok = true)
    (hlive : world.units_active = pre ++ some u :: post)
    (hids : (liveIds world.units_active).Nodup)
    (hvis : is_unit_visible env.view (some u) = true)
    (hcap : ((visibleUnits env.view pre).length : Int) < st.config.max_tracked_units)
    (hold : storeFind st.unit_states u.id = some old)
    (hmoved : old.x_curr ≠ (u.pos_x : ℚ) ∨ old.y_curr ≠ (u.pos_y : ℚ) ∨
      old.z_curr ≠ (u.pos_z : ℚ)) :
    storeFind (update_unit_positions env st).unit_states u.id =
      some { unit_id := old.unit_id
             x_prev := old.x_curr, y_prev := old.y_curr, z_prev := old.z_curr
             x_curr := (u.pos_x : ℚ), y_curr := (u.pos_y : ℚ), z_curr := (u.pos_z : ℚ)
             progress := 0, active := true, start_time := env.now } := by
  have hmem : u ∈ scannedUnits st.config env.view world.units_active := by
    rw [hlive]
    exact mem_scannedUnits_of_before_cap st.config env.view pre post u hvis hcap
  have hnd := scannedUnits_ids_nodup st.config env.view world.units_active hids
  rw [update_unit_positions_eq env st world hen hw hok]
  simp only [storeFind_eraseUnseen]
  have hseen : u.id ∈ (trackAll env.now (scannedUnits st.config env.view world.units_active)
      ([], st.unit_states)).1 := by
    rw [mem_trackAll_seen]
    exact Or.inl (List.mem_map_of_mem _ hmem)
  rw [if_pos hseen, storeFind_trackAll_of_mem _ _ _ _ hnd hmem]
  simp only [hold, trackEntry, retrack, if_pos hmoved]

/-- C3 (removal).  After a detection pass that runs (enabled, world present),
an id is in the store exactly when it was marked seen in the pass, and the ids
marked seen are exactly the ids of the visible live entities scanned before
the cap.  In particular an id none of whose live entities passes the
visibility filter (off-screen, other z-level, or not in the live list at all)
has no entry after the pass, whatever the store held for it. -/
theorem removal_of_unseen (st : PluginState) (env : HostEnv) (world : DfWorld)
    (hen : st.config.enabled = true) (hw : env.world = some world)
    (hok : world.units_active_ok = true) :
    (∀ k : Int,
      (k ∈ storeIds (update_unit_positions env st).unit_states ↔
        k ∈ (scanUnits st.config env.view env.now world.units_active 0 []
              st.unit_states).1) ∧
      (k ∈ (scanUnits st.config env.view env.now world.units_active 0 []
              st.unit_states).1 ↔
        k ∈ (scannedUnits st.config env.view world.units_active).map DfUnit.id)) ∧
    (∀ k : Int,
      (∀ u : DfUnit, some u ∈ world.units_active → u.id = k →
        is_unit_visible env.view (some u) = false) →
      storeFind (update_unit_positions env st).unit_states k = none) := by
  have hscan : scanUnits st.config env.view env.now world.units_active 0 [] st.unit_states =
      trackAll env.now (scannedUnits st.config env.view world.units_active)
        ([], st.unit_states) := by
    rw [scanUnits_eq_trackAll]; simp [scannedUnits]
  have hseen : ∀ k : Int,
      k ∈ (trackAll env.now (scannedUnits st.config env.view world.units_active)
        ([], st.unit_states)).1 ↔
      k ∈ (scannedUnits st.config env.view world.units_active).map DfUnit.id := by
    intro k
    rw [mem_trackAll_seen]
    simp
  refine ⟨fun k => ⟨?_, ?_⟩, ?_⟩
  · rw [hscan, update_unit_positions_eq env st world hen hw hok]
    simp only [storeIds_eraseUnseen, List.mem_filter, decide_eq_true_eq,
      mem_trackAll_storeIds]
    constructor
    · intro h; exact h.2
    · intro h; exact ⟨Or.inl ((hseen k).1 h), h⟩
  · rw [hscan]; exact hseen k
  · intro k hk
    rw [update_unit_positions_eq env st world hen hw hok]
    simp only [storeFind_eraseUnseen]
    have hnot : k ∉ (trackAll env.now (scannedUnits st.config env.view world.units_active)
        ([], st.unit_states)).1 := by
      rw [hseen k]
      intro hm
      obtain ⟨u, hu, rfl⟩ := List.mem_map.1 hm
      have hu' : u ∈ visibleUnits env.view world.units_active :=
        List.mem_of_mem_take hu
      rw [mem_visibleUnits] at hu'
      have := hk u hu'.1 rfl
      rw [hu'.2] at this
      cases this
    rw [if_neg hnot]

/-- C4 (cap).  For a cap `max_tracked_units ≥ 0`, a store with one entry per
id and live entities with pairwise distinct ids, the number of entries after a
detection pass that runs is min(`max_tracked_units`, number of visible
entities), hence at most `max_tracked_units`. -/
theorem tracked_count_eq_min (st : PluginState) (env : HostEnv) (world : DfWorld)
    (hen : st.config.enabled = true) (hw : env.world = some world)
    (hok : world.units_active_ok = true)
    (hmax : 0 ≤ st.config.max_tracked_units)
    (hwf : StoreWF st.unit_states)
    (hids : (liveIds world.units_active).Nodup) :
    ((update_unit_positions env st).unit_states.length : Int) =
        min st.config.max_tracked_units
          ((visibleUnits env.view world.units_active).length : Int) ∧
    ((update_unit_positions env st).unit_states.length : Int) ≤
        st.config.max_tracked_units := by
  have hnd := scannedUnits_ids_nodup st.config env.view world.units_active hids
  have hlen : (update_unit_positions env st).unit_states.length =
      (scannedUnits st.config env.view world.units_active).length := by
    rw [update_unit_positions_eq env st world hen hw hok]
    have h1 : (storeIds (eraseUnseen
        (trackAll env.now (scannedUnits st.config env.view world.units_active)
          ([], st.unit_states)).1
        (trackAll env.now (scannedUnits st.config env.view world.units_active)
          ([], st.unit_states)).2)).Perm
        ((scannedUnits st.config env.view world.units_active).map DfUnit.id) := by
      rw [List.perm_ext_iff_of_nodup _ hnd]
      · intro k
        simp only [storeIds_eraseUnseen, List.mem_filter, decide_eq_true_eq,
          mem_trackAll_storeIds, mem_trackAll_seen, List.not_mem_nil, or_false]
        constructor
        · intro h; exact h.2
        · intro h; exact ⟨Or.inl h, h⟩
      · rw [storeIds_eraseUnseen]
        exact List.Nodup.filter _ (storeWF_trackAll _ _ _ hwf)
    have h2 := h1.length_eq
    simpa [storeIds] using h2
  have hmin : ((scannedUnits st.config env.view world.units_active).length : Int) =
      min st.config.max_tracked_units
        ((visibleUnits env.view world.units_active).length : Int) := by
    unfold scannedUnits
    rw [List.length_take]
    omega
  rw [hlen, hmin]
  exact ⟨rfl, min_le_left _ _⟩

/-- Witness of C1: unit 1 of `exWorld`, seen for the first time from the
initial state. -/
theorem first_sighting_witness :
    storeFind (update_unit_positions exEnv PluginState.initial).unit_states 1 =
      some { unit_id := 1, x_prev := 5, y_prev := 5, z_prev := 0,
             x_curr := 5, y_curr := 5, z_curr := 0,
             progress := 1, active := false, start_time := 0 } := by
  have h := first_sighting PluginState.initial exEnv exWorld
    [none, some ⟨2, 100, 5, 0⟩] [some ⟨3, 7, 7, 0⟩, some ⟨4, 8, 8, 0⟩] ⟨1, 5, 5, 0⟩
    (by decide) rfl rfl rfl (by decide) (by decide) (by decide) (by decide)
  simpa using h

/-- Witness of C2: unit 1 is tracked at (5,5,0) and found at (6,5,0) by the
pass at 7 ms. -/
theorem tick_change_detected_witness :
    storeFind (update_unit_positions exEnvMoved
        (update_unit_positions exEnv PluginState.initial)).unit_states 1 =
      some { unit_id := 1, x_prev := 5, y_prev := 5, z_prev := 0,
             x_curr := 6, y_curr := 5, z_curr := 0,
             progress := 0, active := true, start_time := 7000000 } := by
  have h := tick_change_detected (update_unit_positions exEnv PluginState.initial)
    exEnvMoved exWorldMoved
    [none, some ⟨2, 100, 5, 0⟩] [some ⟨3, 200, 7, 0⟩, some ⟨4, 8, 8, 0⟩] ⟨1, 6, 5, 0⟩
    { unit_id := 1, x_prev := 5, y_prev := 5, z_prev := 0,
      x_curr := 5, y_curr := 5, z_curr := 0,
      progress := 1, active := false, start_time := 0 }
    (by decide) rfl rfl rfl (by decide) (by decide) (by decide)
    (by decide) (by norm_num)
  simpa using h

/-- Witness of C3: unit 3 was tracked and is off-screen in `exWorldMoved`
(unit 2 was never tracked); after the pass neither has an entry. -/
theorem removal_of_unseen_witness :
    storeFind (update_unit_positions exEnv PluginState.initial).unit_states 3 ≠ none ∧
    storeFind (update_unit_positions exEnvMoved
        (update_unit_positions exEnv PluginState.initial)).unit_states 3 = none := by
  refine ⟨by decide, ?_⟩
  refine (removal_of_unseen (update_unit_positions exEnv PluginState.initial)
    exEnvMoved exWorldMoved (by decide) rfl rfl).2 3 ?_
  intro u hu hid
  simp only [exWorldMoved, List.mem_cons, Option.some.injEq, List.mem_singleton,
    List.not_mem_nil, or_false] at hu
  rcases hu with hu | hu | hu | hu | hu
  · cases hu
  · subst hu; simp at hid
  · subst hu; simp at hid
  · subst hu; decide
  · subst hu; simp at hid

/-- Witness of C4: with `max_tracked_units = 2` and the three visible entities
of `exWorld`, exactly 2 are tracked after the pass. -/
theorem tracked_count_eq_min_witness :
    (visibleUnits exEnv.view exWorld.units_active).length = 3 ∧
    exStateCap2.config.max_tracked_units = 2 ∧
    ((update_unit_positions exEnv exStateCap2).unit_states.length : Int) = min 2 3 :=
  ⟨by decide, rfl,
    (tracked_count_eq_min exStateCap2 exEnv exWorld (by decide) rfl rfl (by decide)
      List.nodup_nil (by decide)).1⟩

/-! ## Rounding to `float` -/

theorem roundHalfEven_eq_of_abs_lt (q : ℚ) (m : Int) (h : |q - m| < 1 / 2) :
    roundHalfEven q = m := by
  rw [abs_lt] at h
  obtain ⟨h1, h2⟩ := h
  unfold roundHalfEven
  by_cases hm : (m : ℚ) ≤ q
  · have hf : ⌊q⌋ = m := by
      rw [Int.floor_eq_iff]
      constructor
      · exact hm
      · linarith
    rw [hf]
    have : q - (m : ℚ) < 1 / 2 := h2
    rw [if_pos this]
  · have hm' : q < m := not_le.1 hm
    have hf : ⌊q⌋ = m - 1 := by
      rw [Int.floor_eq_iff]
      push_cast
      constructor
      · linarith
      · linarith
    rw [hf]
    push_cast
    have h3 : ¬ (q - ((m : ℚ) - 1) < 1 / 2) := by
      rw [not_lt]; linarith
    have h4 : (1 / 2 : ℚ) < q - ((m : ℚ) - 1) := by linarith
    rw [if_neg h3, if_pos h4]
    omega

theorem roundHalfEven_intCast (n : Int) : roundHalfEven (n : ℚ) = n :=
  roundHalfEven_eq_of_abs_lt _ n (by simp)

theorem roundHalfEven_bounds (q : ℚ) :
    ⌊q⌋ ≤ roundHalfEven q ∧ roundHalfEven q ≤ ⌊q⌋ + 1 := by
  unfold roundHalfEven
  split_ifs <;> constructor <;> omega

theorem roundHalfEven_mono {q q' : ℚ} (h : q ≤ q') : roundHalfEven q ≤ roundHalfEven q' := by
  have hfl : ⌊q⌋ ≤ ⌊q'⌋ := Int.floor_mono h
  rcases lt_or_eq_of_le hfl with hlt | heq
  · have h1 := (roundHalfEven_bounds q).2
    have h2 := (roundHalfEven_bounds q').1
    omega
  · unfold roundHalfEven
    rw [← heq]
    have hr : q - (⌊q⌋ : ℚ) ≤ q' - (⌊q⌋ : ℚ) := by linarith
    split_ifs <;> first | omega | (exfalso; linarith)

theorem floatQuantum_pos (x : ℚ) : 0 < floatQuantum x :=
  zpow_pos (by norm_num) _

theorem roundFloat_zero : roundFloat 0 = 0 := by
  unfold roundFloat
  simp [roundHalfEven]

theorem roundFloat_nonneg {x : ℚ} (h : 0 ≤ x) : 0 ≤ roundFloat x := by
  unfold roundFloat
  have h1 : (0 : ℚ) ≤ x / floatQuantum x := div_nonneg h (le_of_lt (floatQuantum_pos x))
  have h2 : roundHalfEven ((0 : Int) : ℚ) ≤ roundHalfEven (x / floatQuantum x) :=
    roundHalfEven_mono (by simpa using h1)
  rw [roundHalfEven_intCast] at h2
  have h3 : (0 : ℚ) ≤ (roundHalfEven (x / floatQuantum x) : ℚ) := by exact_mod_cast h2
  exact mul_nonneg h3 (le_of_lt (floatQuantum_pos x))

theorem floatExponent_eq {x : ℚ} {e : Int} (hx : 0 < x) (h1 : (2 : ℚ) ^ e ≤ x)
    (h2 : x < (2 : ℚ) ^ (e + 1)) : Int.log 2 |x| = e := by
  rw [abs_of_pos hx]
  have hb : 1 < (2 : ℕ) := by norm_num
  apply le_antisymm
  · have := (Int.lt_zpow_iff_log_lt hb hx (x := e + 1)).1 (by exact_mod_cast h2)
    omega
  · exact (Int.zpow_le_iff_le_log hb hx).1 (by exact_mod_cast h1)

theorem floatQuantum_of_bracket {x : ℚ} {e : Int} (hx : 0 < x) (he : -126 ≤ e)
    (h1 : (2 : ℚ) ^ e ≤ x) (h2 : x < (2 : ℚ) ^ (e + 1)) :
    floatQuantum x = (2 : ℚ) ^ (e - 23) := by
  unfold floatQuantum
  rw [floatExponent_eq hx h1 h2, max_eq_left he]

/-- The `float` nearest to `x`, from the binade of `x` and the nearest multiple
of the spacing in it. -/
theorem roundFloat_eq_of_bracket {x : ℚ} {e m : Int} (hx : 0 < x) (he : -126 ≤ e)
    (h1 : (2 : ℚ) ^ e ≤ x) (h2 : x < (2 : ℚ) ^ (e + 1))
    (hm : |x / (2 : ℚ) ^ (e - 23) - m| < 1 / 2) :
    roundFloat x = (m : ℚ) * (2 : ℚ) ^ (e - 23) := by
  unfold roundFloat
  rw [floatQuantum_of_bracket hx he h1 h2, roundHalfEven_eq_of_abs_lt _ m hm]

theorem floatExponent_bounds {x : ℚ} (hx : 0 < x) :
    (2 : ℚ) ^ Int.log 2 |x| ≤ x ∧ x < (2 : ℚ) ^ (Int.log 2 |x| + 1) := by
  rw [abs_of_pos hx]
  have hb : 1 < (2 : ℕ) := by norm_num
  constructor
  · exact_mod_cast Int.zpow_log_le_self hb hx
  · exact_mod_cast Int.lt_zpow_succ_log_self hb x

theorem roundFloat_le_top {x : ℚ} (hx : 0 < x) :
    roundFloat x ≤ (2 : ℚ) ^ (max (Int.log 2 |x|) (-126) + 1) := by
  have hq := floatQuantum_pos x
  have hlt : x < (2 : ℚ) ^ (max (Int.log 2 |x|) (-126) + 1) :=
    lt_of_lt_of_le (floatExponent_bounds hx).2
      (zpow_le_zpow_right₀ (by norm_num) (by omega))
  have hsplit : (2 : ℚ) ^ (max (Int.log 2 |x|) (-126) + 1) =
      ((16777216 : Int) : ℚ) * floatQuantum x := by
    unfold floatQuantum
    have : max (Int.log 2 |x|) (-126) + 1 = 24 + (max (Int.log 2 |x|) (-126) - 23) := by ring
    rw [this, zpow_add₀ (by norm_num)]
    norm_num
  have hdiv : x / floatQuantum x ≤ ((16777216 : Int) : ℚ) := by
    rw [div_le_iff₀ hq, ← hsplit]
    exact le_of_lt hlt
  have hr := roundHalfEven_mono hdiv
  rw [roundHalfEven_intCast] at hr
  have hr' : (roundHalfEven (x / floatQuantum x) : ℚ) ≤ ((16777216 : Int) : ℚ) := by
    exact_mod_cast hr
  rw [hsplit]
  unfold roundFloat
  exact mul_le_mul_of_nonneg_right hr' (le_of_lt hq)

theorem roundFloat_ge_bottom {x : ℚ} (hx : 0 < x) (hn : -126 ≤ Int.log 2 |x|) :
    (2 : ℚ) ^ Int.log 2 |x| ≤ roundFloat x := by
  have hq := floatQuantum_pos x
  have hsplit : (2 : ℚ) ^ Int.log 2 |x| = ((8388608 : Int) : ℚ) * floatQuantum x := by
    unfold floatQuantum
    rw [max_eq_left hn]
    have : Int.log 2 |x| = 23 + (Int.log 2 |x| - 23) := by ring
    nth_rewrite 1 [this]
    rw [zpow_add₀ (by norm_num)]
    norm_num
  have hdiv : ((8388608 : Int) : ℚ) ≤ x / floatQuantum x := by
    rw [le_div_iff₀ hq, ← hsplit]
    exact (floatExponent_bounds hx).1
  have hr := roundHalfEven_mono hdiv
  rw [roundHalfEven_intCast] at hr
  have hr' : ((8388608 : Int) : ℚ) ≤ (roundHalfEven (x / floatQuantum x) : ℚ) := by
    exact_mod_cast hr
  rw [hsplit]
  unfold roundFloat
  exact mul_le_mul_of_nonneg_right hr' (le_of_lt hq)

/-- Rounding to `float` is monotone on the non-negative rationals. -/
theorem roundFloat_mono {x y : ℚ} (hx : 0 ≤ x) (h : x ≤ y) : roundFloat x ≤ roundFloat y := by
  rcases eq_or_lt_of_le hx with h0 | hpos
  · rw [← h0, roundFloat_zero]
    exact roundFloat_nonneg (le_trans hx h)
  · have hy : 0 < y := lt_of_lt_of_le hpos h
    have hlog : Int.log 2 |x| ≤ Int.log 2 |y| := by
      rw [abs_of_pos hpos, abs_of_pos hy]
      exact Int.log_mono_right hpos h
    have hmax : max (Int.log 2 |x|) (-126) ≤ max (Int.log 2 |y|) (-126) :=
      max_le_max hlog (le_refl _)
    rcases eq_or_lt_of_le hmax with heq | hlt
    · have hq : floatQuantum x = floatQuantum y := by
        unfold floatQuantum
        rw [heq]
      unfold roundFloat
      rw [hq]
      have hdiv : x / floatQuantum y ≤ y / floatQuantum y :=
        div_le_div_of_nonneg_right h (le_of_lt (floatQuantum_pos y))
      have hr := roundHalfEven_mono hdiv
      have hr' : (roundHalfEven (x / floatQuantum y) : ℚ) ≤
          (roundHalfEven (y / floatQuantum y) : ℚ) := by exact_mod_cast hr
      exact mul_le_mul_of_nonneg_right hr' (le_of_lt (floatQuantum_pos y))
    · have hny : -126 ≤ Int.log 2 |y| := by
        rcases le_total (Int.log 2 |y|) (-126) with hc | hc
        · rw [max_eq_right hc] at hlt
          have := le_max_right (Int.log 2 |x|) (-126)
          omega
        · exact hc
      have hey : max (Int.log 2 |y|) (-126) = Int.log 2 |y| := max_eq_left hny
      rw [hey] at hlt
      calc roundFloat x ≤ (2 : ℚ) ^ (max (Int.log 2 |x|) (-126) + 1) := roundFloat_le_top hpos
        _ ≤ (2 : ℚ) ^ Int.log 2 |y| := zpow_le_zpow_right₀ (by norm_num) (by omega)
        _ ≤ roundFloat y := roundFloat_ge_bottom hy hny

theorem roundFloat_one : roundFloat 1 = 1 := by
  rw [roundFloat_eq_of_bracket (x := 1) (e := 0) (m := 8388608) (by norm_num) (by norm_num)
    (by norm_num) (by norm_num) (by norm_num)]
  norm_num

theorem roundFloat_half : roundFloat (1 / 2) = 1 / 2 := by
  rw [roundFloat_eq_of_bracket (x := 1 / 2) (e := -1) (m := 8388608) (by norm_num)
    (by norm_num) (by norm_num) (by norm_num) (by norm_num)]
  norm_num

theorem roundFloat_quarter : roundFloat (1 / 4) = 1 / 4 := by
  rw [roundFloat_eq_of_bracket (x := 1 / 4) (e := -2) (m := 8388608) (by norm_num)
    (by norm_num) (by norm_num) (by norm_num) (by norm_num)]
  norm_num

theorem roundFloat_three_quarters : roundFloat (3 / 4) = 3 / 4 := by
  rw [roundFloat_eq_of_bracket (x := 3 / 4) (e := -1) (m := 12582912) (by norm_num)
    (by norm_num) (by norm_num) (by norm_num) (by norm_num)]
  norm_num

theorem roundFloat_three_twentieths : roundFloat (3 / 20) = 5033165 / 33554432 := by
  rw [roundFloat_eq_of_bracket (x := 3 / 20) (e := -3) (m := 10066330) (by norm_num)
    (by norm_num) (by norm_num) (by norm_num) (by rw [abs_lt]; constructor <;> norm_num)]
  norm_num

theorem roundFloat_25 : roundFloat 25 = 25 := by
  rw [roundFloat_eq_of_bracket (x := 25) (e := 4) (m := 13107200) (by norm_num)
    (by norm_num) (by norm_num) (by norm_num) (by norm_num)]
  norm_num

theorem roundFloat_30 : roundFloat 30 = 30 := by
  rw [roundFloat_eq_of_bracket (x := 30) (e := 4) (m := 15728640) (by norm_num)
    (by norm_num) (by norm_num) (by norm_num) (by norm_num)]
  norm_num

theorem roundFloat_50 : roundFloat 50 = 50 := by
  rw [roundFloat_eq_of_bracket (x := 50) (e := 5) (m := 13107200) (by norm_num)
    (by norm_num) (by norm_num) (by norm_num) (by norm_num)]
  norm_num

theorem roundFloat_60 : roundFloat 60 = 60 := by
  rw [roundFloat_eq_of_bracket (x := 60) (e := 5) (m := 15728640) (by norm_num)
    (by norm_num) (by norm_num) (by norm_num) (by norm_num)]
  norm_num

theorem roundFloat_75 : roundFloat 75 = 75 := by
  rw [roundFloat_eq_of_bracket (x := 75) (e := 6) (m := 9830400) (by norm_num)
    (by norm_num) (by norm_num) (by norm_num) (by norm_num)]
  norm_num

theorem roundFloat_100 : roundFloat 100 = 100 := by
  rw [roundFloat_eq_of_bracket (x := 100) (e := 6) (m := 13107200) (by norm_num)
    (by norm_num) (by norm_num) (by norm_num) (by norm_num)]
  norm_num

theorem roundFloat_200 : roundFloat 200 = 200 := by
  rw [roundFloat_eq_of_bracket (x := 200) (e := 7) (m := 13107200) (by norm_num)
    (by norm_num) (by norm_num) (by norm_num) (by norm_num)]
  norm_num

/-- The division 100.0f / 1.6666666f: the exact quotient is a little above 60
and rounds to 60. -/
theorem roundFloat_duration_fine :
    roundFloat (100 / (13981013 / 8388608)) = 60 := by
  rw [roundFloat_eq_of_bracket (x := 100 / (13981013 / 8388608)) (e := 5) (m := 15728640)
    (by norm_num) (by norm_num) (by norm_num) (by norm_num)
    (by rw [abs_lt]; constructor <;> norm_num)]
  norm_num

/-- For a speed in [0.5, 2] the duration 100.0f / speed, as the code computes
it, lies in [50, 200]. -/
theorem floatDiv_duration_bounds {speed : ℚ} (hlo : 1 / 2 ≤ speed) (hhi : speed ≤ 2) :
    50 ≤ floatDiv TICK_DURATION_MS speed ∧ floatDiv TICK_DURATION_MS speed ≤ 200 := by
  have hpos : 0 < speed := lt_of_lt_of_le (by norm_num) hlo
  unfold floatDiv TICK_DURATION_MS
  have h1 : (50 : ℚ) ≤ 100 / speed := by rw [le_div_iff₀ hpos]; linarith
  have h2 : (100 : ℚ) / speed ≤ 200 := by rw [div_le_iff₀ hpos]; linarith
  constructor
  · have := roundFloat_mono (by norm_num) h1
    rwa [roundFloat_50] at this
  · have := roundFloat_mono (le_trans (by norm_num) h1) h2
    rwa [roundFloat_200] at this

/-- A higher speed gives a duration that is not longer. -/
theorem floatDiv_duration_antitone {speed speed' : ℚ} (hpos : 0 < speed)
    (h : speed ≤ speed') :
    floatDiv TICK_DURATION_MS speed' ≤ floatDiv TICK_DURATION_MS speed := by
  unfold floatDiv TICK_DURATION_MS
  have hpos' : 0 < speed' := lt_of_lt_of_le hpos h
  apply roundFloat_mono (le_of_lt (div_pos (by norm_num) hpos'))
  exact div_le_div_of_nonneg_left (by norm_num) hpos h

theorem floatOfInt_nonneg {n : Int} (h : 0 ≤ n) : 0 ≤ floatOfInt n :=
  roundFloat_nonneg (by exact_mod_cast h)

theorem floatOfInt_mono {n n' : Int} (h0 : 0 ≤ n) (h : n ≤ n') :
    floatOfInt n ≤ floatOfInt n' :=
  roundFloat_mono (by exact_mod_cast h0) (by exact_mod_cast h)

/-! ## Progress updater: lemmas and claims -/

theorem stdMin_eq_min (a b : ℚ) : stdMin a b = min a b := by
  unfold stdMin
  by_cases h : b < a
  · simp [h, min_eq_right (le_of_lt h)]
  · simp [h, min_eq_left (not_lt.1 h)]

theorem storeIds_map_values (f : UnitRenderState → UnitRenderState) (s : Store) :
    storeIds (s.map (fun pair => (pair.1, f pair.2))) = storeIds s := by
  simp [storeIds, List.map_map, Function.comp_def]

theorem storeFind_map_values (f : UnitRenderState → UnitRenderState) (s : Store) (k : Int) :
    storeFind (s.map (fun pair => (pair.1, f pair.2))) k = (storeFind s k).map f := by
  induction s with
  | nil => simp [storeFind]
  | cons p rest ih =>
    obtain ⟨a, w⟩ := p
    by_cases ha : a = k
    · simp [storeFind, ha]
    · simpa [storeFind, ha] using ih

theorem interpolateState_inactive (cfg : SmoothMovementConfig) (t : Int)
    (e : UnitRenderState) (h : e.active = false) : interpolateState cfg t e = e := by
  simp [interpolateState, h]

theorem progressBound_le_one (t : Int) (speed : ℚ) (start : Int) :
    progressBound t speed start ≤ 1 := min_le_left _ _

theorem interpolateState_active (cfg : SmoothMovementConfig) (t : Int)
    (e : UnitRenderState) (h : e.active = true) :
    interpolateState cfg t e =
      { e with
        progress := progressBound t cfg.interpolation_speed e.start_time
        active := decide (progressBound t cfg.interpolation_speed e.start_time < 1) } := by
  have hle := progressBound_le_one t cfg.interpolation_speed e.start_time
  unfold interpolateState
  simp only [h, Bool.not_true, Bool.false_eq_true, if_false, stdMin_eq_min]
  change (if progressBound t cfg.interpolation_speed e.start_time ≥ 1 then _ else _) = _
  by_cases hp : progressBound t cfg.interpolation_speed e.start_time ≥ 1
  · have h1 : progressBound t cfg.interpolation_speed e.start_time = 1 :=
      le_antisymm hle hp
    rw [if_pos hp]
    simp [h1]
  · have h2 : progressBound t cfg.interpolation_speed e.start_time < 1 := not_le.1 hp
    rw [if_neg hp]
    simp only [h2, decide_True, h]
    rfl

/-- The value of `progressBound` from the values of its three rounded steps. -/
theorem progressBound_eq (t start el : Int) (speed F adj r : ℚ)
    (h1 : elapsedMs t start = el) (h2 : roundFloat (el : ℚ) = F)
    (h3 : roundFloat (100 / speed) = adj) (h4 : roundFloat (F / adj) = r) :
    progressBound t speed start = min 1 r := by
  unfold progressBound floatDiv floatOfInt TICK_DURATION_MS
  rw [h1, h2, h3, h4]

theorem storeFind_update_interpolation (now : Int) (st : PluginState) (k : Int)
    (hen : st.config.enabled = true) :
    storeFind (update_interpolation now st).unit_states k =
      (storeFind st.unit_states k).map (interpolateState st.config now) := by
  unfold update_interpolation
  simp only [hen, Bool.not_true, Bool.false_eq_true, if_false, storeFind_map_values]

/-- The entry the progress update leaves for an active entry, from the values
of the three rounded steps of the computation. -/
theorem storeFind_interp_eval (now : Int) (st : PluginState) (k : Int)
    (e : UnitRenderState) (el : Int) (F adj r : ℚ)
    (hen : st.config.enabled = true) (hf : storeFind st.unit_states k = some e)
    (ha : e.active = true) (h1 : elapsedMs now e.start_time = el)
    (h2 : roundFloat (el : ℚ) = F)
    (h3 : roundFloat (100 / st.config.interpolation_speed) = adj)
    (h4 : roundFloat (F / adj) = r) :
    storeFind (update_interpolation now st).unit_states k =
      some { e with progress := min 1 r, active := decide (min 1 r < 1) } := by
  rw [storeFind_update_interpolation _ _ _ hen, hf, Option.map_some',
    interpolateState_active _ _ _ ha,
    progressBound_eq now e.start_time el st.config.interpolation_speed F adj r h1 h2 h3 h4]

/-- C5 (progress update).  With the plugin enabled and the speed in its range
[0.5, 2], `update_interpolation` at time `now` keeps the tracked ids; an
inactive entry is left as it is; an active entry gets progress :=
min(1, elapsed / (100 / interpolation_speed)), computed as the code computes
it: elapsed is the whole milliseconds from start_time to `now` converted to
`float`, and the two divisions are `float` divisions; if that value is at
least 1 the entry ends with progress exactly 1 and active = false, otherwise
it stays active; unit id, positions and start_time are unchanged.  The
divisor 100 / interpolation_speed, as computed, lies in [50, 200]. -/
theorem progress_update (st : PluginState) (now : Int)
    (hen : st.config.enabled = true)
    (hspeed : 1 / 2 ≤ st.config.interpolation_speed ∧ st.config.interpolation_speed ≤ 2) :
    (50 ≤ floatDiv 100 st.config.interpolation_speed ∧
      floatDiv 100 st.config.interpolation_speed ≤ 200) ∧
    storeIds (update_interpolation now st).unit_states = storeIds st.unit_states ∧
    ∀ (k : Int) (e : UnitRenderState), storeFind st.unit_states k = some e →
      (e.active = false →
        storeFind (update_interpolation now st).unit_states k = some e) ∧
      (e.active = true →
        ∃ e' : UnitRenderState,
          storeFind (update_interpolation now st).unit_states k = some e' ∧
          e'.progress = min 1 (floatDiv (floatOfInt (elapsedMs now e.start_time))
            (floatDiv 100 st.config.interpolation_speed)) ∧
          (1 ≤ min 1 (floatDiv (floatOfInt (elapsedMs now e.start_time))
              (floatDiv 100 st.config.interpolation_speed)) →
            e'.progress = 1 ∧ e'.active = false) ∧
          (min 1 (floatDiv (floatOfInt (elapsedMs now e.start_time))
              (floatDiv 100 st.config.interpolation_speed)) < 1 →
            e'.active = true) ∧
          e'.unit_id = e.unit_id ∧
          e'.x_prev = e.x_prev ∧ e'.y_prev = e.y_prev ∧ e'.z_prev = e.z_prev ∧
          e'.x_curr = e.x_curr ∧ e'.y_curr = e.y_curr ∧ e'.z_curr = e.z_curr ∧
          e'.start_time = e.start_time) := by
  have hst : (update_interpolation now st).unit_states =
      st.unit_states.map (fun pair => (pair.1, interpolateState st.config now pair.2)) := by
    simp [update_interpolation, hen]
  rw [hst]
  refine ⟨floatDiv_duration_bounds hspeed.1 hspeed.2, storeIds_map_values _ _, ?_⟩
  intro k e hk
  rw [storeFind_map_values, hk]
  refine ⟨fun hin => ?_, fun hact => ?_⟩
  · simp [interpolateState_inactive _ _ _ hin]
  · refine ⟨interpolateState st.config now e, rfl, ?_⟩
    rw [interpolateState_active _ _ _ hact]
    have hpb : progressBound now st.config.interpolation_speed e.start_time =
        min 1 (floatDiv (floatOfInt (elapsedMs now e.start_time))
          (floatDiv 100 st.config.interpolation_speed)) := rfl
    rw [← hpb]
    refine ⟨rfl, ?_, ?_, rfl, rfl, rfl, rfl, rfl, rfl, rfl, rfl⟩
    · intro h1
      exact ⟨le_antisymm (progressBound_le_one _ _ _) h1, by simpa using h1⟩
    · intro h2
      simpa using h2

/-- Witness of C5: at speed 1.6666666f = 13981013/8388608 an interpolation
started at 0 is updated at 60 ms.  The exact quotient 60 / (100 / speed) is
below 1, but 100.0f / speed rounds to 60.0f and 60 / 60.0f is 1.0f: the entry
settles with progress 1. -/
theorem progress_update_witness :
    (60 : ℚ) / (100 / (13981013 / 8388608)) < 1 ∧
    ∃ e' : UnitRenderState,
      storeFind (update_interpolation 60000000 exFineSpeedState).unit_states 1 = some e' ∧
      e'.progress = 1 ∧ e'.active = false := by
  refine ⟨by norm_num, ?_⟩
  obtain ⟨e', h1, -, h3, -⟩ :=
    ((progress_update exFineSpeedState 60000000 rfl
        (by constructor <;> norm_num [exFineSpeedState])).2.2 1
      { unit_id := 1, x_prev := 5, y_prev := 5, z_prev := 0,
        x_curr := 6, y_curr := 5, z_curr := 0,
        progress := 0, active := true, start_time := 0 } (by decide)).2 rfl
  refine ⟨e', h1, h3 ?_⟩
  have hb := progressBound_eq 60000000 0 60 (13981013 / 8388608) 60 60 1 (by decide)
    (by norm_num [roundFloat_60]) roundFloat_duration_fine
    (by norm_num [roundFloat_one])
  have hpb : progressBound 60000000 (13981013 / 8388608) 0 =
      min 1 (floatDiv (floatOfInt (elapsedMs 60000000 0)) (floatDiv 100 (13981013 / 8388608))) :=
    rfl
  rw [hpb] at hb
  show (1 : ℚ) ≤ min 1 (floatDiv (floatOfInt (elapsedMs 60000000 0))
    (floatDiv 100 (13981013 / 8388608)))
  rw [hb]
  norm_num

/-! ## Command interface: lemmas and claims -/

theorem clampSpeed_finite (q : ℚ) :
    clampSpeed (.finite q) = .finite (max (1 / 2) (min 2 q)) := by
  unfold clampSpeed FloatVal.stdMin
  by_cases h2 : q < 2
  · simp only [FloatVal.lt, h2, decide_True, if_true, FloatVal.stdMax]
    by_cases h1 : (1 / 2 : ℚ) < q
    · simp only [h1, decide_True, if_true]
      rw [min_eq_right (le_of_lt h2), max_eq_right (le_of_lt h1)]
    · simp only [h1, decide_False, Bool.false_eq_true, if_false]
      rw [min_eq_right (le_of_lt h2), max_eq_left (not_lt.1 h1)]
  · have h3 : (2 : ℚ) ≤ q := not_lt.1 h2
    simp only [FloatVal.lt, h2, decide_False, Bool.false_eq_true, if_false, FloatVal.stdMax]
    rw [min_eq_left h3]
    norm_num

/-- The clamp of the `speed` command yields a finite value between 0.5 and 2
on every float, NaN and the infinities included. -/
theorem clampSpeed_range (v : FloatVal) :
    ∃ q : ℚ, clampSpeed v = .finite q ∧ 1 / 2 ≤ q ∧ q ≤ 2 := by
  cases v with
  | finite q =>
    refine ⟨max (1 / 2) (min 2 q), clampSpeed_finite q, le_max_left _ _, ?_⟩
    exact max_le (by norm_num) (min_le_left _ _)
  | posInf =>
    refine ⟨2, ?_, by norm_num, le_refl _⟩
    simp [clampSpeed, FloatVal.stdMin, FloatVal.stdMax, FloatVal.lt]
    norm_num
  | negInf =>
    refine ⟨1 / 2, ?_, le_refl _, by norm_num⟩
    simp [clampSpeed, FloatVal.stdMin, FloatVal.stdMax, FloatVal.lt]
  | nan =>
    refine ⟨2, ?_, by norm_num, le_refl _⟩
    simp [clampSpeed, FloatVal.stdMin, FloatVal.stdMax, FloatVal.lt]
    norm_num

/-- C9 (speed clamp).  When `std::stof` reads the number `s` from the argument
of `speed <s>`, the command returns `CR_OK` and sets `interpolation_speed` to
max(0.5, min(2.0, s)), in range or not; the other configuration fields, the
store and the callback counter are unchanged. -/
theorem speed_clamp (lib : HostLib) (arg : String) (rest : List String) (s : ℚ)
    (st : PluginState) (hparse : lib.stof arg = some (.finite s)) :
    (smooth_movement_cmd lib ("speed" :: arg :: rest) st).outcome =
        .returned .CR_OK ∧
    (smooth_movement_cmd lib ("speed" :: arg :: rest) st).state.config.interpolation_speed =
        max (1 / 2) (min 2 s) ∧
    (smooth_movement_cmd lib ("speed" :: arg :: rest) st).state.config.enabled =
        st.config.enabled ∧
    (smooth_movement_cmd lib ("speed" :: arg :: rest) st).state.config.ghost_trail =
        st.config.ghost_trail ∧
    (smooth_movement_cmd lib ("speed" :: arg :: rest) st).state.config.ghost_alpha =
        st.config.ghost_alpha ∧
    (smooth_movement_cmd lib ("speed" :: arg :: rest) st).state.config.max_tracked_units =
        st.config.max_tracked_units ∧
    (smooth_movement_cmd lib ("speed" :: arg :: rest) st).state.unit_states =
        st.unit_states ∧
    (smooth_movement_cmd lib ("speed" :: arg :: rest) st).state.update_counter =
        st.update_counter := by
  have h : smooth_movement_cmd lib ("speed" :: arg :: rest) st =
      { state := { st with config :=
          { st.config with interpolation_speed := (clampSpeed (.finite s)).toRat } }
        out := ["Interpolation speed set to " ++
          lib.fmt1 (clampSpeed (.finite s)).toRat ++ "\n"]
        outcome := .returned .CR_OK } := by
    simp [smooth_movement_cmd, hparse]
  rw [h, clampSpeed_finite]
  simp [FloatVal.toRat]

/-- Witness of C9: `speed 10` yields 2.0 and `speed 0.1` yields 0.5. -/
theorem speed_clamp_witness :
    (smooth_movement_cmd exLib ["speed", "10"]
        PluginState.initial).state.config.interpolation_speed = 2 ∧
    (smooth_movement_cmd exLib ["speed", "0.1"]
        PluginState.initial).state.config.interpolation_speed = 1 / 2 := by
  constructor
  · rw [(speed_clamp exLib "10" [] 10 PluginState.initial (by decide)).2.1]
    norm_num
  · rw [(speed_clamp exLib "0.1" [] (1 / 10) PluginState.initial (by simp [exLib])).2.1]
    norm_num

/-- C10 (disable clears).  After `disable` the store is empty and enabled is
false, whatever the store held; a following `enable` leaves the store empty
and sets enabled; and every entry of the store after the next detection pass
is the first-sighting entry of a visible live entity: previous = current =
its live position, progress 1, active = false.  The live entities have
pairwise distinct ids. -/
theorem disable_clears (lib : HostLib) (st : PluginState) (env : HostEnv)
    (hids : ∀ world : DfWorld, env.world = some world → (liveIds world.units_active).Nodup) :
    (smooth_movement_cmd lib ["disable"] st).state.unit_states = [] ∧
    (smooth_movement_cmd lib ["disable"] st).state.config.enabled = false ∧
    (smooth_movement_cmd lib ["enable"]
      (smooth_movement_cmd lib ["disable"] st).state).state.unit_states = [] ∧
    (smooth_movement_cmd lib ["enable"]
      (smooth_movement_cmd lib ["disable"] st).state).state.config.enabled = true ∧
    ∀ (k : Int) (v : UnitRenderState),
      storeFind (update_unit_positions env (smooth_movement_cmd lib ["enable"]
        (smooth_movement_cmd lib ["disable"] st).state).state).unit_states k = some v →
      ∃ (world : DfWorld) (u : DfUnit), env.world = some world ∧
        some u ∈ world.units_active ∧
        is_unit_visible env.view (some u) = true ∧ u.id = k ∧
        v = { unit_id := u.id
              x_prev := (u.pos_x : ℚ), y_prev := (u.pos_y : ℚ), z_prev := (u.pos_z : ℚ)
              x_curr := (u.pos_x : ℚ), y_curr := (u.pos_y : ℚ), z_curr := (u.pos_z : ℚ)
              progress := 1, active := false, start_time := 0 } := by
  have hd : (smooth_movement_cmd lib ["disable"] st).state =
      { st with config := { st.config with enabled := false }, unit_states := [] } := by
    simp [smooth_movement_cmd]
  have he : (smooth_movement_cmd lib ["enable"]
      (smooth_movement_cmd lib ["disable"] st).state).state =
      { st with config := { st.config with enabled := true }, unit_states := [] } := by
    rw [hd]; simp [smooth_movement_cmd]
  refine ⟨by rw [hd], by rw [hd], by rw [he], by rw [he], ?_⟩
  rw [he]
  intro k v hk
  cases hw : env.world with
  | none => simp [update_unit_positions, hw, storeFind] at hk
  | some world =>
    by_cases hok : world.units_active_ok = true
    · rw [update_unit_positions_eq env _ world rfl hw hok] at hk
      simp only [storeFind_eraseUnseen] at hk
      split at hk
      · rename_i hseen
        rw [mem_trackAll_seen] at hseen
        simp only [List.not_mem_nil, or_false] at hseen
        obtain ⟨u, hu, rfl⟩ := List.mem_map.1 hseen
        have hnd := scannedUnits_ids_nodup
          { st.config with enabled := true } env.view world.units_active (hids world hw)
        rw [storeFind_trackAll_of_mem _ _ _ _ hnd hu] at hk
        simp only [storeFind, trackEntry, Option.some.injEq] at hk
        have hu' : u ∈ visibleUnits env.view world.units_active := List.mem_of_mem_take hu
        rw [mem_visibleUnits] at hu'
        exact ⟨world, u, rfl, hu'.1, hu'.2, rfl, hk.symm⟩
      · cases hk
    · simp [update_unit_positions, hw, hok, storeFind] at hk

/-- Witness of C10: unit 1 is tracked at (5,5,0); after `disable`, `enable`
and a pass that finds it at (6,5,0) its entry is a first-sighting entry at
(6,5,0), not a detected move. -/
theorem disable_clears_witness :
    (smooth_movement_cmd exLib ["disable"]
      (update_unit_positions exEnv PluginState.initial)).state.unit_states = [] ∧
    ∃ (world : DfWorld) (u : DfUnit), exEnvMoved.world = some world ∧
      some u ∈ world.units_active ∧
      is_unit_visible exEnvMoved.view (some u) = true ∧ u.id = 1 ∧
      ({ unit_id := 1, x_prev := 6, y_prev := 5, z_prev := 0,
         x_curr := 6, y_curr := 5, z_curr := 0,
         progress := 1, active := false, start_time := 0 } : UnitRenderState) =
        { unit_id := u.id
          x_prev := (u.pos_x : ℚ), y_prev := (u.pos_y : ℚ), z_prev := (u.pos_z : ℚ)
          x_curr := (u.pos_x : ℚ), y_curr := (u.pos_y : ℚ), z_curr := (u.pos_z : ℚ)
          progress := 1, active := false, start_time := 0 } :=
  have hids : ∀ world : DfWorld, exEnvMoved.world = some world →
      (liveIds world.units_active).Nodup := by
    intro world hw
    simp only [exEnvMoved, Option.some.injEq] at hw
    subst hw
    decide
  ⟨(disable_clears exLib (update_unit_positions exEnv PluginState.initial)
      exEnvMoved hids).1,
   (disable_clears exLib (update_unit_positions exEnv PluginState.initial)
      exEnvMoved hids).2.2.2.2 1 _ (by decide)⟩

/-! ## Properties of every entry of the store -/

theorem storeAssign_forall (P : UnitRenderState → Prop) (s : Store) (k : Int)
    (v : UnitRenderState) (h : ∀ p ∈ s, P p.2) (hv : P v) :
    ∀ p ∈ storeAssign s k v, P p.2 := by
  induction s with
  | nil =>
    intro p hp
    simp only [storeAssign, List.mem_singleton] at hp
    subst hp; exact hv
  | cons q rest ih =>
    obtain ⟨a, w⟩ := q
    intro p hp
    by_cases ha : a = k
    · simp only [storeAssign, ha, if_true, List.mem_cons] at hp
      rcases hp with rfl | hp
      · exact hv
      · exact h p (List.mem_cons_of_mem _ hp)
    · simp only [storeAssign, ha, if_false, List.mem_cons] at hp
      rcases hp with rfl | hp
      · exact h (a, w) (List.mem_cons_self _ _)
      · exact ih (fun p hp => h p (List.mem_cons_of_mem _ hp)) p hp

theorem storeModify_forall (P : UnitRenderState → Prop) (s : Store) (k : Int)
    (f : UnitRenderState → UnitRenderState) (h : ∀ p ∈ s, P p.2)
    (hf : ∀ e, P e → P (f e)) :
    ∀ p ∈ storeModify s k f, P p.2 := by
  induction s with
  | nil => intro p hp; simp [storeModify] at hp
  | cons q rest ih =>
    obtain ⟨a, w⟩ := q
    intro p hp
    by_cases ha : a = k
    · simp only [storeModify, ha, if_true, List.mem_cons] at hp
      rcases hp with rfl | hp
      · exact hf w (h (a, w) (List.mem_cons_self _ _))
      · exact h p (List.mem_cons_of_mem _ hp)
    · simp only [storeModify, ha, if_false, List.mem_cons] at hp
      rcases hp with rfl | hp
      · exact h (a, w) (List.mem_cons_self _ _)
      · exact ih (fun p hp => h p (List.mem_cons_of_mem _ hp)) p hp

theorem trackUnit_forall (P : UnitRenderState → Prop) (t : Int) (u : DfUnit) (s : Store)
    (hnew : ∀ u, P (newUnitState u)) (hre : ∀ u e, P e → P (retrack t u e))
    (h : ∀ p ∈ s, P p.2) : ∀ p ∈ trackUnit t u s, P p.2 := by
  unfold trackUnit
  cases storeFind s u.id with
  | none => exact storeAssign_forall P s u.id _ h (hnew u)
  | some e => exact storeModify_forall P s u.id _ h (hre u)

theorem scanUnits_forall (P : UnitRenderState → Prop) (cfg : SmoothMovementConfig)
    (view : ViewEnv) (t : Int) (live : List (Option DfUnit)) (tc : Int) (seen : List Int)
    (s : Store) (hnew : ∀ u, P (newUnitState u)) (hre : ∀ u e, P e → P (retrack t u e))
    (h : ∀ p ∈ s, P p.2) : ∀ p ∈ (scanUnits cfg view t live tc seen s).2, P p.2 := by
  induction live generalizing tc seen s with
  | nil => simpa [scanUnits] using h
  | cons o rest ih =>
    cases o with
    | none => rw [scanUnits]; exact ih tc seen s h
    | some u =>
      rw [scanUnits]
      by_cases hv : is_unit_visible view (some u) = true
      · by_cases hc : tc ≥ cfg.max_tracked_units
        · simpa [hv, hc] using h
        · simp only [hv, hc, Bool.not_true, Bool.false_eq_true, if_false]
          exact ih _ _ _ (trackUnit_forall P t u s hnew hre h)
      · simp only [hv, Bool.not_false, if_true]
        exact ih tc seen s h

/-- A property of entries that holds for first-sighting entries and is kept
by the update of a tracked entry is kept by the detection pass. -/
theorem update_unit_positions_forall (P : UnitRenderState → Prop) (env : HostEnv)
    (st : PluginState) (hnew : ∀ u, P (newUnitState u))
    (hre : ∀ u e, P e → P (retrack env.now u e))
    (h : ∀ p ∈ st.unit_states, P p.2) :
    ∀ p ∈ (update_unit_positions env st).unit_states, P p.2 := by
  unfold update_unit_positions
  by_cases hen : st.config.enabled = true
  · cases hw : env.world with
    | none => simpa [hen] using h
    | some world =>
      by_cases hok : world.units_active_ok = true
      · simp only [hen, hok, Bool.not_true, Bool.false_eq_true, if_false]
        intro p hp
        have hp' := List.mem_of_mem_filter hp
        exact scanUnits_forall P _ _ _ _ _ _ _ hnew hre h p hp'
      · simpa [hen, hok] using h
  · simpa [hen] using h

/-- A property of entries that is kept by the progress step of one entry is
kept by the progress update. -/
theorem update_interpolation_forall (P : UnitRenderState → Prop) (now : Int)
    (st : PluginState) (hstep : ∀ e, P e → P (interpolateState st.config now e))
    (h : ∀ p ∈ st.unit_states, P p.2) :
    ∀ p ∈ (update_interpolation now st).unit_states, P p.2 := by
  unfold update_interpolation
  by_cases hen : st.config.enabled = true
  · simp only [hen, Bool.not_true, Bool.false_eq_true, if_false]
    intro p hp
    obtain ⟨q, hq, rfl⟩ := List.mem_map.1 hp
    exact hstep q.2 (h q hq)
  · simpa [hen] using h

theorem update_unit_positions_config (env : HostEnv) (st : PluginState) :
    (update_unit_positions env st).config = st.config := by
  unfold update_unit_positions
  by_cases hen : st.config.enabled = true
  · cases hw : env.world with
    | none => simp [hen]
    | some world => by_cases hok : world.units_active_ok = true <;> simp [hen, hok]
  · simp [hen]

theorem update_interpolation_config (now : Int) (st : PluginState) :
    (update_interpolation now st).config = st.config := by
  unfold update_interpolation
  by_cases hen : st.config.enabled = true <;> simp [hen]

theorem plugin_onupdate_config (env : HostEnv) (now_interp : Int) (st : PluginState) :
    (plugin_onupdate env now_interp st).config = st.config := by
  unfold plugin_onupdate
  by_cases hen : st.config.enabled = true
  · simp only [hen, Bool.not_true, Bool.false_eq_true, if_false]
    rw [update_interpolation_config]
    split
    · rw [update_unit_positions_config]
    · rfl
  · simp [hen]

/-- A property of entries kept by the three ways an entry is written is kept
by the update hook. -/
theorem plugin_onupdate_forall (P : UnitRenderState → Prop) (env : HostEnv)
    (now_interp : Int) (st : PluginState) (hnew : ∀ u, P (newUnitState u))
    (hre : ∀ u e, P e → P (retrack env.now u e))
    (hstep : ∀ e, P e → P (interpolateState st.config now_interp e))
    (h : ∀ p ∈ st.unit_states, P p.2) :
    ∀ p ∈ (plugin_onupdate env now_interp st).unit_states, P p.2 := by
  unfold plugin_onupdate
  by_cases hen : st.config.enabled = true
  · simp only [hen, Bool.not_true, Bool.false_eq_true, if_false]
    split
    · apply update_interpolation_forall
      · rw [update_unit_positions_config]; exact hstep
      · exact update_unit_positions_forall P env _ hnew hre h
    · exact update_interpolation_forall P now_interp _ hstep h
  · simpa [hen] using h

/-- The store after a command is the store before it or the empty store. -/
theorem smooth_movement_cmd_store (lib : HostLib) (parameters : List String)
    (st : PluginState) :
    (smooth_movement_cmd lib parameters st).state.unit_states = st.unit_states ∨
    (smooth_movement_cmd lib parameters st).state.unit_states = [] := by
  unfold smooth_movement_cmd
  cases parameters with
  | nil => simp
  | cons cmd args =>
    simp only
    split_ifs
    · simp
    · simp
    · cases args <;> simp
    · cases args with
      | nil => simp
      | cons arg rest =>
        simp only
        split <;> simp
    · simp
    · simp

theorem smooth_movement_cmd_forall (P : UnitRenderState → Prop) (lib : HostLib)
    (parameters : List String) (st : PluginState) (h : ∀ p ∈ st.unit_states, P p.2) :
    ∀ p ∈ (smooth_movement_cmd lib parameters st).state.unit_states, P p.2 := by
  rcases smooth_movement_cmd_store lib parameters st with h1 | h1
  · rw [h1]; exact h
  · rw [h1]; intro p hp; cases hp

/-! ## Invariants of the reachable states -/

theorem reachable_runOps (lib : HostLib) (ops : List Op) (st : PluginState)
    (h : Reachable lib st) : Reachable lib (runOps lib ops st) := by
  induction ops generalizing st with
  | nil => exact h
  | cons op rest ih => exact ih _ (Reachable.step op st h)

theorem runOps_append (lib : HostLib) (ops₁ ops₂ : List Op) (st : PluginState) :
    runOps lib (ops₁ ++ ops₂) st = runOps lib ops₂ (runOps lib ops₁ st) := by
  induction ops₁ generalizing st with
  | nil => rfl
  | cons op rest ih => exact ih _

/-- A property of entries kept by the three ways an entry is written is kept
by every operation. -/
theorem applyOp_forall (P : UnitRenderState → Prop) (lib : HostLib) (op : Op)
    (st : PluginState) (hnew : ∀ u, P (newUnitState u))
    (hre : ∀ t u e, P e → P (retrack t u e))
    (hstep : ∀ cfg t e, P e → P (interpolateState cfg t e))
    (h : ∀ p ∈ st.unit_states, P p.2) :
    ∀ p ∈ (applyOp lib op st).unit_states, P p.2 := by
  cases op with
  | onupdate env now_interp =>
    exact plugin_onupdate_forall P env now_interp st hnew (hre env.now) (hstep _ _) h
  | detect env => exact update_unit_positions_forall P env st hnew (hre env.now) h
  | interp t => exact update_interpolation_forall P t st (hstep _ _) h
  | command parameters => exact smooth_movement_cmd_forall P lib parameters st h

theorem retrack_settled (t : Int) (u : DfUnit) (e : UnitRenderState)
    (h : e.active = false → e.progress = 1) :
    (retrack t u e).active = false → (retrack t u e).progress = 1 := by
  unfold retrack
  split
  · intro hc; simp at hc
  · exact h

theorem interpolateState_settled (cfg : SmoothMovementConfig) (t : Int)
    (e : UnitRenderState) (h : e.active = false → e.progress = 1) :
    (interpolateState cfg t e).active = false →
      (interpolateState cfg t e).progress = 1 := by
  cases ha : e.active with
  | false => rw [interpolateState_inactive _ _ _ ha]; intro _; exact h ha
  | true =>
    rw [interpolateState_active _ _ _ ha]
    simp only [decide_eq_false_iff_not, not_lt]
    intro h1
    exact le_antisymm (min_le_left _ _) h1

/-- C7, as amended (settled invariant).  In every state reachable from the
initial state through on-update callbacks, detection passes, progress updates
and commands, every store entry with active = false has progress = 1. -/
theorem settled_progress_is_one (lib : HostLib) (st : PluginState)
    (h : Reachable lib st) :
    ∀ p ∈ st.unit_states, p.2.active = false → p.2.progress = 1 := by
  induction h with
  | initial => intro p hp; simp [PluginState.initial] at hp
  | step op st _ ih =>
    exact applyOp_forall (fun e => e.active = false → e.progress = 1) lib op st
      (fun u => by intro _; rfl)
      (fun t u e he => retrack_settled t u e he)
      (fun cfg t e he => interpolateState_settled cfg t e he) ih

theorem exSettledRun_entry :
    storeFind (runOps exLib exSettledRun PluginState.initial).unit_states 1 =
      some exSettledEntry := by
  have h1 : storeFind (update_unit_positions exEnvMoved
      (update_unit_positions exEnv PluginState.initial)).unit_states 1 =
      some { unit_id := 1, x_prev := 5, y_prev := 5, z_prev := 0,
             x_curr := 6, y_curr := 5, z_curr := 0,
             progress := 0, active := true, start_time := 7000000 } := by decide
  have h2 : (update_unit_positions exEnvMoved
      (update_unit_positions exEnv PluginState.initial)).config = {} := by
    rw [update_unit_positions_config, update_unit_positions_config]; rfl
  have h3 : elapsedMs 107000000 7000000 = 100 := by decide
  show storeFind (update_interpolation 107000000 (update_unit_positions exEnvMoved
      (update_unit_positions exEnv PluginState.initial))).unit_states 1 = _
  rw [storeFind_interp_eval 107000000 _ 1 _ 100 100 100 1 (by rw [h2]) h1 rfl h3
    (by norm_num [roundFloat_100]) (by rw [h2]; norm_num [roundFloat_100])
    (by norm_num [roundFloat_one])]
  simp only [exSettledEntry]
  norm_num

/-- Witness of C7 as amended: the settled entry of unit 1 after
`exSettledRun`. -/
theorem settled_progress_is_one_witness :
    Reachable exLib (runOps exLib exSettledRun PluginState.initial) ∧
    (1, exSettledEntry) ∈ (runOps exLib exSettledRun PluginState.initial).unit_states ∧
    exSettledEntry.active = false ∧ exSettledEntry.progress = 1 :=
  ⟨reachable_runOps exLib exSettledRun _ Reachable.initial,
   storeFind_mem _ _ _ exSettledRun_entry, rfl,
   settled_progress_is_one exLib (runOps exLib exSettledRun PluginState.initial)
    (reachable_runOps exLib exSettledRun _ Reachable.initial) (1, exSettledEntry)
    (storeFind_mem _ _ _ exSettledRun_entry) rfl⟩

/-- Counterexample to C7 as stated: after `exSettledRun` (first sighting at
(5,5,0), move to (6,5,0) detected at 7 ms, progress update at 107 ms) the
state is reachable and the entry of unit 1 has active = false and progress =
1, but its previous x is 5 and its current x is 6. -/
theorem settled_invariant_counterexample :
    Reachable exLib (runOps exLib exSettledRun PluginState.initial) ∧
    storeFind (runOps exLib exSettledRun PluginState.initial).unit_states 1 =
      some exSettledEntry ∧
    exSettledEntry.active = false ∧
    exSettledEntry.x_prev = 5 ∧ exSettledEntry.x_curr = 6 ∧
    exSettledEntry.x_prev ≠ exSettledEntry.x_curr := by
  refine ⟨reachable_runOps exLib exSettledRun _ Reachable.initial, exSettledRun_entry,
    rfl, rfl, rfl, ?_⟩
  simp only [exSettledEntry]
  norm_num
/-! ## Progress stays in range -/

theorem elapsedMs_nonneg (t start : Int) (h : start ≤ t) : 0 ≤ elapsedMs t start := by
  unfold elapsedMs TICKS_PER_MS
  exact Int.tdiv_nonneg (by omega) (by norm_num)

theorem elapsedMs_mono (t t' start : Int) (h : start ≤ t) (h' : t ≤ t') :
    elapsedMs t start ≤ elapsedMs t' start := by
  unfold elapsedMs TICKS_PER_MS
  rw [Int.tdiv_eq_ediv (by omega) (by norm_num), Int.tdiv_eq_ediv (by omega) (by norm_num)]
  exact Int.ediv_le_ediv (by norm_num) (by omega)

theorem ratio_nonneg (el : Int) (speed : ℚ) (hel : 0 ≤ el) (hs : 0 < speed) :
    0 ≤ floatDiv (floatOfInt el) (floatDiv TICK_DURATION_MS speed) := by
  have h1 : 0 ≤ floatOfInt el := floatOfInt_nonneg hel
  have h2 : 0 ≤ floatDiv TICK_DURATION_MS speed := by
    unfold floatDiv TICK_DURATION_MS
    exact roundFloat_nonneg (le_of_lt (div_pos (by norm_num) hs))
  exact roundFloat_nonneg (div_nonneg h1 h2)

theorem entryInRange_later {t t' : Int} {e : UnitRenderState} (h : EntryInRange t e)
    (ht : t ≤ t') : EntryInRange t' e :=
  ⟨h.1, fun ha => le_trans (h.2 ha) ht⟩

theorem entryInRange_new (t : Int) (u : DfUnit) : EntryInRange t (newUnitState u) := by
  refine ⟨⟨?_, ?_⟩, ?_⟩
  · show (0 : ℚ) ≤ 1
    norm_num
  · show (1 : ℚ) ≤ 1
    norm_num
  · intro h; cases h

theorem entryInRange_retrack (t t' : Int) (u : DfUnit) (e : UnitRenderState)
    (ht : t ≤ t') (h : EntryInRange t' e) : EntryInRange t' (retrack t u e) := by
  unfold retrack
  split
  · exact ⟨⟨le_refl _, by norm_num⟩, fun _ => ht⟩
  · exact h

theorem entryInRange_interpolate (cfg : SmoothMovementConfig) (t : Int)
    (e : UnitRenderState) (hs : 0 < cfg.interpolation_speed) (h : EntryInRange t e) :
    EntryInRange t (interpolateState cfg t e) := by
  cases ha : e.active with
  | false => rw [interpolateState_inactive _ _ _ ha]; exact h
  | true =>
    rw [interpolateState_active _ _ _ ha]
    have hr := ratio_nonneg (elapsedMs t e.start_time) cfg.interpolation_speed
      (elapsedMs_nonneg _ _ (h.2 ha)) hs
    refine ⟨⟨?_, ?_⟩, ?_⟩
    · exact le_min (by norm_num) hr
    · exact min_le_left _ _
    · intro _; exact h.2 ha

/-- The speed after a command is the speed before it or a clamped value. -/
theorem smooth_movement_cmd_speed (lib : HostLib) (parameters : List String)
    (st : PluginState) :
    (smooth_movement_cmd lib parameters st).state.config.interpolation_speed =
        st.config.interpolation_speed ∨
    ∃ v : FloatVal,
      (smooth_movement_cmd lib parameters st).state.config.interpolation_speed =
        (clampSpeed v).toRat := by
  unfold smooth_movement_cmd
  cases parameters with
  | nil => simp
  | cons cmd args =>
    simp only
    split_ifs
    · simp
    · simp
    · cases args <;> simp
    · cases args with
      | nil => simp
      | cons arg rest =>
        simp only
        split
        · simp
        · rename_i v _
          exact Or.inr ⟨v, rfl⟩
    · simp
    · simp

theorem applyOp_speed_pos (lib : HostLib) (op : Op) (st : PluginState)
    (h : 0 < st.config.interpolation_speed) :
    0 < (applyOp lib op st).config.interpolation_speed := by
  cases op with
  | onupdate env now_interp => simp only [applyOp, plugin_onupdate_config]; exact h
  | detect env => simp only [applyOp, update_unit_positions_config]; exact h
  | interp t => simp only [applyOp, update_interpolation_config]; exact h
  | command parameters =>
    simp only [applyOp]
    rcases smooth_movement_cmd_speed lib parameters st with h1 | ⟨v, h1⟩
    · rw [h1]; exact h
    · rw [h1]
      obtain ⟨q, hq, hlo, _⟩ := clampSpeed_range v
      rw [hq]
      exact lt_of_lt_of_le (by norm_num) hlo

theorem reachableAt_inRange (lib : HostLib) (t : Int) (st : PluginState)
    (h : ReachableAt lib t st) :
    0 < st.config.interpolation_speed ∧ ∀ p ∈ st.unit_states, EntryInRange t p.2 := by
  induction h with
  | initial t =>
    refine ⟨?_, ?_⟩
    · show (0 : ℚ) < 1
      norm_num
    · intro p hp; simp [PluginState.initial] at hp
  | step op t st _ hclock ih =>
    refine ⟨applyOp_speed_pos lib op st ih.1, ?_⟩
    cases op with
    | onupdate env now_interp =>
      exact plugin_onupdate_forall (EntryInRange now_interp) env now_interp st
        (entryInRange_new _)
        (fun u e he => entryInRange_retrack _ _ u e hclock.2 he)
        (fun e he => entryInRange_interpolate _ _ e ih.1 he)
        (fun p hp => entryInRange_later (ih.2 p hp) (le_trans hclock.1 hclock.2))
    | detect env =>
      exact update_unit_positions_forall (EntryInRange env.now) env st
        (entryInRange_new _)
        (fun u e he => entryInRange_retrack _ _ u e (le_refl _) he)
        (fun p hp => entryInRange_later (ih.2 p hp) hclock)
    | interp t' =>
      exact update_interpolation_forall (EntryInRange t') t' st
        (fun e he => entryInRange_interpolate _ _ e ih.1 he)
        (fun p hp => entryInRange_later (ih.2 p hp) hclock)
    | command parameters =>
      exact smooth_movement_cmd_forall (EntryInRange t) lib parameters st ih.2

/-- C8 (progress range invariant).  In every state reachable from the initial
state through on-update callbacks, detection passes, progress updates and
commands under a clock that never goes back, every store entry has
0 ≤ progress ≤ 1. -/
theorem progress_in_range (lib : HostLib) (t : Int) (st : PluginState)
    (h : ReachableAt lib t st) :
    ∀ p ∈ st.unit_states, 0 ≤ p.2.progress ∧ p.2.progress ≤ 1 :=
  fun p hp => ((reachableAt_inRange lib t st h).2 p hp).1
theorem reachableAt_runOps (lib : HostLib) (ops : List Op) (t : Int) (st : PluginState)
    (h : ReachableAt lib t st) (hclock : clockMonotone t ops) :
    ReachableAt lib (clockEnd t ops) (runOps lib ops st) := by
  induction ops generalizing t st with
  | nil => exact h
  | cons op rest ih =>
    exact ih _ _ (ReachableAt.step op t st h hclock.1) hclock.2

theorem exMidRun_entry :
    storeFind (runOps exLib exMidRun PluginState.initial).unit_states 1 =
      some exMidEntry := by
  have h1 : storeFind (update_unit_positions exEnvMoved
      (update_unit_positions exEnv PluginState.initial)).unit_states 1 =
      some { unit_id := 1, x_prev := 5, y_prev := 5, z_prev := 0,
             x_curr := 6, y_curr := 5, z_curr := 0,
             progress := 0, active := true, start_time := 7000000 } := by decide
  have h2 : (update_unit_positions exEnvMoved
      (update_unit_positions exEnv PluginState.initial)).config = {} := by
    rw [update_unit_positions_config, update_unit_positions_config]; rfl
  have h3 : elapsedMs 57000000 7000000 = 50 := by decide
  show storeFind (update_interpolation 57000000 (update_unit_positions exEnvMoved
      (update_unit_positions exEnv PluginState.initial))).unit_states 1 = _
  rw [storeFind_interp_eval 57000000 _ 1 _ 50 50 100 (1 / 2) (by rw [h2]) h1 rfl h3
    (by norm_num [roundFloat_50]) (by rw [h2]; norm_num [roundFloat_100])
    (by norm_num [roundFloat_half])]
  simp only [exMidEntry]
  norm_num

/-- Witness of C8: the entry of unit 1 after `exMidRun`, half way through its
interpolation. -/
theorem progress_in_range_witness :
    clockMonotone 0 exMidRun ∧
    (1, exMidEntry) ∈ (runOps exLib exMidRun PluginState.initial).unit_states ∧
    0 ≤ exMidEntry.progress ∧ exMidEntry.progress ≤ 1 :=
  have hclock : clockMonotone 0 exMidRun := by
    simp [clockMonotone, exMidRun, Op.clockFrom, Op.clockAfter, exEnv, exEnvMoved]
  ⟨hclock, storeFind_mem _ _ _ exMidRun_entry,
   progress_in_range exLib (clockEnd 0 exMidRun)
    (runOps exLib exMidRun PluginState.initial)
    (reachableAt_runOps exLib exMidRun 0 _ (ReachableAt.initial 0) hclock)
    (1, exMidEntry) (storeFind_mem _ _ _ exMidRun_entry)⟩

/-! ## Monotone progress -/

theorem applyOp_speed_range (lib : HostLib) (op : Op) (st : PluginState)
    (h : 1 / 2 ≤ st.config.interpolation_speed ∧ st.config.interpolation_speed ≤ 2) :
    1 / 2 ≤ (applyOp lib op st).config.interpolation_speed ∧
      (applyOp lib op st).config.interpolation_speed ≤ 2 := by
  cases op with
  | onupdate env now_interp => simp only [applyOp, plugin_onupdate_config]; exact h
  | detect env => simp only [applyOp, update_unit_positions_config]; exact h
  | interp t => simp only [applyOp, update_interpolation_config]; exact h
  | command parameters =>
    simp only [applyOp]
    rcases smooth_movement_cmd_speed lib parameters st with h1 | ⟨v, h1⟩
    · rw [h1]; exact h
    · rw [h1]
      obtain ⟨q, hq, hlo, hhi⟩ := clampSpeed_range v
      rw [hq]
      exact ⟨hlo, hhi⟩

theorem reachable_speed_range (lib : HostLib) (st : PluginState) (h : Reachable lib st) :
    1 / 2 ≤ st.config.interpolation_speed ∧ st.config.interpolation_speed ≤ 2 := by
  induction h with
  | initial =>
    show (1 / 2 : ℚ) ≤ 1 ∧ (1 : ℚ) ≤ 2
    constructor <;> norm_num
  | step op st _ ih => exact applyOp_speed_range lib op st ih

theorem reachable_of_reachableAt (lib : HostLib) (t : Int) (st : PluginState)
    (h : ReachableAt lib t st) : Reachable lib st := by
  induction h with
  | initial t => exact Reachable.initial
  | step op t st _ _ ih => exact Reachable.step op st ih

theorem progressBound_nonneg (t : Int) (speed : ℚ) (start : Int) (h : start ≤ t)
    (hs : 0 < speed) : 0 ≤ progressBound t speed start :=
  le_min (by norm_num) (ratio_nonneg _ _ (elapsedMs_nonneg _ _ h) hs)

/-- What the progress update computes grows with the clock and with the
speed, for speeds in [0.5, 2]. -/
theorem progressBound_mono (t t' start : Int) (s s' : ℚ) (hs : 1 / 2 ≤ s) (hss : s ≤ s')
    (hs' : s' ≤ 2) (h0 : start ≤ t) (ht : t ≤ t') :
    progressBound t s start ≤ progressBound t' s' start := by
  have hpos : 0 < s := lt_of_lt_of_le (by norm_num) hs
  have hF : 0 ≤ floatOfInt (elapsedMs t start) := floatOfInt_nonneg (elapsedMs_nonneg _ _ h0)
  have hFF : floatOfInt (elapsedMs t start) ≤ floatOfInt (elapsedMs t' start) :=
    floatOfInt_mono (elapsedMs_nonneg _ _ h0) (elapsedMs_mono t t' start h0 ht)
  have hadj := floatDiv_duration_bounds hs (le_trans hss hs')
  have hadj' := floatDiv_duration_bounds (le_trans hs hss) hs'
  have hanti := floatDiv_duration_antitone hpos hss
  unfold progressBound
  apply min_le_min (le_refl _)
  have hq : floatOfInt (elapsedMs t start) / floatDiv TICK_DURATION_MS s ≤
      floatOfInt (elapsedMs t' start) / floatDiv TICK_DURATION_MS s' :=
    div_le_div₀ (le_trans hF hFF) hFF (lt_of_lt_of_le (by norm_num) hadj'.1) hanti
  exact roundFloat_mono (div_nonneg hF (le_trans (by norm_num) hadj.1)) hq

theorem progressBound_at_start (t : Int) (speed : ℚ) (start : Int) (h : start = t) :
    progressBound t speed start = 0 := by
  subst h
  have h0 : elapsedMs start start = 0 := by
    unfold elapsedMs
    simp
  unfold progressBound floatDiv floatOfInt
  rw [h0]
  simp [roundFloat_zero]

theorem entryBounded_later {t t' : Int} {s s' : ℚ} {e : UnitRenderState}
    (h : EntryBounded t s e) (ht : t ≤ t') (hs : 1 / 2 ≤ s) (hss : s ≤ s') (hs' : s' ≤ 2) :
    EntryBounded t' s' e := by
  intro ha
  obtain ⟨h1, h2⟩ := h ha
  exact ⟨le_trans h1 ht, le_trans h2 (progressBound_mono _ _ _ _ _ hs hss hs' h1 ht)⟩

theorem entryBounded_new (t : Int) (s : ℚ) (u : DfUnit) :
    EntryBounded t s (newUnitState u) := by
  intro h; cases h

theorem entryBounded_retrack (t t' : Int) (s : ℚ) (u : DfUnit) (e : UnitRenderState)
    (ht : t ≤ t') (hs : 0 < s) (h : EntryBounded t' s e) :
    EntryBounded t' s (retrack t u e) := by
  unfold retrack
  split
  · intro _
    exact ⟨ht, progressBound_nonneg _ _ _ ht hs⟩
  · exact h

theorem entryBounded_interpolate (cfg : SmoothMovementConfig) (t : Int)
    (e : UnitRenderState) (h : EntryBounded t cfg.interpolation_speed e) :
    EntryBounded t cfg.interpolation_speed (interpolateState cfg t e) := by
  cases ha : e.active with
  | false => rw [interpolateState_inactive _ _ _ ha]; exact h
  | true =>
    rw [interpolateState_active _ _ _ ha]
    intro _
    exact ⟨(h ha).1, le_refl _⟩

/-! ### The entry of one entity through the operations -/

theorem trackUnit_find_pred (P : UnitRenderState → Prop) (now : Int) (u : DfUnit)
    (s : Store) (k : Int) (hold : ∀ e, storeFind s k = some e → P e)
    (hnew : ∀ u, P (newUnitState u)) (hre : ∀ u e, P e → P (retrack now u e)) :
    ∀ e', storeFind (trackUnit now u s) k = some e' → P e' := by
  intro e' h'
  rw [storeFind_trackUnit] at h'
  by_cases hk : u.id = k
  · subst hk
    simp only [if_true, Option.some.injEq] at h'
    subst h'
    cases hf : storeFind s u.id with
    | none => exact hnew u
    | some e => exact hre u e (hold e hf)
  · simp only [hk, if_false] at h'
    exact hold e' h'

theorem trackAll_find_pred (P : UnitRenderState → Prop) (now : Int) (us : List DfUnit)
    (acc : List Int × Store) (k : Int) (hold : ∀ e, storeFind acc.2 k = some e → P e)
    (hnew : ∀ u, P (newUnitState u)) (hre : ∀ u e, P e → P (retrack now u e)) :
    ∀ e', storeFind (trackAll now us acc).2 k = some e' → P e' := by
  induction us generalizing acc with
  | nil => exact hold
  | cons u rest ih =>
    exact ih (markSeen acc.1 u.id, trackUnit now u acc.2)
      (trackUnit_find_pred P now u acc.2 k hold hnew hre)

/-- A property that holds for the entry of entity `k` (if any), for
first-sighting entries, and is kept by the update of a tracked entry, holds
for the entry of `k` after the detection pass. -/
theorem update_unit_positions_find_pred (P : UnitRenderState → Prop) (env : HostEnv)
    (st : PluginState) (k : Int) (hold : ∀ e, storeFind st.unit_states k = some e → P e)
    (hnew : ∀ u, P (newUnitState u)) (hre : ∀ u e, P e → P (retrack env.now u e)) :
    ∀ e', storeFind (update_unit_positions env st).unit_states k = some e' → P e' := by
  intro e' h'
  by_cases hen : st.config.enabled = true
  · cases hw : env.world with
    | none =>
      have : update_unit_positions env st = st := by simp [update_unit_positions, hw]
      rw [this] at h'
      exact hold e' h'
    | some world =>
      by_cases hok : world.units_active_ok = true
      · rw [update_unit_positions_eq env st world hen hw hok] at h'
        simp only [storeFind_eraseUnseen] at h'
        split at h'
        · exact trackAll_find_pred P env.now _ ([], st.unit_states) k hold hnew hre e' h'
        · cases h'
      · have : update_unit_positions env st = st := by
          simp [update_unit_positions, hw, hok]
        rw [this] at h'
        exact hold e' h'
  · have : update_unit_positions env st = st := by simp [update_unit_positions, hen]
    rw [this] at h'
    exact hold e' h'

/-- The entry the progress update leaves at `k` comes from the entry at `k`
before it. -/
theorem update_interpolation_find (now : Int) (st : PluginState) (k : Int)
    (e' : UnitRenderState)
    (h' : storeFind (update_interpolation now st).unit_states k = some e') :
    ∃ e, storeFind st.unit_states k = some e ∧
      (e' = e ∨ e' = interpolateState st.config now e) := by
  unfold update_interpolation at h'
  by_cases hen : st.config.enabled = true
  · simp only [hen, Bool.not_true, Bool.false_eq_true, if_false,
      storeFind_map_values] at h'
    cases hf : storeFind st.unit_states k with
    | none => rw [hf] at h'; cases h'
    | some e =>
      rw [hf] at h'
      exact ⟨e, rfl, Or.inr (Option.some.inj h').symm⟩
  · simp only [hen, Bool.not_false, if_true] at h'
    exact ⟨e', h', Or.inl rfl⟩

theorem interpolateState_start_time (cfg : SmoothMovementConfig) (t : Int)
    (e : UnitRenderState) : (interpolateState cfg t e).start_time = e.start_time := by
  cases ha : e.active with
  | false => rw [interpolateState_inactive _ _ _ ha]
  | true => rw [interpolateState_active _ _ _ ha]

theorem interpolateState_active_of_active (cfg : SmoothMovementConfig) (t : Int)
    (e : UnitRenderState) (h : (interpolateState cfg t e).active = true) :
    e.active = true := by
  cases ha : e.active with
  | false => rw [interpolateState_inactive _ _ _ ha, ha] at h; cases h
  | true => rfl

theorem keyBounded_detect (k t : Int) (env : HostEnv) (st : PluginState)
    (h : KeyBounded k t st) (ht : t ≤ env.now) :
    KeyBounded k env.now (update_unit_positions env st) := by
  unfold KeyBounded
  rw [update_unit_positions_config]
  refine ⟨h.1, ?_⟩
  have hpos : 0 < st.config.interpolation_speed := lt_of_lt_of_le (by norm_num) h.1.1
  exact update_unit_positions_find_pred
    (EntryBounded env.now st.config.interpolation_speed) env st k
    (fun e he => entryBounded_later (h.2 e he) ht h.1.1 (le_refl _) h.1.2)
    (entryBounded_new _ _)
    (fun u e he => entryBounded_retrack _ _ _ u e (le_refl _) hpos he)

theorem keyBounded_interp (k t now : Int) (st : PluginState)
    (h : KeyBounded k t st) (ht : t ≤ now) :
    KeyBounded k now (update_interpolation now st) := by
  unfold KeyBounded
  rw [update_interpolation_config]
  refine ⟨h.1, ?_⟩
  intro e' h'
  obtain ⟨e, he, hcase⟩ := update_interpolation_find now st k e' h'
  have hb := entryBounded_later (h.2 e he) ht h.1.1 (le_refl _) h.1.2
  rcases hcase with rfl | rfl
  · exact hb
  · exact entryBounded_interpolate _ _ _ hb

theorem keyBounded_counter (k t : Int) (st : PluginState) (c : Int)
    (h : KeyBounded k t st) : KeyBounded k t { st with update_counter := c } := h

theorem keyBounded_onupdate (k t : Int) (env : HostEnv) (now_interp : Int)
    (st : PluginState) (h : KeyBounded k t st) (ht : t ≤ env.now)
    (ht' : env.now ≤ now_interp) :
    KeyBounded k now_interp (plugin_onupdate env now_interp st) := by
  unfold plugin_onupdate
  by_cases hen : st.config.enabled = true
  · simp only [hen, Bool.not_true, Bool.false_eq_true, if_false]
    split
    · exact keyBounded_interp _ _ _ _
        (keyBounded_detect k t env _ (keyBounded_counter k t st _ h) ht) ht'
    · exact keyBounded_interp _ _ _ _ (keyBounded_counter k t st _ h) (le_trans ht ht')
  · simp only [hen, Bool.not_false, if_true]
    exact ⟨h.1, fun e he =>
      entryBounded_later (h.2 e he) (le_trans ht ht') h.1.1 (le_refl _) h.1.2⟩

theorem keyBounded_applyOp (lib : HostLib) (k t : Int) (op : Op) (st : PluginState)
    (h : KeyBounded k t st) (hclock : op.clockFrom t)
    (hspeed : st.config.interpolation_speed ≤
      (applyOp lib op st).config.interpolation_speed) :
    KeyBounded k (op.clockAfter t) (applyOp lib op st) := by
  cases op with
  | onupdate env now_interp =>
    exact keyBounded_onupdate k t env now_interp st h hclock.1 hclock.2
  | detect env => exact keyBounded_detect k t env st h hclock
  | interp now => exact keyBounded_interp k t now st h hclock
  | command parameters =>
    have hr := applyOp_speed_range lib (.command parameters) st h.1
    refine ⟨hr, ?_⟩
    intro e' h'
    have h'' : storeFind (smooth_movement_cmd lib parameters st).state.unit_states k =
        some e' := h'
    rcases smooth_movement_cmd_store lib parameters st with h1 | h1
    · rw [h1] at h''
      exact entryBounded_later (h.2 e' h'') (le_refl _) h.1.1 hspeed hr.2
    · rw [h1] at h''
      simp [storeFind] at h''

theorem keyBounded_runOps (lib : HostLib) (k : Int) (ops : List Op) (t : Int)
    (st : PluginState) (h : KeyBounded k t st) (hclock : clockMonotone t ops)
    (hspeed : speedNeverLowered lib st ops) :
    KeyBounded k (clockEnd t ops) (runOps lib ops st) := by
  induction ops generalizing t st with
  | nil => exact h
  | cons op rest ih =>
    exact ih _ _ (keyBounded_applyOp lib k t op st h hclock.1 hspeed.1) hclock.2 hspeed.2

/-- In a state reached under a clock that never goes back, an entity whose
progress is not ahead of the current speed is bounded at the last clock
reading. -/
theorem keyBounded_of_progressCurrent (lib : HostLib) (k t : Int) (st : PluginState)
    (hr : ReachableAt lib t st) (hn : ProgressCurrent k t st) : KeyBounded k t st := by
  have hrange := reachable_speed_range lib st (reachable_of_reachableAt lib t st hr)
  refine ⟨hrange, ?_⟩
  intro e he ha
  have hstart : e.start_time ≤ t :=
    ((reachableAt_inRange lib t st hr).2 (k, e) (storeFind_mem _ _ _ he)).2 ha
  exact ⟨hstart, hn e he ha⟩

/-- An entity that is untracked, settled or at progress 0 is not ahead of the
current speed. -/
theorem progressCurrent_of_notUnderWay (lib : HostLib) (k t : Int) (st : PluginState)
    (hr : ReachableAt lib t st) (hn : NotUnderWay k st) : ProgressCurrent k t st := by
  have hrange := reachable_speed_range lib st (reachable_of_reachableAt lib t st hr)
  have hpos : 0 < st.config.interpolation_speed := lt_of_lt_of_le (by norm_num) hrange.1
  intro e he ha
  have hstart : e.start_time ≤ t :=
    ((reachableAt_inRange lib t st hr).2 (k, e) (storeFind_mem _ _ _ he)).2 ha
  rw [hn e he ha]
  exact progressBound_nonneg _ _ _ hstart hpos

/-- Right after a progress update no entity is ahead of the current speed. -/
theorem progressCurrent_after_update (k now : Int) (st : PluginState)
    (hen : st.config.enabled = true) :
    ProgressCurrent k now (update_interpolation now st) := by
  intro e' h' ha'
  rw [update_interpolation_config]
  rw [storeFind_update_interpolation _ _ _ hen] at h'
  cases hf : storeFind st.unit_states k with
  | none => rw [hf] at h'; cases h'
  | some e =>
    rw [hf, Option.map_some', Option.some.injEq] at h'
    subst h'
    have ha : e.active = true := interpolateState_active_of_active _ _ _ ha'
    rw [interpolateState_active _ _ _ ha]

theorem clockMonotone_append (t : Int) (ops₁ ops₂ : List Op) :
    clockMonotone t (ops₁ ++ ops₂) ↔
      clockMonotone t ops₁ ∧ clockMonotone (clockEnd t ops₁) ops₂ := by
  induction ops₁ generalizing t with
  | nil => simp [clockMonotone, clockEnd]
  | cons op rest ih => simp [clockMonotone, clockEnd, ih, and_assoc]

theorem speedNeverLowered_append (lib : HostLib) (st : PluginState) (ops₁ ops₂ : List Op) :
    speedNeverLowered lib st (ops₁ ++ ops₂) ↔
      speedNeverLowered lib st ops₁ ∧ speedNeverLowered lib (runOps lib ops₁ st) ops₂ := by
  induction ops₁ generalizing st with
  | nil => simp [speedNeverLowered, runOps]
  | cons op rest ih => simp [speedNeverLowered, runOps, ih, and_assoc]

theorem keptOrRestarted_trans (now : Int) (e e' e'' : UnitRenderState)
    (h : KeptOrRestarted now e e') (h' : KeptOrRestarted now e' e'') :
    KeptOrRestarted now e e'' := by
  rcases h' with rfl | h'
  · exact h
  · exact Or.inr h'

theorem keptOrRestarted_retrack (now : Int) (u : DfUnit) (e : UnitRenderState) :
    KeptOrRestarted now e (retrack now u e) := by
  unfold retrack
  split
  · exact Or.inr ⟨rfl, rfl⟩
  · exact Or.inl rfl

theorem trackUnit_keptOrRestarted (now : Int) (u : DfUnit) (s : Store) (k : Int)
    (e : UnitRenderState) (h : storeFind s k = some e) :
    ∃ e', storeFind (trackUnit now u s) k = some e' ∧ KeptOrRestarted now e e' := by
  rw [storeFind_trackUnit]
  by_cases hk : u.id = k
  · subst hk
    simp only [if_true, h, trackEntry]
    exact ⟨_, rfl, keptOrRestarted_retrack now u e⟩
  · simp only [hk, if_false]
    exact ⟨e, h, Or.inl rfl⟩

theorem trackAll_keptOrRestarted (now : Int) (us : List DfUnit) (acc : List Int × Store)
    (k : Int) (e : UnitRenderState) (h : storeFind acc.2 k = some e) :
    ∃ e', storeFind (trackAll now us acc).2 k = some e' ∧ KeptOrRestarted now e e' := by
  induction us generalizing acc e with
  | nil => exact ⟨e, h, Or.inl rfl⟩
  | cons u rest ih =>
    obtain ⟨e₁, h₁, r₁⟩ := trackUnit_keptOrRestarted now u acc.2 k e h
    obtain ⟨e₂, h₂, r₂⟩ := ih (markSeen acc.1 u.id, trackUnit now u acc.2) e₁ h₁
    exact ⟨e₂, h₂, keptOrRestarted_trans now e e₁ e₂ r₁ r₂⟩

/-- A detection pass leaves a tracked entry as it is or restarts it at the
time of the pass (or removes it). -/
theorem update_unit_positions_keptOrRestarted (env : HostEnv) (st : PluginState)
    (k : Int) (e e' : UnitRenderState) (h : storeFind st.unit_states k = some e)
    (h' : storeFind (update_unit_positions env st).unit_states k = some e') :
    KeptOrRestarted env.now e e' := by
  by_cases hen : st.config.enabled = true
  · cases hw : env.world with
    | none =>
      have : update_unit_positions env st = st := by simp [update_unit_positions, hw]
      rw [this, h] at h'
      exact Or.inl (Option.some.inj h').symm
    | some world =>
      by_cases hok : world.units_active_ok = true
      · rw [update_unit_positions_eq env st world hen hw hok] at h'
        simp only [storeFind_eraseUnseen] at h'
        split at h'
        · obtain ⟨e₂, h₂, r₂⟩ := trackAll_keptOrRestarted env.now
            (scannedUnits st.config env.view world.units_active) ([], st.unit_states) k e h
          rw [h₂] at h'
          rw [← Option.some.inj h']
          exact r₂
        · cases h'
      · have : update_unit_positions env st = st := by
          simp [update_unit_positions, hw, hok]
        rw [this, h] at h'
        exact Or.inl (Option.some.inj h').symm
  · have : update_unit_positions env st = st := by simp [update_unit_positions, hen]
    rw [this, h] at h'
    exact Or.inl (Option.some.inj h').symm

theorem detect_progress_mono (t : Int) (env : HostEnv) (st : PluginState) (k : Int)
    (e e' : UnitRenderState) (hb : KeyBounded k t st) (ht : t ≤ env.now)
    (h : storeFind st.unit_states k = some e) (ha : e.active = true)
    (h' : storeFind (update_unit_positions env st).unit_states k = some e')
    (hstart : e'.start_time = e.start_time) : e.progress ≤ e'.progress := by
  rcases update_unit_positions_keptOrRestarted env st k e e' h h' with rfl | ⟨hp, hs⟩
  · exact le_refl _
  · obtain ⟨h1, h2⟩ := hb.2 e h ha
    have heq : e.start_time = t := by
      have : env.now = e.start_time := by rw [← hs, hstart]
      omega
    rw [progressBound_at_start t st.config.interpolation_speed e.start_time heq] at h2
    rw [hp]
    exact h2

theorem interp_progress_mono (t now : Int) (st : PluginState) (k : Int)
    (e e' : UnitRenderState) (hb : KeyBounded k t st) (ht : t ≤ now)
    (h : storeFind st.unit_states k = some e) (ha : e.active = true)
    (h' : storeFind (update_interpolation now st).unit_states k = some e') :
    e.progress ≤ e'.progress := by
  obtain ⟨e₀, h₀, hcase⟩ := update_interpolation_find now st k e' h'
  rw [h] at h₀
  have he : e₀ = e := (Option.some.inj h₀).symm
  subst he
  rcases hcase with rfl | rfl
  · exact le_refl _
  · obtain ⟨h1, h2⟩ := hb.2 e₀ h ha
    rw [interpolateState_active _ _ _ ha]
    exact le_trans h2 (progressBound_mono _ _ _ _ _ hb.1.1 (le_refl _) hb.1.2 h1 ht)

theorem onupdate_progress_mono (t : Int) (env : HostEnv) (now_interp : Int)
    (st : PluginState) (k : Int) (e e' : UnitRenderState) (hb : KeyBounded k t st)
    (ht : t ≤ env.now) (ht' : env.now ≤ now_interp)
    (h : storeFind st.unit_states k = some e) (ha : e.active = true)
    (h' : storeFind (plugin_onupdate env now_interp st).unit_states k = some e')
    (ha' : e'.active = true) (hstart : e'.start_time = e.start_time) :
    e.progress ≤ e'.progress := by
  unfold plugin_onupdate at h'
  by_cases hen : st.config.enabled = true
  · simp only [hen, Bool.not_true, Bool.false_eq_true, if_false] at h'
    split at h'
    · obtain ⟨e₂, h₂, hcase⟩ := update_interpolation_find _ _ k e' h'
      have hs₂ : e₂.start_time = e.start_time := by
        rcases hcase with rfl | rfl
        · exact hstart
        · rw [← hstart, interpolateState_start_time]
      have ha₂ : e₂.active = true := by
        rcases hcase with rfl | rfl
        · exact ha'
        · exact interpolateState_active_of_active _ _ _ ha'
      have hb₁ := keyBounded_counter k t st (wrap32 (st.update_counter + 1)) hb
      have m₁ := detect_progress_mono t env _ k e e₂ hb₁ ht h ha h₂ hs₂
      have m₂ := interp_progress_mono env.now now_interp _ k e₂ e'
        (keyBounded_detect k t env _ hb₁ ht) ht' h₂ ha₂ h'
      exact le_trans m₁ m₂
    · exact interp_progress_mono t now_interp _ k e e'
        (keyBounded_counter k t st (wrap32 (st.update_counter + 1)) hb)
        (le_trans ht ht') h ha h'
  · simp only [hen, Bool.not_false, if_true] at h'
    rw [h] at h'
    rw [← Option.some.inj h']

theorem applyOp_progress_mono (lib : HostLib) (t : Int) (op : Op) (st : PluginState)
    (k : Int) (e e' : UnitRenderState) (hb : KeyBounded k t st)
    (hclock : op.clockFrom t)
    (h : storeFind st.unit_states k = some e) (ha : e.active = true)
    (h' : storeFind (applyOp lib op st).unit_states k = some e')
    (ha' : e'.active = true) (hstart : e'.start_time = e.start_time) :
    e.progress ≤ e'.progress := by
  cases op with
  | onupdate env now_interp =>
    exact onupdate_progress_mono t env now_interp st k e e' hb hclock.1 hclock.2
      h ha h' ha' hstart
  | detect env => exact detect_progress_mono t env st k e e' hb hclock h ha h' hstart
  | interp now => exact interp_progress_mono t now st k e e' hb hclock h ha h'
  | command parameters =>
    simp only [applyOp] at h'
    rcases smooth_movement_cmd_store lib parameters st with h1 | h1
    · rw [h1, h] at h'
      rw [← Option.some.inj h']
    · rw [h1] at h'
      simp [storeFind] at h'

theorem staysActive_head (lib : HostLib) (k : Int) (e₁ : UnitRenderState)
    (st : PluginState) (ops : List Op) (h : staysActive lib k e₁ st ops) :
    SteadyAt k e₁ st := by
  cases ops with
  | nil => exact h
  | cons op rest => exact h.1

theorem runOps_progress_mono (lib : HostLib) (ops : List Op) (t : Int)
    (st : PluginState) (k : Int) (e₁ e e₂ : UnitRenderState)
    (hb : KeyBounded k t st) (hclock : clockMonotone t ops)
    (hspeed : speedNeverLowered lib st ops)
    (hsteady : staysActive lib k e₁ st ops)
    (h : storeFind st.unit_states k = some e)
    (h₂ : storeFind (runOps lib ops st).unit_states k = some e₂) :
    e.progress ≤ e₂.progress := by
  induction ops generalizing t st e with
  | nil =>
    simp only [runOps] at h₂
    rw [h] at h₂
    rw [← Option.some.inj h₂]
  | cons op rest ih =>
    obtain ⟨e₀, h₀, hs₀⟩ := hsteady.1
    rw [h] at h₀
    have he : e₀ = e := (Option.some.inj h₀).symm
    subst he
    obtain ⟨e', h', hs'⟩ := staysActive_head lib k e₁ _ rest hsteady.2
    have m₁ := applyOp_progress_mono lib t op st k e₀ e' hb hclock.1 h hs₀.1 h' hs'.1
      (by rw [hs'.2.1, hs₀.2.1])
    have m₂ := ih (op.clockAfter t) (applyOp lib op st) e'
      (keyBounded_applyOp lib k t op st hb hclock.1 hspeed.1) hclock.2 hspeed.2
      hsteady.2 h' h₂
    exact le_trans m₁ m₂

/-- C6, as amended (monotone progress).  Take a run of the public operations
from the loaded plugin under a clock that never goes back, and a moment of it
(after `ops₀`) at which the stored progress of the entity is not ahead of the
current speed: it is at most the value a progress update at that moment would
compute.  That is so whenever the entity is untracked, settled or at progress
0 (`progressCurrent_of_notUnderWay`: at plugin load, right after the detection
pass that started its interpolation) and right after every progress update
(`progressCurrent_after_update`).  If no operation after that moment lowers
`interpolation_speed`, and between two later observations the entity stays
tracked and active with no position change of it detected (its entry keeps
its start time and current position), then its progress at the later
observation is at least its progress at the earlier one.  What `speed`
commands did before that moment does not matter. -/
theorem progress_monotone (lib : HostLib) (t₀ : Int) (ops₀ ops₁ ops₂ : List Op) (k : Int)
    (e₁ e₂ : UnitRenderState)
    (hclock : clockMonotone t₀ (ops₀ ++ (ops₁ ++ ops₂)))
    (hfresh : ProgressCurrent k (clockEnd t₀ ops₀) (runOps lib ops₀ PluginState.initial))
    (hspeed : speedNeverLowered lib (runOps lib ops₀ PluginState.initial) (ops₁ ++ ops₂))
    (h₁ : storeFind (runOps lib ops₁
      (runOps lib ops₀ PluginState.initial)).unit_states k = some e₁)
    (h₂ : storeFind (runOps lib ops₂ (runOps lib ops₁
      (runOps lib ops₀ PluginState.initial))).unit_states k = some e₂)
    (hsteady : staysActive lib k e₁
      (runOps lib ops₁ (runOps lib ops₀ PluginState.initial)) ops₂) :
    e₁.progress ≤ e₂.progress := by
  rw [clockMonotone_append] at hclock
  obtain ⟨hc₀, hc⟩ := hclock
  rw [clockMonotone_append] at hc
  rw [speedNeverLowered_append] at hspeed
  have hr := reachableAt_runOps lib ops₀ t₀ PluginState.initial (ReachableAt.initial t₀) hc₀
  have hb₀ := keyBounded_of_progressCurrent lib k _ _ hr hfresh
  have hb₁ := keyBounded_runOps lib k ops₁ _ _ hb₀ hc.1 hspeed.1
  exact runOps_progress_mono lib ops₂ _ _ k e₁ e₁ e₂ hb₁ hc.2 hspeed.2 hsteady h₁ h₂

/-! ## Evaluation of the example runs -/

theorem smooth_movement_cmd_speed_eq (lib : HostLib) (arg : String) (rest : List String)
    (s : ℚ) (st : PluginState) (hparse : lib.stof arg = some (.finite s)) :
    (smooth_movement_cmd lib ("speed" :: arg :: rest) st).state =
      { st with config := { st.config with interpolation_speed := max (1 / 2) (min 2 s) } } := by
  have h : (smooth_movement_cmd lib ("speed" :: arg :: rest) st).state =
      { st with config :=
          { st.config with interpolation_speed := (clampSpeed (.finite s)).toRat } } := by
    simp [smooth_movement_cmd, hparse]
  rw [h, clampSpeed_finite]
  rfl

theorem exTwoPasses_entry :
    storeFind (update_unit_positions exEnvMoved
      (update_unit_positions exEnv PluginState.initial)).unit_states 1 =
      some { unit_id := 1, x_prev := 5, y_prev := 5, z_prev := 0,
             x_curr := 6, y_curr := 5, z_curr := 0,
             progress := 0, active := true, start_time := 7000000 } := by
  decide

theorem exTwoPasses_config :
    (update_unit_positions exEnvMoved
      (update_unit_positions exEnv PluginState.initial)).config = {} := by
  rw [update_unit_positions_config, update_unit_positions_config]; rfl

theorem exFastRun_config :
    (runOps exLib exFastRun PluginState.initial).config = { interpolation_speed := 2 } := by
  show (update_interpolation 32000000 (smooth_movement_cmd exLib ["speed", "2"]
    (update_unit_positions exEnvMoved
      (update_unit_positions exEnv PluginState.initial))).state).config = _
  rw [update_interpolation_config,
    smooth_movement_cmd_speed_eq exLib "2" [] 2 _ (by decide)]
  simp only [exTwoPasses_config]
  norm_num

theorem exFastRun_entry :
    storeFind (runOps exLib exFastRun PluginState.initial).unit_states 1 =
      some exFastEntry := by
  have h3 : elapsedMs 32000000 7000000 = 25 := by decide
  show storeFind (update_interpolation 32000000 (smooth_movement_cmd exLib ["speed", "2"]
    (update_unit_positions exEnvMoved
      (update_unit_positions exEnv PluginState.initial))).state).unit_states 1 = _
  rw [smooth_movement_cmd_speed_eq exLib "2" [] 2 _ (by decide)]
  rw [storeFind_update_interpolation _ _ _ (by simp only [exTwoPasses_config])]
  simp only [exTwoPasses_entry, Option.map_some', exTwoPasses_config]
  rw [interpolateState_active _ _ _ rfl]
  have hpb := progressBound_eq 32000000 7000000 25 2 25 50 (1 / 2) h3
    (by norm_num [roundFloat_25]) (by norm_num [roundFloat_50])
    (by norm_num [roundFloat_half])
  simp only [exFastEntry]
  norm_num
  rw [hpb]
  norm_num

theorem exSlowCommand_state :
    (smooth_movement_cmd exLib ["speed", "0.5"]
      (runOps exLib exFastRun PluginState.initial)).state =
      { runOps exLib exFastRun PluginState.initial with
        config := { interpolation_speed := 1 / 2 } } := by
  rw [smooth_movement_cmd_speed_eq exLib "0.5" [] (1 / 2) _ (by simp [exLib])]
  simp only [exFastRun_config]
  norm_num

theorem exSlowRun_entry :
    storeFind (runOps exLib exSlowRun
      (runOps exLib exFastRun PluginState.initial)).unit_states 1 = some exSlowEntry := by
  have h3 : elapsedMs 37000000 7000000 = 30 := by decide
  show storeFind (update_interpolation 37000000 (smooth_movement_cmd exLib ["speed", "0.5"]
    (runOps exLib exFastRun PluginState.initial)).state).unit_states 1 = _
  rw [exSlowCommand_state, storeFind_update_interpolation _ _ _ rfl]
  simp only [exFastRun_entry, Option.map_some']
  rw [interpolateState_active _ _ _ rfl]
  have hpb := progressBound_eq 37000000 7000000 30 (1 / 2) 30 200 (5033165 / 33554432) h3
    (by norm_num [roundFloat_30]) (by norm_num [roundFloat_200])
    (by norm_num [roundFloat_three_twentieths])
  simp only [exFastEntry, exSlowEntry]
  norm_num
  rw [hpb]
  norm_num

/-- Counterexample to C6 as stated: in the run `exFastRun ++ exSlowRun` the
clock never goes back, unit 1 stays tracked and active in the interpolation
started at 7 ms with no position change detected between the two
observations, and its progress falls from 1/2 (after `exFastRun`: 25 ms at
speed 2) to 0.15f = 5033165 / 2 ^ 25 (after `exSlowRun`: the `speed 0.5`
command, then 30 ms at speed 0.5). -/
theorem progress_monotone_counterexample :
    clockMonotone 0 (exFastRun ++ exSlowRun) ∧
    storeFind (runOps exLib exFastRun PluginState.initial).unit_states 1 =
      some exFastEntry ∧
    storeFind (runOps exLib exSlowRun
      (runOps exLib exFastRun PluginState.initial)).unit_states 1 = some exSlowEntry ∧
    staysActive exLib 1 exFastEntry (runOps exLib exFastRun PluginState.initial)
      exSlowRun ∧
    exFastEntry.progress = 1 / 2 ∧ exSlowEntry.progress = 5033165 / 33554432 ∧
    exSlowEntry.progress < exFastEntry.progress := by
  refine ⟨?_, exFastRun_entry, exSlowRun_entry, ⟨?_, ?_, ?_⟩, rfl, rfl, ?_⟩
  · simp [clockMonotone, exFastRun, exSlowRun, Op.clockFrom, Op.clockAfter, exEnv,
      exEnvMoved]
  · exact ⟨exFastEntry, exFastRun_entry, rfl, rfl, rfl, rfl, rfl⟩
  · refine ⟨exFastEntry, ?_, rfl, rfl, rfl, rfl, rfl⟩
    show storeFind (smooth_movement_cmd exLib ["speed", "0.5"]
      (runOps exLib exFastRun PluginState.initial)).state.unit_states 1 = _
    rw [exSlowCommand_state]
    exact exFastRun_entry
  · exact ⟨exSlowEntry, exSlowRun_entry, rfl, rfl, rfl, rfl, rfl⟩
  · simp only [exFastEntry, exSlowEntry]
    norm_num

theorem exLateRun_entry :
    storeFind (runOps exLib exLateRun
      (runOps exLib exMidRun PluginState.initial)).unit_states 1 = some exLateEntry := by
  have h3 : elapsedMs 82000000 7000000 = 75 := by decide
  have hc : (runOps exLib exMidRun PluginState.initial).config = {} := by
    show (update_interpolation 57000000 (update_unit_positions exEnvMoved
      (update_unit_positions exEnv PluginState.initial))).config = _
    rw [update_interpolation_config, exTwoPasses_config]
  show storeFind (update_interpolation 82000000
    (runOps exLib exMidRun PluginState.initial)).unit_states 1 = _
  rw [storeFind_update_interpolation _ _ _ (by rw [hc])]
  simp only [exMidRun_entry, Option.map_some', hc]
  rw [interpolateState_active _ _ _ rfl]
  have hpb := progressBound_eq 82000000 7000000 75 1 75 100 (3 / 4) h3
    (by norm_num [roundFloat_75]) (by norm_num [roundFloat_100])
    (by norm_num [roundFloat_three_quarters])
  simp only [exMidEntry, exLateEntry]
  norm_num
  rw [hpb]
  norm_num

theorem exHalfSpeed_state :
    (smooth_movement_cmd exLib ["speed", "0.5"] PluginState.initial).state =
      exHalfSpeedState := by
  rw [smooth_movement_cmd_speed_eq exLib "0.5" [] (1 / 2) _ (by simp [exLib])]
  simp only [PluginState.initial, exHalfSpeedState]
  norm_num

theorem exHalfSpeedMoved_config :
    (update_unit_positions exEnvMoved
      (update_unit_positions exEnv exHalfSpeedState)).config =
      { interpolation_speed := 1 / 2 } := by
  rw [update_unit_positions_config, update_unit_positions_config]; rfl

theorem exQuarterRun_entry :
    storeFind (runOps exLib exQuarterRun exHalfSpeedState).unit_states 1 =
      some exQuarterEntry := by
  have h1 : storeFind (update_unit_positions exEnvMoved
      (update_unit_positions exEnv exHalfSpeedState)).unit_states 1 =
      some { unit_id := 1, x_prev := 5, y_prev := 5, z_prev := 0,
             x_curr := 6, y_curr := 5, z_curr := 0,
             progress := 0, active := true, start_time := 7000000 } := by decide
  have h3 : elapsedMs 57000000 7000000 = 50 := by decide
  show storeFind (update_interpolation 57000000 (update_unit_positions exEnvMoved
      (update_unit_positions exEnv exHalfSpeedState))).unit_states 1 = _
  rw [storeFind_interp_eval 57000000 _ 1 _ 50 50 200 (1 / 4)
    (by rw [exHalfSpeedMoved_config]) h1 rfl h3
    (by norm_num [roundFloat_50])
    (by rw [exHalfSpeedMoved_config]; norm_num [roundFloat_200])
    (by norm_num [roundFloat_quarter])]
  simp only [exQuarterEntry]
  norm_num

theorem exQuarterRun_config :
    (runOps exLib exQuarterRun exHalfSpeedState).config = { interpolation_speed := 1 / 2 } := by
  show (update_interpolation 57000000 (update_unit_positions exEnvMoved
      (update_unit_positions exEnv exHalfSpeedState))).config = _
  rw [update_interpolation_config, exHalfSpeedMoved_config]

theorem exHalfRun_entry :
    storeFind (runOps exLib exHalfRun
      (runOps exLib exQuarterRun exHalfSpeedState)).unit_states 1 = some exHalfEntry := by
  have h3 : elapsedMs 107000000 7000000 = 100 := by decide
  show storeFind (update_interpolation 107000000
    (runOps exLib exQuarterRun exHalfSpeedState)).unit_states 1 = _
  rw [storeFind_interp_eval 107000000 _ 1 _ 100 100 200 (1 / 2)
    (by rw [exQuarterRun_config]) exQuarterRun_entry rfl h3
    (by norm_num [roundFloat_100])
    (by rw [exQuarterRun_config]; norm_num [roundFloat_200])
    (by norm_num [roundFloat_half])]
  simp only [exQuarterEntry, exHalfEntry]
  norm_num

theorem exSlowRun_config :
    (runOps exLib exSlowRun (runOps exLib exFastRun PluginState.initial)).config =
      { interpolation_speed := 1 / 2 } := by
  show (update_interpolation 37000000 (smooth_movement_cmd exLib ["speed", "0.5"]
    (runOps exLib exFastRun PluginState.initial)).state).config = _
  rw [update_interpolation_config, exSlowCommand_state]

theorem exRecoverRun_entry :
    storeFind (runOps exLib exRecoverRun (runOps exLib exSlowRun
      (runOps exLib exFastRun PluginState.initial))).unit_states 1 =
      some exRecoverEntry := by
  have h3 : elapsedMs 57000000 7000000 = 50 := by decide
  show storeFind (update_interpolation 57000000 (runOps exLib exSlowRun
      (runOps exLib exFastRun PluginState.initial))).unit_states 1 = _
  rw [storeFind_interp_eval 57000000 _ 1 _ 50 50 200 (1 / 4)
    (by rw [exSlowRun_config]) exSlowRun_entry rfl h3
    (by norm_num [roundFloat_50])
    (by rw [exSlowRun_config]; norm_num [roundFloat_200])
    (by norm_num [roundFloat_quarter])]
  simp only [exSlowEntry, exRecoverEntry]
  norm_num

/-- Witness of C6 as amended, at two runs.  (1) The speed is lowered to 0.5
right after load, before unit 1 is tracked; its interpolation, started at
7 ms, is at 1/4 at the update at 57 ms and at 1/2 at the update at 107 ms.
(2) After the run of the counterexample, in which the speed was lowered in
flight, the moment right after its last progress update qualifies: with the
speed left alone from there, the progress goes from 0.15f to 1/4 at the
update at 57 ms. -/
theorem progress_monotone_witness :
    ((runOps exLib [.command ["speed", "0.5"]]
        PluginState.initial).config.interpolation_speed <
      PluginState.initial.config.interpolation_speed ∧
     exQuarterEntry.progress = 1 / 4 ∧ exHalfEntry.progress = 1 / 2 ∧
     exQuarterEntry.progress ≤ exHalfEntry.progress) ∧
    (exSlowEntry.progress = 5033165 / 33554432 ∧ exRecoverEntry.progress = 1 / 4 ∧
     exSlowEntry.progress ≤ exRecoverEntry.progress) := by
  have h0 : runOps exLib [.command ["speed", "0.5"]] PluginState.initial =
      exHalfSpeedState := exHalfSpeed_state
  refine ⟨⟨?_, rfl, rfl, ?_⟩, rfl, rfl, ?_⟩
  · rw [h0]
    show (1 / 2 : ℚ) < 1
    norm_num
  · refine progress_monotone exLib 0 [.command ["speed", "0.5"]] exQuarterRun exHalfRun 1
      exQuarterEntry exHalfEntry ?_ ?_ ?_ ?_ ?_ ?_
    · simp [clockMonotone, exQuarterRun, exHalfRun, Op.clockFrom, Op.clockAfter, exEnv,
        exEnvMoved]
    · rw [h0]
      intro e he
      simp [exHalfSpeedState, storeFind] at he
    · rw [h0]
      simp [speedNeverLowered, exQuarterRun, exHalfRun, applyOp,
        update_unit_positions_config, update_interpolation_config]
    · rw [h0]; exact exQuarterRun_entry
    · rw [h0]; exact exHalfRun_entry
    · rw [h0]
      exact ⟨⟨exQuarterEntry, exQuarterRun_entry, rfl, rfl, rfl, rfl, rfl⟩,
        ⟨exHalfEntry, exHalfRun_entry, rfl, rfl, rfl, rfl, rfl⟩⟩
  · have hS : runOps exLib (exFastRun ++ exSlowRun) PluginState.initial =
        runOps exLib exSlowRun (runOps exLib exFastRun PluginState.initial) :=
      runOps_append exLib exFastRun exSlowRun PluginState.initial
    refine progress_monotone exLib 0 (exFastRun ++ exSlowRun) [] exRecoverRun 1
      exSlowEntry exRecoverEntry ?_ ?_ ?_ ?_ ?_ ?_
    · simp [clockMonotone, exFastRun, exSlowRun, exRecoverRun, Op.clockFrom,
        Op.clockAfter, exEnv, exEnvMoved]
    · rw [hS]
      have hen : (smooth_movement_cmd exLib ["speed", "0.5"]
          (runOps exLib exFastRun PluginState.initial)).state.config.enabled = true := by
        rw [exSlowCommand_state]
      exact progressCurrent_after_update 1 37000000 _ hen
    · rw [hS]
      simp [speedNeverLowered, exRecoverRun, applyOp, update_interpolation_config]
    · rw [hS]; exact exSlowRun_entry
    · rw [hS]; exact exRecoverRun_entry
    · rw [hS]
      exact ⟨⟨exSlowEntry, exSlowRun_entry, rfl, rfl, rfl, rfl, rfl⟩,
        ⟨exRecoverEntry, exRecoverRun_entry, rfl, rfl, rfl, rfl, rfl⟩⟩

/-! ## Query interface: the claims -/

/-- The query with explicit output parameters agrees with the query that
returns an option. -/
theorem get_unit_interpolation_data_call_eq (st : PluginState) (unit_id : Int)
    (outs : InterpolationData) :
    get_unit_interpolation_data st unit_id =
      if (get_unit_interpolation_data_call st unit_id outs).ret = true then
        some (get_unit_interpolation_data_call st unit_id outs).outs
      else none := by
  unfold get_unit_interpolation_data get_unit_interpolation_data_call
  by_cases hen : st.config.enabled = true
  · cases hf : storeFind st.unit_states unit_id with
    | none => simp [hen]
    | some e => by_cases ha : e.active = true <;> simp [hen, ha]
  · simp [hen]

/-- C11 (interpolation query).  For every state, entity id and prior values of
the output parameters, `get_unit_interpolation_data` returns true exactly when
the plugin is enabled, the id is tracked and its entry is active; when it
returns true the outputs are the x and y of the entry's previous position, the
x and y of its current position and its progress (the function has no z
output); when it returns false the output parameters keep their prior values;
and the configuration, the store and the counter are as before the call. -/
theorem interpolation_query (st : PluginState) (unit_id : Int) (outs : InterpolationData) :
    ((get_unit_interpolation_data_call st unit_id outs).ret = true ↔
      st.config.enabled = true ∧
      ∃ e, storeFind st.unit_states unit_id = some e ∧ e.active = true) ∧
    (∀ e, (get_unit_interpolation_data_call st unit_id outs).ret = true →
      storeFind st.unit_states unit_id = some e →
      (get_unit_interpolation_data_call st unit_id outs).outs =
        { x_prev := e.x_prev, y_prev := e.y_prev, x_curr := e.x_curr, y_curr := e.y_curr,
          progress := e.progress }) ∧
    ((get_unit_interpolation_data_call st unit_id outs).ret = false →
      (get_unit_interpolation_data_call st unit_id outs).outs = outs) ∧
    (get_unit_interpolation_data_call st unit_id outs).state = st := by
  by_cases hen : st.config.enabled = true
  · cases hf : storeFind st.unit_states unit_id with
    | none => simp [get_unit_interpolation_data_call, hen, hf]
    | some e =>
      by_cases ha : e.active = true
      · have hcall : get_unit_interpolation_data_call st unit_id outs =
            { state := st, ret := true
              outs := { x_prev := e.x_prev, y_prev := e.y_prev, x_curr := e.x_curr,
                        y_curr := e.y_curr, progress := e.progress } } := by
          simp [get_unit_interpolation_data_call, hen, hf, ha]
        rw [hcall]
        refine ⟨?_, ?_, ?_, rfl⟩
        · simp [hen, ha]
        · intro e' _ he'
          rw [← Option.some.inj he']
        · intro h; cases h
      · simp [get_unit_interpolation_data_call, hen, hf, ha]
  · simp [get_unit_interpolation_data_call, hen]

/-! ## Command interface: ghost toggle and usage errors -/

theorem smooth_movement_cmd_ghost_eq (lib : HostLib) (arg : String) (rest : List String)
    (st : PluginState) :
    smooth_movement_cmd lib ("ghost" :: arg :: rest) st =
      { state := { st with config := { st.config with ghost_trail := decide (arg = "on") } }
        out := ["Ghost trail " ++ (if decide (arg = "on") = true then "enabled" else "disabled")
          ++ ".\n"]
        outcome := .returned .CR_OK } := by
  simp [smooth_movement_cmd]

theorem smooth_movement_cmd_status_eq (lib : HostLib) (rest : List String)
    (st : PluginState) :
    smooth_movement_cmd lib ("status" :: rest) st =
      { state := st
        out := ["=== Smooth Movement Status ===\n",
                "Enabled: " ++ yesNo st.config.enabled ++ "\n",
                "Ghost trail: " ++ yesNo st.config.ghost_trail ++ "\n",
                "Interpolation speed: " ++ lib.fmt1 st.config.interpolation_speed ++ "\n",
                "Tracked units: " ++ toString st.unit_states.length ++ "\n"]
        outcome := .returned .CR_OK } := by
  simp [smooth_movement_cmd]

/-- C12 (ghost toggle).  After `ghost off`, whatever enabled is,
`should_render_ghost()` returns false and `status` (which changes nothing)
prints the line "Ghost trail: No"; and in every state
`should_render_ghost()` returns true exactly when enabled and ghost_trail are
both true, whatever the store holds. -/
theorem ghost_toggle (lib : HostLib) (st : PluginState) :
    should_render_ghost (smooth_movement_cmd lib ["ghost", "off"] st).state = false ∧
    (smooth_movement_cmd lib ["ghost", "off"] st).state.config.enabled =
      st.config.enabled ∧
    "Ghost trail: No\n" ∈
      (smooth_movement_cmd lib ["status"]
        (smooth_movement_cmd lib ["ghost", "off"] st).state).out ∧
    (smooth_movement_cmd lib ["status"]
        (smooth_movement_cmd lib ["ghost", "off"] st).state).state =
      (smooth_movement_cmd lib ["ghost", "off"] st).state ∧
    (∀ st' : PluginState, should_render_ghost st' = true ↔
      st'.config.enabled = true ∧ st'.config.ghost_trail = true) ∧
    (∀ (st' : PluginState) (s : Store),
      should_render_ghost { st' with unit_states := s } = should_render_ghost st') := by
  rw [smooth_movement_cmd_ghost_eq, smooth_movement_cmd_status_eq]
  refine ⟨?_, rfl, ?_, rfl, ?_, ?_⟩
  · simp [should_render_ghost]
  · have h : "Ghost trail: " ++ yesNo false ++ "\n" = "Ghost trail: No\n" := by decide
    have hd : decide ("off" = "on") = false := by decide
    simp only [hd, h, List.mem_cons]
    right; right; left; trivial
  · intro st'
    simp [should_render_ghost]
  · intro st' s
    rfl

/-- C13 (usage-error atomicity).  `smooth_movement_cmd` returns the
wrong-usage code exactly on the empty parameter list, on a first word outside
the vocabulary, and on `ghost` or `speed` with no argument; and whenever it
returns wrong-usage the state after the call (configuration, store, counter)
is the state before it. -/
theorem usage_error_atomic (lib : HostLib) (parameters : List String) (st : PluginState) :
    ((smooth_movement_cmd lib parameters st).outcome = .returned .CR_WRONG_USAGE ↔
      parameters = [] ∨
      (∃ cmd args, parameters = cmd :: args ∧ cmd ≠ "enable" ∧ cmd ≠ "disable" ∧
        cmd ≠ "ghost" ∧ cmd ≠ "speed" ∧ cmd ≠ "status") ∨
      parameters = ["ghost"] ∨ parameters = ["speed"]) ∧
    ((smooth_movement_cmd lib parameters st).outcome = .returned .CR_WRONG_USAGE →
      (smooth_movement_cmd lib parameters st).state = st) := by
  cases parameters with
  | nil => simp [smooth_movement_cmd]
  | cons cmd args =>
    by_cases h1 : cmd = "enable"
    · subst h1; simp [smooth_movement_cmd]
    by_cases h2 : cmd = "disable"
    · subst h2; simp [smooth_movement_cmd]
    by_cases h3 : cmd = "ghost"
    · subst h3
      cases args with
      | nil => simp [smooth_movement_cmd]
      | cons arg rest => simp [smooth_movement_cmd]
    by_cases h4 : cmd = "speed"
    · subst h4
      cases args with
      | nil => simp [smooth_movement_cmd]
      | cons arg rest =>
        cases hs : lib.stof arg <;> simp [smooth_movement_cmd, hs]
    by_cases h5 : cmd = "status"
    · subst h5; simp [smooth_movement_cmd]
    · simp [smooth_movement_cmd, h1, h2, h3, h4, h5]

/-- Witness of C13: `ghost` with no argument from the initial state. -/
theorem usage_error_atomic_witness :
    (smooth_movement_cmd exLib ["ghost"] PluginState.initial).outcome =
      .returned .CR_WRONG_USAGE ∧
    (smooth_movement_cmd exLib ["ghost"] PluginState.initial).state = PluginState.initial :=
  ⟨(usage_error_atomic exLib ["ghost"] PluginState.initial).1.2
      (Or.inr (Or.inr (Or.inl rfl))),
   (usage_error_atomic exLib ["ghost"] PluginState.initial).2
      ((usage_error_atomic exLib ["ghost"] PluginState.initial).1.2
        (Or.inr (Or.inr (Or.inl rfl))))⟩

/-- C14, as amended (malformed ghost argument).  For every `ghost <arg>`
command whose argument is not "on", so in particular when it is neither "on"
nor "off", `smooth_movement_cmd` returns `CR_OK`, prints "Ghost trail
disabled." and sets ghost_trail to false, exactly as `ghost off` does; the
rest of the configuration, the store and the counter are unchanged. -/
theorem ghost_other_argument (lib : HostLib) (arg : String) (rest : List String)
    (st : PluginState) (hon : arg ≠ "on") :
    (smooth_movement_cmd lib ("ghost" :: arg :: rest) st).outcome = .returned .CR_OK ∧
    (smooth_movement_cmd lib ("ghost" :: arg :: rest) st).out =
      ["Ghost trail disabled.\n"] ∧
    (smooth_movement_cmd lib ("ghost" :: arg :: rest) st).state =
      { st with config := { st.config with ghost_trail := false } } ∧
    (smooth_movement_cmd lib ("ghost" :: arg :: rest) st).state =
      (smooth_movement_cmd lib ["ghost", "off"] st).state := by
  have hd : decide (arg = "on") = false := by simp [hon]
  have hd' : decide ("off" = "on") = false := by decide
  have hs : "Ghost trail " ++ "disabled" ++ ".\n" = "Ghost trail disabled.\n" := by decide
  rw [smooth_movement_cmd_ghost_eq, smooth_movement_cmd_ghost_eq, hd, hd']
  simp [hs]

/-- Witness of C14 as amended: `ghost maybe` from the initial state. -/
theorem ghost_other_argument_witness :
    (smooth_movement_cmd exLib ["ghost", "maybe"] PluginState.initial).outcome =
      .returned .CR_OK ∧
    (smooth_movement_cmd exLib ["ghost", "maybe"] PluginState.initial).state =
      (smooth_movement_cmd exLib ["ghost", "off"] PluginState.initial).state :=
  ⟨(ghost_other_argument exLib "maybe" [] PluginState.initial (by decide)).1,
   (ghost_other_argument exLib "maybe" [] PluginState.initial (by decide)).2.2.2⟩

/-- Counterexample to C14 as stated: `ghost maybe`, whose argument is neither
"on" nor "off", entered in the initial state (ghost_trail = true) returns
`CR_OK`, not the wrong-usage code, and leaves ghost_trail = false. -/
theorem ghost_malformed_counterexample :
    "maybe" ≠ "on" ∧ "maybe" ≠ "off" ∧
    PluginState.initial.config.ghost_trail = true ∧
    (smooth_movement_cmd exLib ["ghost", "maybe"] PluginState.initial).outcome =
      .returned .CR_OK ∧
    (smooth_movement_cmd exLib ["ghost", "maybe"] PluginState.initial).outcome ≠
      .returned .CR_WRONG_USAGE ∧
    (smooth_movement_cmd exLib ["ghost", "maybe"]
      PluginState.initial).state.config.ghost_trail = false := by
  rw [smooth_movement_cmd_ghost_eq]
  refine ⟨by decide, by decide, rfl, rfl, by decide, by decide⟩

/-! ## Visibility filter: the claim -/

theorem wrap32_of_inIntRange (x : Int) (h : InIntRange x) : wrap32 x = x := by
  unfold wrap32
  obtain ⟨h1, h2⟩ := h
  rw [Int.emod_eq_of_lt (by omega) (by omega)]
  omega

/-- C15 (visibility filter).  `is_unit_visible` returns false for an absent
entity and when no viewport screen is active; for a present entity at (x,y,z),
view origin (vx,vy,vz) and viewport size (w,h) for which the `int` operations
of the source (x - vx, y - vy, w + 2, h + 2) do not overflow, it returns true
exactly when a viewport screen is active, z = vz, -2 ≤ x - vx < w + 2 and
-2 ≤ y - vy < h + 2. -/
theorem visibility_filter (v : ViewEnv) (u : DfUnit)
    (hx : InIntRange (u.pos_x - v.view_x)) (hy : InIntRange (u.pos_y - v.view_y))
    (hw : InIntRange (v.dimx + 2)) (hh : InIntRange (v.dimy + 2)) :
    (is_unit_visible v (some u) = true ↔
      v.dwarfmode = true ∧ u.pos_z = v.view_z ∧
      -2 ≤ u.pos_x - v.view_x ∧ u.pos_x - v.view_x < v.dimx + 2 ∧
      -2 ≤ u.pos_y - v.view_y ∧ u.pos_y - v.view_y < v.dimy + 2) ∧
    is_unit_visible v none = false ∧
    (v.dwarfmode = false → is_unit_visible v (some u) = false) := by
  refine ⟨?_, rfl, ?_⟩
  · unfold is_unit_visible
    simp only [wrap32_of_inIntRange _ hx, wrap32_of_inIntRange _ hy,
      wrap32_of_inIntRange _ hw, wrap32_of_inIntRange _ hh]
    by_cases hd : v.dwarfmode = true
    · by_cases hz : u.pos_z = v.view_z
      · simp [hd, hz]
      · simp [hd, hz]
    · simp [hd]
  · intro hd
    simp [is_unit_visible, hd]

/-- Witness of C15: a unit two cells left of the view origin of `exView` is
visible, a unit three cells left of it is not. -/
theorem visibility_filter_witness :
    is_unit_visible exView (some ⟨1, -2, 5, 0⟩) = true ∧
    is_unit_visible exView (some ⟨1, -3, 5, 0⟩) = false := by
  constructor
  · exact (visibility_filter exView ⟨1, -2, 5, 0⟩ (by decide) (by decide) (by decide)
      (by decide)).1.2 (by decide)
  · have h := (visibility_filter exView ⟨1, -3, 5, 0⟩ (by decide) (by decide) (by decide)
      (by decide)).1
    cases hv : is_unit_visible exView (some ⟨1, -3, 5, 0⟩) with
    | false => rfl
    | true =>
      have h3 := (h.1 hv).2.2.1
      exact absurd h3 (by decide)

/-! ## Speed bound -/

/-- C18 (speed bound, no division by zero).  In every state reachable from
the loaded plugin through any sequence of operations, commands in particular,
0.5 ≤ interpolation_speed ≤ 2.0; so neither divisor of `update_interpolation`
(the speed, and the duration 100 / speed) is zero, and the duration lies
between 50 and 200 ms. -/
theorem speed_bound (lib : HostLib) (st : PluginState) (h : Reachable lib st) :
    1 / 2 ≤ st.config.interpolation_speed ∧ st.config.interpolation_speed ≤ 2 ∧
    st.config.interpolation_speed ≠ 0 ∧
    TICK_DURATION_MS / st.config.interpolation_speed ≠ 0 ∧
    50 ≤ TICK_DURATION_MS / st.config.interpolation_speed ∧
    TICK_DURATION_MS / st.config.interpolation_speed ≤ 200 := by
  have hr : 1 / 2 ≤ st.config.interpolation_speed ∧ st.config.interpolation_speed ≤ 2 := by
    induction h with
    | initial =>
      show (1 / 2 : ℚ) ≤ 1 ∧ (1 : ℚ) ≤ 2
      constructor <;> norm_num
    | step op st _ ih => exact applyOp_speed_range lib op st ih
  obtain ⟨hlo, hhi⟩ := hr
  have hpos : 0 < st.config.interpolation_speed := lt_of_lt_of_le (by norm_num) hlo
  unfold TICK_DURATION_MS
  refine ⟨hlo, hhi, ne_of_gt hpos, ?_, ?_, ?_⟩
  · exact ne_of_gt (div_pos (by norm_num) hpos)
  · rw [le_div_iff₀ hpos]
    linarith
  · rw [div_le_iff₀ hpos]
    linarith

/-- Witness of C18: the state after the commands `speed 10` and `speed 0.1`. -/
theorem speed_bound_witness :
    1 / 2 ≤ (runOps exLib [.command ["speed", "10"], .command ["speed", "0.1"]]
      PluginState.initial).config.interpolation_speed ∧
    (runOps exLib [.command ["speed", "10"], .command ["speed", "0.1"]]
      PluginState.initial).config.interpolation_speed ≤ 2 :=
  have h := speed_bound exLib
    (runOps exLib [.command ["speed", "10"], .command ["speed", "0.1"]] PluginState.initial)
    (reachable_runOps exLib _ _ Reachable.initial)
  ⟨h.1, h.2.1⟩

/-! ## Frame properties -/

/-- C19 (no mutation on unchanged position).  In a detection pass that runs,
an entity that is already tracked, visible, reached before the cap, and whose
live position equals the stored current position keeps its entry exactly as it
was (unit id, previous and current position, progress, active, start_time), so
an interpolation in flight is not restarted.  The live entities have pairwise
distinct ids. -/
theorem unchanged_position_kept (st : PluginState) (env : HostEnv) (world : DfWorld)
    (pre post : List (Option DfUnit)) (u : DfUnit) (old : UnitRenderState)
    (hen : st.config.enabled = true) (hw : env.world = some world)
    (hok : world.units_active_ok = true)
    (hlive : world.units_active = pre ++ some u :: post)
    (hids : (liveIds world.units_active).Nodup)
    (hvis : is_unit_visible env.view (some u) = true)
    (hcap : ((visibleUnits env.view pre).length : Int) < st.config.max_tracked_units)
    (hold : storeFind st.unit_states u.id = some old)
    (hsame : old.x_curr = (u.pos_x : ℚ) ∧ old.y_curr = (u.pos_y : ℚ) ∧
      old.z_curr = (u.pos_z : ℚ)) :
    storeFind (update_unit_positions env st).unit_states u.id = some old := by
  have hmem : u ∈ scannedUnits st.config env.view world.units_active := by
    rw [hlive]
    exact mem_scannedUnits_of_before_cap st.config env.view pre post u hvis hcap
  have hnd := scannedUnits_ids_nodup st.config env.view world.units_active hids
  rw [update_unit_positions_eq env st world hen hw hok]
  simp only [storeFind_eraseUnseen]
  have hseen : u.id ∈ (trackAll env.now (scannedUnits st.config env.view world.units_active)
      ([], st.unit_states)).1 := by
    rw [mem_trackAll_seen]
    exact Or.inl (List.mem_map_of_mem _ hmem)
  rw [if_pos hseen, storeFind_trackAll_of_mem _ _ _ _ hnd hmem]
  have hno : ¬ (old.x_curr ≠ (u.pos_x : ℚ) ∨ old.y_curr ≠ (u.pos_y : ℚ) ∨
      old.z_curr ≠ (u.pos_z : ℚ)) := by
    rintro (h | h | h)
    · exact h hsame.1
    · exact h hsame.2.1
    · exact h hsame.2.2
  simp only [hold, trackEntry, retrack, if_neg hno]

/-- C20 (disabled is inert).  In a state with enabled = false, an on-update
callback, a detection pass and a progress update each return the state they
were given (store, configuration and throttle counter), whatever the live
entities, the camera and the clock are. -/
theorem disabled_is_inert (st : PluginState) (env : HostEnv) (now : Int)
    (h : st.config.enabled = false) :
    plugin_onupdate env now st = st ∧ update_unit_positions env st = st ∧
    update_interpolation now st = st := by
  refine ⟨?_, ?_, ?_⟩
  · simp [plugin_onupdate, h]
  · simp [update_unit_positions, h]
  · simp [update_interpolation, h]

/-- Witness of C19: unit 1 started to move at 7 ms; the pass at 9 ms finds it
where it is and leaves its entry in flight, started at 7 ms. -/
theorem unchanged_position_kept_witness :
    storeFind (update_unit_positions exEnvMovedLater (update_unit_positions exEnvMoved
        (update_unit_positions exEnv PluginState.initial))).unit_states 1 =
      some { unit_id := 1, x_prev := 5, y_prev := 5, z_prev := 0,
             x_curr := 6, y_curr := 5, z_curr := 0,
             progress := 0, active := true, start_time := 7000000 } :=
  unchanged_position_kept
    (update_unit_positions exEnvMoved (update_unit_positions exEnv PluginState.initial))
    exEnvMovedLater exWorldMoved
    [none, some ⟨2, 100, 5, 0⟩] [some ⟨3, 200, 7, 0⟩, some ⟨4, 8, 8, 0⟩] ⟨1, 6, 5, 0⟩
    { unit_id := 1, x_prev := 5, y_prev := 5, z_prev := 0,
      x_curr := 6, y_curr := 5, z_curr := 0,
      progress := 0, active := true, start_time := 7000000 }
    (by decide) rfl rfl rfl (by decide) (by decide) (by decide) (by decide)
    ⟨by norm_num, by norm_num, by norm_num⟩

/-- Witness of C20: after `disable`, an on-update callback with the live
entities of `exWorld` changes nothing. -/
theorem disabled_is_inert_witness :
    plugin_onupdate exEnv 5
        (smooth_movement_cmd exLib ["disable"] PluginState.initial).state =
      (smooth_movement_cmd exLib ["disable"] PluginState.initial).state :=
  (disabled_is_inert (smooth_movement_cmd exLib ["disable"] PluginState.initial).state
    exEnv 5 (by decide)).1

/-! ## Throttling -/

theorem update_unit_positions_counter (env : HostEnv) (st : PluginState) :
    (update_unit_positions env st).update_counter = st.update_counter := by
  unfold update_unit_positions
  by_cases hen : st.config.enabled = true
  · cases hw : env.world with
    | none => simp [hen]
    | some world => by_cases hok : world.units_active_ok = true <;> simp [hen, hok]
  · simp [hen]

theorem update_interpolation_counter (now : Int) (st : PluginState) :
    (update_interpolation now st).update_counter = st.update_counter := by
  unfold update_interpolation
  by_cases hen : st.config.enabled = true <;> simp [hen]

theorem smooth_movement_cmd_counter (lib : HostLib) (parameters : List String)
    (st : PluginState) :
    (smooth_movement_cmd lib parameters st).state.update_counter = st.update_counter := by
  unfold smooth_movement_cmd
  cases parameters with
  | nil => simp
  | cons cmd args =>
    simp only
    split_ifs
    · simp
    · simp
    · cases args <;> simp
    · cases args with
      | nil => simp
      | cons arg rest =>
        simp only
        split <;> simp
    · simp
    · simp

theorem plugin_onupdate_counter (env : HostEnv) (now_interp : Int) (st : PluginState) :
    (plugin_onupdate env now_interp st).update_counter =
      if st.config.enabled = true then wrap32 (st.update_counter + 1)
      else st.update_counter := by
  unfold plugin_onupdate
  by_cases hen : st.config.enabled = true
  · simp only [hen, Bool.not_true, Bool.false_eq_true, if_false, if_true]
    rw [update_interpolation_counter]
    split
    · rw [update_unit_positions_counter]
    · rfl
  · simp [hen]

/-- The counter after a run is the number of on-update callbacks made while
enabled, as long as that number fits an `int`. -/
theorem runOps_counter (lib : HostLib) (ops : List Op) (st : PluginState)
    (h0 : 0 ≤ st.update_counter)
    (hn : st.update_counter + (enabledCallbacks lib st ops : Int) < 2147483648) :
    (runOps lib ops st).update_counter =
      st.update_counter + (enabledCallbacks lib st ops : Int) := by
  induction ops generalizing st with
  | nil => simp [runOps, enabledCallbacks]
  | cons op rest ih =>
    cases op with
    | onupdate env now_interp =>
      simp only [runOps, enabledCallbacks, applyOp] at hn ⊢
      have hc := plugin_onupdate_counter env now_interp st
      by_cases hen : st.config.enabled = true
      · simp only [hen, if_true] at hc hn ⊢
        have hw : wrap32 (st.update_counter + 1) = st.update_counter + 1 :=
          wrap32_of_inIntRange _ ⟨by omega, by push_cast at hn; omega⟩
        rw [hw] at hc
        rw [ih (plugin_onupdate env now_interp st) (by rw [hc]; omega)
          (by rw [hc]; push_cast at hn ⊢; omega), hc]
        push_cast
        omega
      · simp only [hen, if_false, Bool.false_eq_true] at hc hn ⊢
        rw [ih (plugin_onupdate env now_interp st) (by rw [hc]; exact h0)
          (by rw [hc]; push_cast at hn ⊢; omega), hc]
        push_cast
        omega
    | detect env =>
      simp only [runOps, enabledCallbacks] at hn ⊢
      have hc : (applyOp lib (.detect env) st).update_counter = st.update_counter :=
        update_unit_positions_counter env st
      rw [ih _ (by rw [hc]; exact h0) (by rw [hc]; exact hn), hc]
    | interp now =>
      simp only [runOps, enabledCallbacks] at hn ⊢
      have hc : (applyOp lib (.interp now) st).update_counter = st.update_counter :=
        update_interpolation_counter now st
      rw [ih _ (by rw [hc]; exact h0) (by rw [hc]; exact hn), hc]
    | command parameters =>
      simp only [runOps, enabledCallbacks] at hn ⊢
      have hc : (applyOp lib (.command parameters) st).update_counter = st.update_counter :=
        smooth_movement_cmd_counter lib parameters st
      rw [ih _ (by rw [hc]; exact h0) (by rw [hc]; exact hn), hc]

/-- C16 (throttling).  After any run of operations from the loaded plugin,
let n be one more than the number of on-update callbacks made while enabled,
with n below 2^31.  If the plugin is enabled, the next on-update callback (the
n-th made while enabled) sets the counter to n and then, if n is a multiple of
10, runs the detection pass followed by the progress update, and otherwise
runs the progress update alone. -/
theorem throttling (lib : HostLib) (ops : List Op) (env : HostEnv) (now_interp : Int)
    (hen : (runOps lib ops PluginState.initial).config.enabled = true)
    (hn : enabledCallbacks lib PluginState.initial ops + 1 < 2147483648) :
    plugin_onupdate env now_interp (runOps lib ops PluginState.initial) =
      if (enabledCallbacks lib PluginState.initial ops + 1) % 10 = 0 then
        update_interpolation now_interp
          (update_unit_positions env
            { runOps lib ops PluginState.initial with
              update_counter := ((enabledCallbacks lib PluginState.initial ops + 1 : Nat) : Int) })
      else
        update_interpolation now_interp
          { runOps lib ops PluginState.initial with
            update_counter := ((enabledCallbacks lib PluginState.initial ops + 1 : Nat) : Int) } := by
  have hc := runOps_counter lib ops PluginState.initial (le_refl _)
    (by
      show (0 : Int) + (enabledCallbacks lib PluginState.initial ops : Int) < 2147483648
      omega)
  have hc' : (runOps lib ops PluginState.initial).update_counter =
      (enabledCallbacks lib PluginState.initial ops : Int) := by
    rw [hc]
    show (0 : Int) + _ = _
    omega
  have hw : wrap32 ((enabledCallbacks lib PluginState.initial ops : Int) + 1) =
      ((enabledCallbacks lib PluginState.initial ops + 1 : Nat) : Int) := by
    rw [wrap32_of_inIntRange _ ⟨by omega, by omega⟩]
    push_cast
    rfl
  have hm : Int.tmod ((enabledCallbacks lib PluginState.initial ops + 1 : Nat) : Int) 10 =
      ((enabledCallbacks lib PluginState.initial ops + 1 : Nat) : Int) % 10 :=
    Int.tmod_eq_emod (by omega) (by norm_num)
  unfold plugin_onupdate
  simp only [hen, Bool.not_true, Bool.false_eq_true, if_false, hc', hw, hm]
  by_cases h10 : (enabledCallbacks lib PluginState.initial ops + 1) % 10 = 0
  · have h10' : ((enabledCallbacks lib PluginState.initial ops + 1 : Nat) : Int) % 10 = 0 := by
      omega
    rw [if_pos h10', if_pos h10]
  · have h10' : ¬ ((enabledCallbacks lib PluginState.initial ops + 1 : Nat) : Int) % 10 = 0 := by
      omega
    rw [if_neg h10', if_neg h10]

/-- Witness of C16: after nine callbacks the tenth one runs the detection
pass, then the progress update. -/
theorem throttling_witness :
    enabledCallbacks exLib PluginState.initial exNineCallbacks + 1 = 10 ∧
    plugin_onupdate exEnv 0 (runOps exLib exNineCallbacks PluginState.initial) =
      update_interpolation 0
        (update_unit_positions exEnv
          { runOps exLib exNineCallbacks PluginState.initial with update_counter := 10 }) := by
  have h9 : enabledCallbacks exLib PluginState.initial exNineCallbacks + 1 = 10 := by decide
  refine ⟨h9, ?_⟩
  have h := throttling exLib exNineCallbacks exEnv 0 (by decide) (by decide)
  rw [h9] at h
  simpa using h

/-! ## End-to-end scenario -/

theorem scenarioSeen_store (t₁ : Int) :
    (scenarioSeen t₁).unit_states =
      [(1, { unit_id := 1, x_prev := 5, y_prev := 5, z_prev := 0,
             x_curr := 5, y_curr := 5, z_curr := 0,
             progress := 1, active := false, start_time := 0 })] := by
  have hv : is_unit_visible exView (some ⟨1, 5, 5, 0⟩) = true := by decide
  simp [scenarioSeen, update_unit_positions, PluginState.initial, scenarioEnv,
    scenarioWorld, scanUnits, hv, trackUnit, storeFind, storeAssign, newUnitState,
    UnitRenderState.default, markSeen, eraseUnseen]

theorem scenarioSeen_config (t₁ : Int) : (scenarioSeen t₁).config = {} := by
  unfold scenarioSeen
  rw [update_unit_positions_config]
  rfl

theorem scenarioMoved_store (t₁ t₀ : Int) :
    (scenarioMoved t₁ t₀).unit_states =
      [(1, { unit_id := 1, x_prev := 5, y_prev := 5, z_prev := 0,
             x_curr := 6, y_curr := 5, z_curr := 0,
             progress := 0, active := true, start_time := t₀ })] := by
  have hv : is_unit_visible exView (some ⟨1, 6, 5, 0⟩) = true := by decide
  have hen : (scenarioSeen t₁).config.enabled = true := by rw [scenarioSeen_config]
  have hmax : (scenarioSeen t₁).config.max_tracked_units = 500 := by
    rw [scenarioSeen_config]
  unfold scenarioMoved update_unit_positions
  simp only [hen, Bool.not_true, Bool.false_eq_true, if_false, scenarioEnv, scenarioWorld,
    scanUnits, hv, hmax, scenarioSeen_store]
  simp [trackUnit, storeFind, storeModify, retrack, markSeen, eraseUnseen]

theorem scenarioMoved_config (t₁ t₀ : Int) : (scenarioMoved t₁ t₀).config = {} := by
  unfold scenarioMoved
  rw [update_unit_positions_config, scenarioSeen_config]

theorem scenarioHalf_store (t₁ t₀ : Int) :
    (scenarioHalf t₁ t₀).unit_states =
      [(1, { unit_id := 1, x_prev := 5, y_prev := 5, z_prev := 0,
             x_curr := 6, y_curr := 5, z_curr := 0,
             progress := 1 / 2, active := true, start_time := t₀ })] := by
  have hel : elapsedMs (t₀ + 50 * TICKS_PER_MS) t₀ = 50 := by
    unfold elapsedMs TICKS_PER_MS
    rw [add_sub_cancel_left]
    decide
  unfold scenarioHalf update_interpolation
  simp only [scenarioMoved_config, scenarioMoved_store, Bool.not_true, Bool.false_eq_true,
    if_false, List.map_cons, List.map_nil]
  rw [interpolateState_active _ _ _ rfl]
  have hpb := progressBound_eq (t₀ + 50 * TICKS_PER_MS) t₀ 50 1 50 100 (1 / 2) hel
    (by norm_num [roundFloat_50]) (by norm_num [roundFloat_100])
    (by norm_num [roundFloat_half])
  norm_num
  rw [hpb]
  norm_num

theorem scenarioHalf_config (t₁ t₀ : Int) : (scenarioHalf t₁ t₀).config = {} := by
  unfold scenarioHalf
  rw [update_interpolation_config, scenarioMoved_config]

theorem scenarioDone_store (t₁ t₀ : Int) :
    (scenarioDone t₁ t₀).unit_states =
      [(1, { unit_id := 1, x_prev := 5, y_prev := 5, z_prev := 0,
             x_curr := 6, y_curr := 5, z_curr := 0,
             progress := 1, active := false, start_time := t₀ })] := by
  have hel : elapsedMs (t₀ + 100 * TICKS_PER_MS) t₀ = 100 := by
    unfold elapsedMs TICKS_PER_MS
    rw [add_sub_cancel_left]
    decide
  unfold scenarioDone update_interpolation
  simp only [scenarioHalf_config, scenarioHalf_store, Bool.not_true, Bool.false_eq_true,
    if_false, List.map_cons, List.map_nil]
  rw [interpolateState_active _ _ _ rfl]
  have hpb := progressBound_eq (t₀ + 100 * TICKS_PER_MS) t₀ 100 1 100 100 1 hel
    (by norm_num [roundFloat_100]) (by norm_num [roundFloat_100])
    (by norm_num [roundFloat_one])
  norm_num
  rw [hpb]
  norm_num

/-- C17 (end-to-end scenario).  With the default speed 1 and the tick
duration 100 ms, entity 1 first seen at (5,5,0) gets progress 1 (inactive);
the detection pass at `t₀` that finds it at (6,5,0) yields previous =
(5,5,0), current = (6,5,0), progress 0, active; the progress update at `t₀` +
50 ms yields progress 1/2, still active; and the progress update at `t₀` +
100 ms yields progress 1, inactive.  The clock readings `t₁` of the first pass
and `t₀` are arbitrary. -/
theorem end_to_end_scenario (t₁ t₀ : Int) :
    PluginState.initial.config.interpolation_speed = 1 ∧ TICK_DURATION_MS = 100 ∧
    storeFind (scenarioSeen t₁).unit_states 1 =
      some { unit_id := 1, x_prev := 5, y_prev := 5, z_prev := 0,
             x_curr := 5, y_curr := 5, z_curr := 0,
             progress := 1, active := false, start_time := 0 } ∧
    storeFind (scenarioMoved t₁ t₀).unit_states 1 =
      some { unit_id := 1, x_prev := 5, y_prev := 5, z_prev := 0,
             x_curr := 6, y_curr := 5, z_curr := 0,
             progress := 0, active := true, start_time := t₀ } ∧
    storeFind (scenarioHalf t₁ t₀).unit_states 1 =
      some { unit_id := 1, x_prev := 5, y_prev := 5, z_prev := 0,
             x_curr := 6, y_curr := 5, z_curr := 0,
             progress := 1 / 2, active := true, start_time := t₀ } ∧
    storeFind (scenarioDone t₁ t₀).unit_states 1 =
      some { unit_id := 1, x_prev := 5, y_prev := 5, z_prev := 0,
             x_curr := 6, y_curr := 5, z_curr := 0,
             progress := 1, active := false, start_time := t₀ } := by
  rw [scenarioSeen_store, scenarioMoved_store, scenarioHalf_store, scenarioDone_store]
  refine ⟨rfl, rfl, ?_, ?_, ?_, ?_⟩ <;> simp [storeFind]

end SmoothMovement
